import Mathlib

/-!
OpenFlow 1.1 wire structures (package `ofp11`)

A verification development over `protocol/ofp11/ofproto11.go`.

The Go file consists of constant blocks, record (struct) declarations and
three interface declarations. They are embedded here as data:

* a constant block that uses `iota` is a list of `ConstSpec` lines, evaluated
  by `evalConstBlock` following Go's rule (the value of `iota` is the index of
  the line in its block, a line without expression repeats the previous one);
  the other constants are written with their expressions;
* a record declaration is a `GoType.struct` carrying its fields, in
  declaration order, each with its declared Go type; `GoType.wireWidth` is the
  sum of the declared widths.

The file holds no encoder or decoder. The codec of the second part is
modelled from the specification of the package and is driven by the record
declarations: a generic codec for the types of fixed width, the records that
carry their own length, the three families of tagged elements with their
registries, and the messages.

The third part proves the lemmas about the codec, the last part the
properties of the declarations and of the codec.
-/

namespace ofp11

/-! ## Go constant blocks -/

/-- Expression on the right of a line of a constant block. -/
inductive ConstExpr where
  | iota
  | lit (n : Nat)

/-- One line of a constant block: the name and, when written, the expression. -/
structure ConstSpec where
  name : String
  expr : Option ConstExpr

/-- Value of an expression on the line of index `idx`. -/
def ConstExpr.eval (idx : Nat) : ConstExpr → Nat
  | .iota => idx
  | .lit n => n

/-- Evaluation of the lines of a block from index `idx` on, `prev` being the
expression of the line before. -/
def evalConstLines : Nat → ConstExpr → List ConstSpec → List (String × Nat)
  | _, _, [] => []
  | idx, prev, spec :: rest =>
      let e := spec.expr.getD prev
      (spec.name, e.eval idx) :: evalConstLines (idx + 1) e rest

/-- Evaluation of a whole constant block. -/
def evalConstBlock (block : List ConstSpec) : List (String × Nat) :=
  evalConstLines 0 .iota block

/-- A line `Name = iota`. -/
def iotaLine (name : String) : ConstSpec := ⟨name, some .iota⟩

/-- A line `Name` (implicit repetition). -/
def implicitLine (name : String) : ConstSpec := ⟨name, none⟩

/-- A line `Name = n`. -/
def litLine (name : String) (n : Nat) : ConstSpec := ⟨name, some (.lit n)⟩

/-- Value of the constant `name` of a block (0 when the block has no such line). -/
def constValue (block : List ConstSpec) (name : String) : Nat :=
  ((evalConstBlock block).lookup name).getD 0

/-- All values defined by a block, in declaration order. -/
def constValues (block : List ConstSpec) : List Nat :=
  (evalConstBlock block).map Prod.snd

/-- Wire protocol version. -/
def Version : Nat := 2

/-- The constant block `// Type`. -/
def messageTypeBlock : List ConstSpec :=
  [ iotaLine "OFPTHello",
    implicitLine "OFPTError",
    implicitLine "OFPTEchoRequest",
    implicitLine "OFPTEchoReply",
    implicitLine "OFPTExperimenter",
    implicitLine "OFPTFeaturesRequest",
    implicitLine "OFPTFeaturesReply",
    implicitLine "OFPTGetConfigRequest",
    implicitLine "OFPTGetConfigReply",
    implicitLine "OFPTSetConfig",
    implicitLine "OFPTPacketIn",
    implicitLine "OFPTFlowRemoved",
    implicitLine "OFPTPortStatus",
    implicitLine "OFPTPacketOut",
    implicitLine "OFPTFlowMod",
    implicitLine "OFPTGroupMod",
    implicitLine "OFPTPortMod",
    implicitLine "OFPTTableMod",
    implicitLine "OFPTStatsRequest",
    implicitLine "OFPTStatsReply",
    implicitLine "OFPTBarrierRequest",
    implicitLine "OFPTBarrierReply",
    implicitLine "OFPTQueueGetConfigRequest",
    implicitLine "OFPTQueueGetConfigReply" ]

def OFPTHello : Nat := constValue messageTypeBlock "OFPTHello"
def OFPTError : Nat := constValue messageTypeBlock "OFPTError"
def OFPTEchoRequest : Nat := constValue messageTypeBlock "OFPTEchoRequest"
def OFPTEchoReply : Nat := constValue messageTypeBlock "OFPTEchoReply"
def OFPTExperimenter : Nat := constValue messageTypeBlock "OFPTExperimenter"
def OFPTFeaturesRequest : Nat := constValue messageTypeBlock "OFPTFeaturesRequest"
def OFPTFeaturesReply : Nat := constValue messageTypeBlock "OFPTFeaturesReply"
def OFPTGetConfigRequest : Nat := constValue messageTypeBlock "OFPTGetConfigRequest"
def OFPTGetConfigReply : Nat := constValue messageTypeBlock "OFPTGetConfigReply"
def OFPTSetConfig : Nat := constValue messageTypeBlock "OFPTSetConfig"
def OFPTPacketIn : Nat := constValue messageTypeBlock "OFPTPacketIn"
def OFPTFlowRemoved : Nat := constValue messageTypeBlock "OFPTFlowRemoved"
def OFPTPortStatus : Nat := constValue messageTypeBlock "OFPTPortStatus"
def OFPTPacketOut : Nat := constValue messageTypeBlock "OFPTPacketOut"
def OFPTFlowMod : Nat := constValue messageTypeBlock "OFPTFlowMod"
def OFPTGroupMod : Nat := constValue messageTypeBlock "OFPTGroupMod"
def OFPTPortMod : Nat := constValue messageTypeBlock "OFPTPortMod"
def OFPTTableMod : Nat := constValue messageTypeBlock "OFPTTableMod"
def OFPTStatsRequest : Nat := constValue messageTypeBlock "OFPTStatsRequest"
def OFPTStatsReply : Nat := constValue messageTypeBlock "OFPTStatsReply"
def OFPTBarrierRequest : Nat := constValue messageTypeBlock "OFPTBarrierRequest"
def OFPTBarrierReply : Nat := constValue messageTypeBlock "OFPTBarrierReply"
def OFPTQueueGetConfigRequest : Nat := constValue messageTypeBlock "OFPTQueueGetConfigRequest"
def OFPTQueueGetConfigReply : Nat := constValue messageTypeBlock "OFPTQueueGetConfigReply"

/-! Constants `// constant`. -/

def OFPEthALen : Nat := 6
def OFPMaxPortNameLen : Nat := 16

/-! Constants `// Port config`. -/

def OFPPCPortDown : Nat := 1 <<< 0
def OFPPCNORecv : Nat := 1 <<< 2
def OFPPCNOFWD : Nat := 1 <<< 5
def OFPPCNOPacketIn : Nat := 1 <<< 6

/-! Constants `// Port state`. -/

def OFPPSLinkDown : Nat := 1 <<< 0
def OFPPSBlocked : Nat := 1 <<< 1
def OFPPSLive : Nat := 1 <<< 2

/-! Constants `// Port numbering`. -/

def OFPPMax : Nat := 0xffffff00
def OFPPInPort : Nat := 0xfffffff8
def OFPPTable : Nat := 0xfffffff9
def OFPPNormal : Nat := 0xfffffffa
def OFPPFlood : Nat := 0xfffffffb
def OFPPAll : Nat := 0xfffffffc
def OFPPController : Nat := 0xfffffffd
def OFPPLocal : Nat := 0xfffffffe
def OFPPAny : Nat := 0xffffffff

/-! Constants `// Port features`. -/

def OFPPF10MBHD : Nat := 1 <<< 0
def OFPPF10MBFD : Nat := 1 <<< 1
def OFPPF100MBHD : Nat := 1 <<< 2
def OFPPF100MBFD : Nat := 1 <<< 3
def OFPPF1GBHD : Nat := 1 <<< 4
def OFPPF1GBFD : Nat := 1 <<< 5
def OFPPF10GBFD : Nat := 1 <<< 6
def OFPPF40GBFD : Nat := 1 <<< 7
def OFPPF100GBFD : Nat := 1 <<< 8
def OFPPF1TBFD : Nat := 1 <<< 9
def OFPPFOther : Nat := 1 <<< 10
def OFPPFCopper : Nat := 1 <<< 11
def OFPPFFiber : Nat := 1 <<< 12
def OFPPFAutoneg : Nat := 1 <<< 13
def OFPPFPause : Nat := 1 <<< 14
def OFPPFPauseAsym : Nat := 1 <<< 15

/-- The constant block `// Queue properties`. -/
def queuePropertyBlock : List ConstSpec :=
  [ iotaLine "OFPQTNone",
    implicitLine "OFPQTMinRate" ]

def OFPQTNone : Nat := constValue queuePropertyBlock "OFPQTNone"
def OFPQTMinRate : Nat := constValue queuePropertyBlock "OFPQTMinRate"

/-! Constants `// constat`. -/

def OFPMTStandardLen : Nat := 88

/-- The constant block `// Match type`. -/
def matchTypeBlock : List ConstSpec :=
  [ iotaLine "OFPMTStandard" ]

def OFPMTStandard : Nat := constValue matchTypeBlock "OFPMTStandard"

/-! Constants `// Flow wildcards`. -/

def OFPFWInPort : Nat := 1 <<< 0
def OFPFWDLVLAN : Nat := 1 <<< 1
def OFPFWDLVLANPCP : Nat := 1 <<< 2
def OFPFWDLType : Nat := 1 <<< 3
def OFPFWNWTOS : Nat := 1 <<< 4
def OFPFWNWProto : Nat := 1 <<< 5
def OFPFWTPSrc : Nat := 1 <<< 6
def OFPFWTPDst : Nat := 1 <<< 7
def OFPFWMPLSLabel : Nat := 1 <<< 8
def OFPFWMPLSTC : Nat := 1 <<< 9
def OFPFWAll : Nat := (1 <<< 10) - 1

/-! Constants `// VLAN id`. -/

def OFPVIDAny : Nat := 0xfffe
def OFPVIDNone : Nat := 0xffff

/-! Constants `// Instruction type`. -/

def OFPITGotoTable : Nat := 1
def OFPITWriteMetadata : Nat := 2
def OFPITWriteActions : Nat := 3
def OFPITApplyActions : Nat := 4
def OFPITClearActions : Nat := 5
def OFPITExperimenter : Nat := 0xffff

/-- The constant block `// Action type`. -/
def actionTypeBlock : List ConstSpec :=
  [ iotaLine "OFPATOutput",
    implicitLine "OFPATSetVLANVID",
    implicitLine "OFPATSetVLANPCP",
    implicitLine "OFPATSetDLSrc",
    implicitLine "OFPATSetDLDst",
    implicitLine "OFPATSetNWSrc",
    implicitLine "OFPATSetNWDst",
    implicitLine "OFPATSetNWTos",
    implicitLine "OFPATSetNWECN",
    implicitLine "OFPATSetTPSrc",
    implicitLine "OFPATSetTPDst",
    implicitLine "OFPATCopyTTLOut",
    implicitLine "OFPATCopyTTLIn",
    implicitLine "OFPATSetMPLSLabel",
    implicitLine "OFPATSetMPLSTC",
    implicitLine "OFPATSetMPLSTTL",
    implicitLine "OFPATDecMPLSTTL",
    implicitLine "OFPATPushVLAN",
    implicitLine "OFPATPopVLAN",
    implicitLine "OFPATPushMPLS",
    implicitLine "OFPATPopMPLS",
    implicitLine "OFPATSetQueue",
    implicitLine "OFPATGroup",
    implicitLine "OFPATSetNWTTL",
    implicitLine "OFPATDecNWTTL",
    litLine "OFPATExperimenter" 0xffff ]

def OFPATOutput : Nat := constValue actionTypeBlock "OFPATOutput"
def OFPATSetVLANVID : Nat := constValue actionTypeBlock "OFPATSetVLANVID"
def OFPATSetVLANPCP : Nat := constValue actionTypeBlock "OFPATSetVLANPCP"
def OFPATSetDLSrc : Nat := constValue actionTypeBlock "OFPATSetDLSrc"
def OFPATSetDLDst : Nat := constValue actionTypeBlock "OFPATSetDLDst"
def OFPATSetNWSrc : Nat := constValue actionTypeBlock "OFPATSetNWSrc"
def OFPATSetNWDst : Nat := constValue actionTypeBlock "OFPATSetNWDst"
def OFPATSetNWTos : Nat := constValue actionTypeBlock "OFPATSetNWTos"
def OFPATSetNWECN : Nat := constValue actionTypeBlock "OFPATSetNWECN"
def OFPATSetTPSrc : Nat := constValue actionTypeBlock "OFPATSetTPSrc"
def OFPATSetTPDst : Nat := constValue actionTypeBlock "OFPATSetTPDst"
def OFPATCopyTTLOut : Nat := constValue actionTypeBlock "OFPATCopyTTLOut"
def OFPATCopyTTLIn : Nat := constValue actionTypeBlock "OFPATCopyTTLIn"
def OFPATSetMPLSLabel : Nat := constValue actionTypeBlock "OFPATSetMPLSLabel"
def OFPATSetMPLSTC : Nat := constValue actionTypeBlock "OFPATSetMPLSTC"
def OFPATSetMPLSTTL : Nat := constValue actionTypeBlock "OFPATSetMPLSTTL"
def OFPATDecMPLSTTL : Nat := constValue actionTypeBlock "OFPATDecMPLSTTL"
def OFPATPushVLAN : Nat := constValue actionTypeBlock "OFPATPushVLAN"
def OFPATPopVLAN : Nat := constValue actionTypeBlock "OFPATPopVLAN"
def OFPATPushMPLS : Nat := constValue actionTypeBlock "OFPATPushMPLS"
def OFPATPopMPLS : Nat := constValue actionTypeBlock "OFPATPopMPLS"
def OFPATSetQueue : Nat := constValue actionTypeBlock "OFPATSetQueue"
def OFPATGroup : Nat := constValue actionTypeBlock "OFPATGroup"
def OFPATSetNWTTL : Nat := constValue actionTypeBlock "OFPATSetNWTTL"
def OFPATDecNWTTL : Nat := constValue actionTypeBlock "OFPATDecNWTTL"
def OFPATExperimenter : Nat := constValue actionTypeBlock "OFPATExperimenter"

/-! Constants `// Capabilities`. -/

def OFPCFlowStats : Nat := 1 <<< 0
def OFPCTableStats : Nat := 1 <<< 1
def OFPCPortStats : Nat := 1 <<< 2
def OFPCGroupStats : Nat := 1 <<< 3
def OFPCIPReasm : Nat := 1 <<< 5
def OFPCQueueStats : Nat := 1 <<< 6
def OFPCARPMatchIP : Nat := 1 <<< 7

/-! Constants `// Config flags`. -/

def OFPCFragNormal : Nat := 0
def OFPCFragDrop : Nat := 1 <<< 0
def OFPCFragReasm : Nat := 1 <<< 1
def OFPCFragMask : Nat := 3
def OFPCInvalidTTLToController : Nat := 1 <<< 2

/-! Constants `// Table config`. -/

def OFPTCTableMissController : Nat := 0
def OFPTCTableMissContinue : Nat := 1 <<< 0
def OFPTCTableMissDrop : Nat := 1 <<< 1
def OFTCTableMissMask : Nat := 3

/-- The constant block `// Flow mod command`. -/
def flowModCommandBlock : List ConstSpec :=
  [ iotaLine "OFPFCAdd",
    implicitLine "OFPFCModify",
    implicitLine "OFPFCModifyStrict",
    implicitLine "OFPFCDelete",
    implicitLine "OFPFCDeleteStrict" ]

def OFPFCAdd : Nat := constValue flowModCommandBlock "OFPFCAdd"
def OFPFCModify : Nat := constValue flowModCommandBlock "OFPFCModify"
def OFPFCModifyStrict : Nat := constValue flowModCommandBlock "OFPFCModifyStrict"
def OFPFCDelete : Nat := constValue flowModCommandBlock "OFPFCDelete"
def OFPFCDeleteStrict : Nat := constValue flowModCommandBlock "OFPFCDeleteStrict"

/-! Constants `// Flow mod flags`. -/

def OFPFFSendFlowRem : Nat := 1 <<< 0
def OFPFFCheckOverlap : Nat := 1 <<< 1

/-- The constant block `// Group mod command`. -/
def groupModCommandBlock : List ConstSpec :=
  [ iotaLine "OFPGCAdd",
    implicitLine "OFPGCModify",
    implicitLine "OFPGCDelete" ]

def OFPGCAdd : Nat := constValue groupModCommandBlock "OFPGCAdd"
def OFPGCModify : Nat := constValue groupModCommandBlock "OFPGCModify"
def OFPGCDelete : Nat := constValue groupModCommandBlock "OFPGCDelete"

/-- The constant block `// Group type`. -/
def groupTypeBlock : List ConstSpec :=
  [ iotaLine "OFPGTAll",
    implicitLine "OFPGTSelect",
    implicitLine "OFPGTIndirect",
    implicitLine "OFPGTFF" ]

def OFPGTAll : Nat := constValue groupTypeBlock "OFPGTAll"
def OFPGTSelect : Nat := constValue groupTypeBlock "OFPGTSelect"
def OFPGTIndirect : Nat := constValue groupTypeBlock "OFPGTIndirect"
def OFPGTFF : Nat := constValue groupTypeBlock "OFPGTFF"

/-! Constants `// constats`. -/

def OFPDescStrLen : Nat := 256
def OFPSerialNumLen : Nat := 32
def OFPMaxTableNameLen : Nat := 32

/-- The constant block `// Stats types`. -/
def statsTypeBlock : List ConstSpec :=
  [ iotaLine "OFPSTDesc",
    implicitLine "OFPSTFlow",
    implicitLine "OFPSTAggregate",
    implicitLine "OFPSTTable",
    implicitLine "OFPSTPort",
    implicitLine "OFPSTQueue",
    implicitLine "OFPSTGroup",
    implicitLine "OFPSTGroupDesc",
    litLine "OFPSTExperimenter" 0xffff ]

def OFPSTDesc : Nat := constValue statsTypeBlock "OFPSTDesc"
def OFPSTFlow : Nat := constValue statsTypeBlock "OFPSTFlow"
def OFPSTAggregate : Nat := constValue statsTypeBlock "OFPSTAggregate"
def OFPSTTable : Nat := constValue statsTypeBlock "OFPSTTable"
def OFPSTPort : Nat := constValue statsTypeBlock "OFPSTPort"
def OFPSTQueue : Nat := constValue statsTypeBlock "OFPSTQueue"
def OFPSTGroup : Nat := constValue statsTypeBlock "OFPSTGroup"
def OFPSTGroupDesc : Nat := constValue statsTypeBlock "OFPSTGroupDesc"
def OFPSTExperimenter : Nat := constValue statsTypeBlock "OFPSTExperimenter"

/-- The constant block `// Packet-in reason`. -/
def packetInReasonBlock : List ConstSpec :=
  [ iotaLine "OFPRNoMatch",
    implicitLine "OFPRAction" ]

def OFPRNoMatch : Nat := constValue packetInReasonBlock "OFPRNoMatch"
def OFPRAction : Nat := constValue packetInReasonBlock "OFPRAction"

/-- The constant block `// Flow removed reason`. -/
def flowRemovedReasonBlock : List ConstSpec :=
  [ iotaLine "OFPRRIdleTimeout",
    implicitLine "OFPRRHardTimeout",
    implicitLine "OFPRRDelete",
    implicitLine "OFPRRGroupDelete" ]

def OFPRRIdleTimeout : Nat := constValue flowRemovedReasonBlock "OFPRRIdleTimeout"
def OFPRRHardTimeout : Nat := constValue flowRemovedReasonBlock "OFPRRHardTimeout"
def OFPRRDelete : Nat := constValue flowRemovedReasonBlock "OFPRRDelete"
def OFPRRGroupDelete : Nat := constValue flowRemovedReasonBlock "OFPRRGroupDelete"

/-- The constant block `// Port reason`. -/
def portReasonBlock : List ConstSpec :=
  [ iotaLine "OFPPRAdd",
    implicitLine "OFPPRDelete",
    implicitLine "OFPPRModify" ]

def OFPPRAdd : Nat := constValue portReasonBlock "OFPPRAdd"
def OFPPRDelete : Nat := constValue portReasonBlock "OFPPRDelete"
def OFPPRModify : Nat := constValue portReasonBlock "OFPPRModify"

/-- The constant block `// Error type`. -/
def errorTypeBlock : List ConstSpec :=
  [ iotaLine "OFPETHelloFailed",
    implicitLine "OFPETBadRequest",
    implicitLine "OFPETBadAction",
    implicitLine "OFPETBadInstruction",
    implicitLine "OFPETBadMatch",
    implicitLine "OFPETFlowModFailed",
    implicitLine "OFPETGroupModFailed",
    implicitLine "OFPETPortModFailed",
    implicitLine "OFPETTableModFailed",
    implicitLine "OFPETQueueOPFailed",
    implicitLine "OFPETSwitchConfigFailed" ]

def OFPETHelloFailed : Nat := constValue errorTypeBlock "OFPETHelloFailed"
def OFPETBadRequest : Nat := constValue errorTypeBlock "OFPETBadRequest"
def OFPETBadAction : Nat := constValue errorTypeBlock "OFPETBadAction"
def OFPETBadInstruction : Nat := constValue errorTypeBlock "OFPETBadInstruction"
def OFPETBadMatch : Nat := constValue errorTypeBlock "OFPETBadMatch"
def OFPETFlowModFailed : Nat := constValue errorTypeBlock "OFPETFlowModFailed"
def OFPETGroupModFailed : Nat := constValue errorTypeBlock "OFPETGroupModFailed"
def OFPETPortModFailed : Nat := constValue errorTypeBlock "OFPETPortModFailed"
def OFPETTableModFailed : Nat := constValue errorTypeBlock "OFPETTableModFailed"
def OFPETQueueOPFailed : Nat := constValue errorTypeBlock "OFPETQueueOPFailed"
def OFPETSwitchConfigFailed : Nat := constValue errorTypeBlock "OFPETSwitchConfigFailed"

/-- The constant block `// Hello failed code`. -/
def helloFailedCodeBlock : List ConstSpec :=
  [ iotaLine "OFPHFCIncompatible",
    implicitLine "OFPHFCEperm" ]

def OFPHFCIncompatible : Nat := constValue helloFailedCodeBlock "OFPHFCIncompatible"
def OFPHFCEperm : Nat := constValue helloFailedCodeBlock "OFPHFCEperm"

/-- The constant block `// Bad request code`. -/
def badRequestCodeBlock : List ConstSpec :=
  [ iotaLine "OFPBRCBadVersion",
    implicitLine "OFPBRCBadType",
    implicitLine "OFPBRCBadStat",
    implicitLine "OFPBRCBadExperimenter",
    implicitLine "OFPBRCBadSubtype",
    implicitLine "OFPBRCEperm",
    implicitLine "OFPBRCBadLen",
    implicitLine "OFPBRCBufferEmpty",
    implicitLine "OFPBRCBufferUnknown",
    implicitLine "OFPBRCBadTableID" ]

def OFPBRCBadVersion : Nat := constValue badRequestCodeBlock "OFPBRCBadVersion"
def OFPBRCBadType : Nat := constValue badRequestCodeBlock "OFPBRCBadType"
def OFPBRCBadStat : Nat := constValue badRequestCodeBlock "OFPBRCBadStat"
def OFPBRCBadExperimenter : Nat := constValue badRequestCodeBlock "OFPBRCBadExperimenter"
def OFPBRCBadSubtype : Nat := constValue badRequestCodeBlock "OFPBRCBadSubtype"
def OFPBRCEperm : Nat := constValue badRequestCodeBlock "OFPBRCEperm"
def OFPBRCBadLen : Nat := constValue badRequestCodeBlock "OFPBRCBadLen"
def OFPBRCBufferEmpty : Nat := constValue badRequestCodeBlock "OFPBRCBufferEmpty"
def OFPBRCBufferUnknown : Nat := constValue badRequestCodeBlock "OFPBRCBufferUnknown"
def OFPBRCBadTableID : Nat := constValue badRequestCodeBlock "OFPBRCBadTableID"

/-- The constant block `// Bad action code`. -/
def badActionCodeBlock : List ConstSpec :=
  [ iotaLine "OFPBACBadType",
    implicitLine "OFPBACBadLen",
    implicitLine "OFPBACBadExperimenter",
    implicitLine "OFPBACBadExperimenterType",
    implicitLine "OFPBACBadOutPort",
    implicitLine "OFPBACBadArgument",
    implicitLine "OFPBACEperm",
    implicitLine "OFPBACTooMany",
    implicitLine "OFPBACBadQueue",
    implicitLine "OFPBACBadOutGroup",
    implicitLine "OFPBACMatchInconsistent",
    implicitLine "OFPBACUnsupportedOrder",
    implicitLine "OFPBACBadTag" ]

def OFPBACBadType : Nat := constValue badActionCodeBlock "OFPBACBadType"
def OFPBACBadLen : Nat := constValue badActionCodeBlock "OFPBACBadLen"
def OFPBACBadExperimenter : Nat := constValue badActionCodeBlock "OFPBACBadExperimenter"
def OFPBACBadExperimenterType : Nat := constValue badActionCodeBlock "OFPBACBadExperimenterType"
def OFPBACBadOutPort : Nat := constValue badActionCodeBlock "OFPBACBadOutPort"
def OFPBACBadArgument : Nat := constValue badActionCodeBlock "OFPBACBadArgument"
def OFPBACEperm : Nat := constValue badActionCodeBlock "OFPBACEperm"
def OFPBACTooMany : Nat := constValue badActionCodeBlock "OFPBACTooMany"
def OFPBACBadQueue : Nat := constValue badActionCodeBlock "OFPBACBadQueue"
def OFPBACBadOutGroup : Nat := constValue badActionCodeBlock "OFPBACBadOutGroup"
def OFPBACMatchInconsistent : Nat := constValue badActionCodeBlock "OFPBACMatchInconsistent"
def OFPBACUnsupportedOrder : Nat := constValue badActionCodeBlock "OFPBACUnsupportedOrder"
def OFPBACBadTag : Nat := constValue badActionCodeBlock "OFPBACBadTag"

/-- The constant block `// Bad instruction code`. -/
def badInstructionCodeBlock : List ConstSpec :=
  [ iotaLine "OFPBICUnknownInst",
    implicitLine "OFPBICUnsupInst",
    implicitLine "OFPBICBadTableID",
    implicitLine "OFPBICUnsupMetadata",
    implicitLine "OFPBICUnsupMetadataMask",
    implicitLine "OFPBICUnsupExpInst" ]

def OFPBICUnknownInst : Nat := constValue badInstructionCodeBlock "OFPBICUnknownInst"
def OFPBICUnsupInst : Nat := constValue badInstructionCodeBlock "OFPBICUnsupInst"
def OFPBICBadTableID : Nat := constValue badInstructionCodeBlock "OFPBICBadTableID"
def OFPBICUnsupMetadata : Nat := constValue badInstructionCodeBlock "OFPBICUnsupMetadata"
def OFPBICUnsupMetadataMask : Nat := constValue badInstructionCodeBlock "OFPBICUnsupMetadataMask"
def OFPBICUnsupExpInst : Nat := constValue badInstructionCodeBlock "OFPBICUnsupExpInst"

/-- The constant block `// Bad Match code`. -/
def badMatchCodeBlock : List ConstSpec :=
  [ iotaLine "OFPBMCBadType",
    implicitLine "OFPBMCBadLen",
    implicitLine "OFPBMCBadTag",
    implicitLine "OFPBMCBadDLAddrMask",
    implicitLine "OFPBMCBadNWAddrMask",
    implicitLine "OFPBMCBadWildcards",
    implicitLine "OFPBMCBadField",
    implicitLine "OFPBMCBadValue" ]

def OFPBMCBadType : Nat := constValue badMatchCodeBlock "OFPBMCBadType"
def OFPBMCBadLen : Nat := constValue badMatchCodeBlock "OFPBMCBadLen"
def OFPBMCBadTag : Nat := constValue badMatchCodeBlock "OFPBMCBadTag"
def OFPBMCBadDLAddrMask : Nat := constValue badMatchCodeBlock "OFPBMCBadDLAddrMask"
def OFPBMCBadNWAddrMask : Nat := constValue badMatchCodeBlock "OFPBMCBadNWAddrMask"
def OFPBMCBadWildcards : Nat := constValue badMatchCodeBlock "OFPBMCBadWildcards"
def OFPBMCBadField : Nat := constValue badMatchCodeBlock "OFPBMCBadField"
def OFPBMCBadValue : Nat := constValue badMatchCodeBlock "OFPBMCBadValue"

/-- The constant block `// Flow mod failed code`. -/
def flowModFailedCodeBlock : List ConstSpec :=
  [ iotaLine "OFPFMFCUnknown",
    implicitLine "OFPFMFCTableFull",
    implicitLine "OFPFMFCBadTableID",
    implicitLine "OFPFMFCOverlap",
    implicitLine "OFPFMFCEperm",
    implicitLine "OFPFMFCBadTimeout",
    implicitLine "OFPFMFCBadCommand" ]

def OFPFMFCUnknown : Nat := constValue flowModFailedCodeBlock "OFPFMFCUnknown"
def OFPFMFCTableFull : Nat := constValue flowModFailedCodeBlock "OFPFMFCTableFull"
def OFPFMFCBadTableID : Nat := constValue flowModFailedCodeBlock "OFPFMFCBadTableID"
def OFPFMFCOverlap : Nat := constValue flowModFailedCodeBlock "OFPFMFCOverlap"
def OFPFMFCEperm : Nat := constValue flowModFailedCodeBlock "OFPFMFCEperm"
def OFPFMFCBadTimeout : Nat := constValue flowModFailedCodeBlock "OFPFMFCBadTimeout"
def OFPFMFCBadCommand : Nat := constValue flowModFailedCodeBlock "OFPFMFCBadCommand"

/-- The constant block `// Group mod failed code`. -/
def groupModFailedCodeBlock : List ConstSpec :=
  [ iotaLine "OFPGMFCGroupExists",
    implicitLine "OFPGMFCInvalidGroup",
    implicitLine "OFPFMFCWeightUnsupported",
    implicitLine "OFPFMFCOutOfGroups",
    implicitLine "OFPFMFCOutOfBuckets",
    implicitLine "OFPFMFCChainingUnsupported",
    implicitLine "OFPFMFCWatchUnsupported",
    implicitLine "OFPFMFCLoop",
    implicitLine "OFPFMFCUnknownGroup" ]

def OFPGMFCGroupExists : Nat := constValue groupModFailedCodeBlock "OFPGMFCGroupExists"
def OFPGMFCInvalidGroup : Nat := constValue groupModFailedCodeBlock "OFPGMFCInvalidGroup"
def OFPFMFCWeightUnsupported : Nat := constValue groupModFailedCodeBlock "OFPFMFCWeightUnsupported"
def OFPFMFCOutOfGroups : Nat := constValue groupModFailedCodeBlock "OFPFMFCOutOfGroups"
def OFPFMFCOutOfBuckets : Nat := constValue groupModFailedCodeBlock "OFPFMFCOutOfBuckets"
def OFPFMFCChainingUnsupported : Nat := constValue groupModFailedCodeBlock "OFPFMFCChainingUnsupported"
def OFPFMFCWatchUnsupported : Nat := constValue groupModFailedCodeBlock "OFPFMFCWatchUnsupported"
def OFPFMFCLoop : Nat := constValue groupModFailedCodeBlock "OFPFMFCLoop"
def OFPFMFCUnknownGroup : Nat := constValue groupModFailedCodeBlock "OFPFMFCUnknownGroup"

/-- The constant block `// Port mod failed code`. -/
def portModFailedCodeBlock : List ConstSpec :=
  [ iotaLine "OFPPMFCBadPort",
    implicitLine "OFPPMFCBadHWAddr",
    implicitLine "OFPPMFCBadConfig",
    implicitLine "OFPPMFCBadAdvertise" ]

def OFPPMFCBadPort : Nat := constValue portModFailedCodeBlock "OFPPMFCBadPort"
def OFPPMFCBadHWAddr : Nat := constValue portModFailedCodeBlock "OFPPMFCBadHWAddr"
def OFPPMFCBadConfig : Nat := constValue portModFailedCodeBlock "OFPPMFCBadConfig"
def OFPPMFCBadAdvertise : Nat := constValue portModFailedCodeBlock "OFPPMFCBadAdvertise"

/-- The constant block `// Table mod failed code`. -/
def tableModFailedCodeBlock : List ConstSpec :=
  [ iotaLine "OFPTMFCBadTable",
    implicitLine "OFPTMFCBadConfig" ]

def OFPTMFCBadTable : Nat := constValue tableModFailedCodeBlock "OFPTMFCBadTable"
def OFPTMFCBadConfig : Nat := constValue tableModFailedCodeBlock "OFPTMFCBadConfig"

/-- The constant block `// Queue op failed code`. -/
def queueOpFailedCodeBlock : List ConstSpec :=
  [ iotaLine "OFPQOFCBadPort",
    implicitLine "OFPQOFCBadQueue",
    implicitLine "OFPQOFCEperm" ]

def OFPQOFCBadPort : Nat := constValue queueOpFailedCodeBlock "OFPQOFCBadPort"
def OFPQOFCBadQueue : Nat := constValue queueOpFailedCodeBlock "OFPQOFCBadQueue"
def OFPQOFCEperm : Nat := constValue queueOpFailedCodeBlock "OFPQOFCEperm"

/-- The constant block `// Switch config failed code`. -/
def switchConfigFailedCodeBlock : List ConstSpec :=
  [ iotaLine "OFPSCFCBadFlags",
    implicitLine "OFPSCFCBadLen" ]

def OFPSCFCBadFlags : Nat := constValue switchConfigFailedCodeBlock "OFPSCFCBadFlags"
def OFPSCFCBadLen : Nat := constValue switchConfigFailedCodeBlock "OFPSCFCBadLen"

/-! ### Lists of constants -/

/-- The message type constants, in the order the block declares them. -/
def messageTypes : List Nat :=
  [ OFPTHello, OFPTError, OFPTEchoRequest, OFPTEchoReply, OFPTExperimenter,
    OFPTFeaturesRequest, OFPTFeaturesReply, OFPTGetConfigRequest, OFPTGetConfigReply,
    OFPTSetConfig, OFPTPacketIn, OFPTFlowRemoved, OFPTPortStatus, OFPTPacketOut,
    OFPTFlowMod, OFPTGroupMod, OFPTPortMod, OFPTTableMod, OFPTStatsRequest,
    OFPTStatsReply, OFPTBarrierRequest, OFPTBarrierReply, OFPTQueueGetConfigRequest,
    OFPTQueueGetConfigReply ]

/-- The ten single-field wildcard flags, in declaration order. -/
def flowWildcardFlags : List Nat :=
  [ OFPFWInPort, OFPFWDLVLAN, OFPFWDLVLANPCP, OFPFWDLType, OFPFWNWTOS,
    OFPFWNWProto, OFPFWTPSrc, OFPFWTPDst, OFPFWMPLSLabel, OFPFWMPLSTC ]

/-- The type tags a family of elements defines. -/
structure TagFamily where
  name : String
  tags : List Nat

/-- Type tags defined for queue properties. -/
def queuePropTags : TagFamily := ⟨"QueueProp", constValues queuePropertyBlock⟩

/-- Type tags defined for instructions. -/
def instructionTags : TagFamily :=
  ⟨"Instruction", [ OFPITGotoTable, OFPITWriteMetadata, OFPITWriteActions,
    OFPITApplyActions, OFPITClearActions, OFPITExperimenter ]⟩

/-- Type tags defined for actions. -/
def actionTags : TagFamily := ⟨"Action", constValues actionTypeBlock⟩

/-- The three families of type-tagged elements. -/
def tagFamilies : List TagFamily := [actionTags, instructionTags, queuePropTags]

/-! ## Go types and record declarations -/

mutual
/-- The Go types the declarations of the package are written with. -/
inductive GoType where
  | uint8
  | uint16
  | uint32
  | uint64
  | array (n : Nat) (elem : GoType)
  | struct (name : String) (fields : FieldList)
  | slice (elem : GoType)
  | iface (name : String)
  | imported (name : String)
  deriving DecidableEq
/-- The fields of a record, in declaration order. -/
inductive FieldList where
  | nil
  | cons (name : String) (type : GoType) (rest : FieldList)
  deriving DecidableEq
end

/-- Go's `byte` is an alias of `uint8`. -/
def GoType.byte : GoType := .uint8

/-- The field list of a record written as a list of (name, type) pairs. -/
def fields : List (String × GoType) → FieldList
  | [] => .nil
  | (n, t) :: rest => .cons n t (fields rest)

mutual
/-- Number of bytes a value of the type occupies according to the declared
widths of its parts; `none` when the type has a part of no fixed width
(a slice, an interface value, a value of an imported type). -/
def GoType.wireWidth : GoType → Option Nat
  | .uint8 => some 1
  | .uint16 => some 2
  | .uint32 => some 4
  | .uint64 => some 8
  | .array n e => (e.wireWidth).map (fun w => n * w)
  | .struct _ fs => fs.wireWidth
  | .slice _ => none
  | .iface _ => none
  | .imported _ => none
/-- Sum of the declared widths of the fields. -/
def FieldList.wireWidth : FieldList → Option Nat
  | .nil => some 0
  | .cons _ t rest =>
      match t.wireWidth, rest.wireWidth with
      | some a, some b => some (a + b)
      | _, _ => none
end

/-- The fields of a record type (none for the other types). -/
def GoType.fieldList : GoType → FieldList
  | .struct _ fs => fs
  | _ => .nil

/-- The declared layout: every field's name with its declared width. -/
def FieldList.layout : FieldList → List (String × Option Nat)
  | .nil => []
  | .cons n t rest => (n, t.wireWidth) :: rest.layout

/-- The leading fields of fixed width, up to the first field of no fixed width. -/
def FieldList.fixedPart : FieldList → FieldList
  | .nil => .nil
  | .cons n t rest =>
      match t.wireWidth with
      | some _ => .cons n t rest.fixedPart
      | none => .nil

/-- The fields that follow the leading fields of fixed width. -/
def FieldList.variablePart : FieldList → FieldList
  | .nil => .nil
  | .cons n t rest =>
      match t.wireWidth with
      | some _ => rest.variablePart
      | none => .cons n t rest

/-- Sum of the declared widths of the leading fields of fixed width. -/
def FieldList.fixedWidth : FieldList → Nat
  | .nil => 0
  | .cons _ t rest =>
      match t.wireWidth with
      | some w => w + rest.fixedWidth
      | none => 0

/-- Width of the fixed part of a record. -/
def GoType.fixedWidth (t : GoType) : Nat :=
  match t with
  | .struct _ fs => fs.fixedWidth
  | _ => (t.wireWidth).getD 0

/-- Byte offset of the field `name`: the sum of the declared widths of the
fields before it. -/
def FieldList.offsetOf (name : String) : FieldList → Option Nat
  | .nil => none
  | .cons n t rest =>
      if n = name then some 0
      else
        match t.wireWidth, rest.offsetOf name with
        | some w, some o => some (w + o)
        | _, _ => none

/-- Declared type of the field `name`. -/
def FieldList.typeOf (name : String) : FieldList → Option GoType
  | .nil => none
  | .cons n t rest => if n = name then some t else rest.typeOf name

/-- Byte offset of a field of a record. -/
def GoType.offsetOf (t : GoType) (name : String) : Option Nat :=
  t.fieldList.offsetOf name

/-- Declared type of a field of a record. -/
def GoType.typeOf (t : GoType) (name : String) : Option GoType :=
  t.fieldList.typeOf name

/-- Record `Header`. -/
def Header : GoType :=
  .struct "Header" (fields
    [ ("Version", .uint8),
      ("Type", .uint8),
      ("Length", .uint16),
      ("XID", .uint32) ])

/-- Record `Port`. -/
def Port : GoType :=
  .struct "Port" (fields
    [ ("PortNO", .uint32),
      ("pad", GoType.array 4 .byte),
      ("HWAddr", GoType.array OFPEthALen .byte),
      ("pad2", GoType.array 2 .byte),
      ("Name", GoType.array OFPMaxPortNameLen .byte),
      ("Config", .uint32),
      ("State", .uint32),
      ("Curr", .uint32),
      ("Advertised", .uint32),
      ("Supported", .uint32),
      ("Peer", .uint32),
      ("CurrSpeed", .uint32),
      ("MaxSpeed", .uint32) ])

/-- Record `PacketQueue`. -/
def PacketQueue : GoType :=
  .struct "PacketQueue" (fields
    [ ("QueueID", .uint32),
      ("Length", .uint16),
      ("pad", GoType.array 2 .byte),
      ("Properties", GoType.slice (.iface "QueueProp")) ])

/-- Record `QueuePropHeader`. -/
def QueuePropHeader : GoType :=
  .struct "QueuePropHeader" (fields
    [ ("Property", .uint16),
      ("Length", .uint16),
      ("pad", GoType.array 4 .byte) ])

/-- Record `QueuePropMinRate`. -/
def QueuePropMinRate : GoType :=
  .struct "QueuePropMinRate" (fields
    [ ("Header", QueuePropHeader),
      ("Rate", .uint16),
      ("pad", GoType.array 6 .byte) ])

/-- Record `Match`. -/
def Match : GoType :=
  .struct "Match" (fields
    [ ("Type", .uint16),
      ("Length", .uint16),
      ("InPort", .uint32),
      ("Wildcards", .uint32),
      ("DLSrc", GoType.array OFPEthALen .uint8),
      ("DLSrcMask", GoType.array OFPEthALen .uint8),
      ("DLDst", GoType.array OFPEthALen .uint8),
      ("DLDstMask", GoType.array OFPEthALen .uint8),
      ("DLVLAN", .uint16),
      ("DLVLANPCP", .uint8),
      ("pad", GoType.array 1 .byte),
      ("DLType", .uint16),
      ("NWTos", .uint8),
      ("NWProto", .uint8),
      ("NWSrc", GoType.array 4 .byte),
      ("NWSrcMask", GoType.array 4 .byte),
      ("NWDst", GoType.array 4 .byte),
      ("NWDstMask", GoType.array 4 .byte),
      ("TPSrc", .uint16),
      ("TPDst", .uint16),
      ("MPLSLabel", .uint32),
      ("MPLSTC", .uint8),
      ("pad2", GoType.array 3 .byte),
      ("Metadata", .uint64),
      ("MetadataMask", .uint64) ])

/-- Record `InstructionHeader`. -/
def InstructionHeader : GoType :=
  .struct "InstructionHeader" (fields
    [ ("Type", .uint16),
      ("Length", .uint16) ])

/-- Record `InstructionGotoTable`. -/
def InstructionGotoTable : GoType :=
  .struct "InstructionGotoTable" (fields
    [ ("Header", InstructionHeader),
      ("TableID", .uint8),
      ("pad", GoType.array 3 .byte) ])

/-- Record `InstructionWriteMetadata`. -/
def InstructionWriteMetadata : GoType :=
  .struct "InstructionWriteMetadata" (fields
    [ ("Header", InstructionHeader),
      ("pad", GoType.array 4 .byte),
      ("Metadata", .uint64),
      ("MetadataMask", .uint64) ])

/-- Record `InstructionActions`. -/
def InstructionActions : GoType :=
  .struct "InstructionActions" (fields
    [ ("Header", InstructionHeader),
      ("pad", GoType.array 4 .byte),
      ("Actions", GoType.slice (.iface "Action")) ])

/-- Record `ActionHeader`. -/
def ActionHeader : GoType :=
  .struct "ActionHeader" (fields
    [ ("Type", .uint16),
      ("Length", .uint16) ])

/-- Record `ActionOutput`. -/
def ActionOutput : GoType :=
  .struct "ActionOutput" (fields
    [ ("Header", ActionHeader),
      ("Port", .uint32),
      ("MaxLen", .uint16),
      ("pad", GoType.array 6 .byte) ])

/-- Record `ActionGroup`. -/
def ActionGroup : GoType :=
  .struct "ActionGroup" (fields
    [ ("Header", ActionHeader),
      ("GroupID", .uint32) ])

/-- Record `ActionSetQueue`. -/
def ActionSetQueue : GoType :=
  .struct "ActionSetQueue" (fields
    [ ("Header", ActionHeader),
      ("QueueID", .uint32) ])

/-- Record `ActionVLANVID`. -/
def ActionVLANVID : GoType :=
  .struct "ActionVLANVID" (fields
    [ ("Header", ActionHeader),
      ("VLANVID", .uint16),
      ("pad", GoType.array 2 .byte) ])

/-- Record `ActionVLANPCP`. -/
def ActionVLANPCP : GoType :=
  .struct "ActionVLANPCP" (fields
    [ ("Header", ActionHeader),
      ("VLANPCP", .uint8),
      ("pad", GoType.array 3 .byte) ])

/-- Record `ActionMPLSLabel`. -/
def ActionMPLSLabel : GoType :=
  .struct "ActionMPLSLabel" (fields
    [ ("Header", ActionHeader),
      ("MPLSLabel", .uint32) ])

/-- Record `ActionMPLSTC`. -/
def ActionMPLSTC : GoType :=
  .struct "ActionMPLSTC" (fields
    [ ("Header", ActionHeader),
      ("MPLSTC", .uint8),
      ("pad", GoType.array 3 .byte) ])

/-- Record `ActionMPLSTTL`. -/
def ActionMPLSTTL : GoType :=
  .struct "ActionMPLSTTL" (fields
    [ ("Header", ActionHeader),
      ("MPLSTTL", .uint8),
      ("pad", GoType.array 3 .byte) ])

/-- Record `ActionDLAddr`. -/
def ActionDLAddr : GoType :=
  .struct "ActionDLAddr" (fields
    [ ("Header", ActionHeader),
      ("DLAddr", GoType.array OFPEthALen .uint8),
      ("pad", GoType.array 6 .byte) ])

/-- Record `ActionNWAddr`. -/
def ActionNWAddr : GoType :=
  .struct "ActionNWAddr" (fields
    [ ("Header", ActionHeader),
      ("NWAddr", GoType.array 4 .byte) ])

/-- Record `ActionNWTOS`. -/
def ActionNWTOS : GoType :=
  .struct "ActionNWTOS" (fields
    [ ("Header", ActionHeader),
      ("NWTOS", .uint8),
      ("pad", GoType.array 3 .byte) ])

/-- Record `ActionNWECN`. -/
def ActionNWECN : GoType :=
  .struct "ActionNWECN" (fields
    [ ("Header", ActionHeader),
      ("NWECN", .uint8),
      ("pad", GoType.array 3 .byte) ])

/-- Record `ActionNWTTL`. -/
def ActionNWTTL : GoType :=
  .struct "ActionNWTTL" (fields
    [ ("Header", ActionHeader),
      ("NWTTL", .uint8),
      ("pad", GoType.array 3 .byte) ])

/-- Record `ActionTPPort`. -/
def ActionTPPort : GoType :=
  .struct "ActionTPPort" (fields
    [ ("Header", ActionHeader),
      ("TPPort", .uint16),
      ("pad", GoType.array 2 .byte) ])

/-- Record `ActionPush`. -/
def ActionPush : GoType :=
  .struct "ActionPush" (fields
    [ ("Header", ActionHeader),
      ("Ethertype", .uint16),
      ("pad", GoType.array 2 .byte) ])

/-- Record `ActionPopMPLS`. -/
def ActionPopMPLS : GoType :=
  .struct "ActionPopMPLS" (fields
    [ ("Header", ActionHeader),
      ("Ethertype", .uint16),
      ("pad", GoType.array 2 .byte) ])

/-- Record `ActionExperimenterHeader`. -/
def ActionExperimenterHeader : GoType :=
  .struct "ActionExperimenterHeader" (fields
    [ ("Header", ActionHeader),
      ("Experimenter", .uint32) ])

/-- Record `SwitchFeatures`. -/
def SwitchFeatures : GoType :=
  .struct "SwitchFeatures" (fields
    [ ("Header", Header),
      ("DPID", .uint64),
      ("Buffers", .uint32),
      ("Tables", .uint8),
      ("pad2", GoType.array 3 .byte),
      ("Capabilities", .uint32),
      ("Reserved", .uint32),
      ("Ports", GoType.slice Port) ])

/-- Record `SwitchConfig`. -/
def SwitchConfig : GoType :=
  .struct "SwitchConfig" (fields
    [ ("Header", Header),
      ("Flags", .uint16),
      ("MissSendLen", .uint16) ])

/-- Record `TableMod`. -/
def TableMod : GoType :=
  .struct "TableMod" (fields
    [ ("Header", Header),
      ("TableID", .uint8),
      ("pad", GoType.array 3 .byte),
      ("Config", .uint32) ])

/-- Record `FlowMod`. -/
def FlowMod : GoType :=
  .struct "FlowMod" (fields
    [ ("Header", Header),
      ("Cookie", .uint64),
      ("CookieMask", .uint64),
      ("TableID", .uint8),
      ("Command", .uint8),
      ("IdleTimeout", .uint16),
      ("HardTimeout", .uint16),
      ("Priority", .uint16),
      ("BufferID", .uint32),
      ("OutPort", .uint32),
      ("OutGroup", .uint32),
      ("Flags", .uint16),
      ("pad", GoType.array 2 .byte),
      ("Match", Match),
      ("Instructions", GoType.slice (.iface "Instruction")) ])

/-- Record `Bucket`. -/
def Bucket : GoType :=
  .struct "Bucket" (fields
    [ ("Length", .uint16),
      ("Weight", .uint16),
      ("WatchPort", .uint32),
      ("WatchGroup", .uint32),
      ("pad", GoType.array 4 .byte),
      ("Actions", GoType.slice (.iface "Action")) ])

/-- Record `GroupMod`. -/
def GroupMod : GoType :=
  .struct "GroupMod" (fields
    [ ("Header", Header),
      ("Command", .uint16),
      ("Type", .uint8),
      ("pad", .uint8),
      ("GroupID", .uint32),
      ("Buckets", GoType.slice Bucket) ])

/-- Record `PortMod`. -/
def PortMod : GoType :=
  .struct "PortMod" (fields
    [ ("Header", Header),
      ("PortNO", .uint32),
      ("pad", GoType.array 4 .byte),
      ("HWAddr", GoType.array OFPEthALen .uint8),
      ("pad2", GoType.array 2 .byte),
      ("Config", .uint32),
      ("Mask", .uint32),
      ("Advertise", .uint32),
      ("pad3", GoType.array 4 .byte) ])

/-- Record `QueueGetConfigRequest`. -/
def QueueGetConfigRequest : GoType :=
  .struct "QueueGetConfigRequest" (fields
    [ ("Header", Header),
      ("Port", .uint32),
      ("pad", GoType.array 4 .byte) ])

/-- Record `QueueGetConfigReply`. -/
def QueueGetConfigReply : GoType :=
  .struct "QueueGetConfigReply" (fields
    [ ("Header", Header),
      ("Port", .uint32),
      ("pad", GoType.array 4 .byte),
      ("Queues", GoType.slice PacketQueue) ])

/-- Record `StatsRequest`. -/
def StatsRequest : GoType :=
  .struct "StatsRequest" (fields
    [ ("Header", Header),
      ("Type", .uint16),
      ("Flags", .uint16),
      ("pad", GoType.array 4 .byte),
      ("Body", GoType.imported "buffer.Message") ])

/-- Record `StatsReply`. -/
def StatsReply : GoType :=
  .struct "StatsReply" (fields
    [ ("Header", Header),
      ("Type", .uint16),
      ("Flags", .uint16),
      ("pad", GoType.array 4 .byte),
      ("Body", GoType.imported "buffer.Message") ])

/-- Record `DescStats`. -/
def DescStats : GoType :=
  .struct "DescStats" (fields
    [ ("MfrDesc", GoType.array OFPDescStrLen .byte),
      ("HWDesc", GoType.array OFPDescStrLen .byte),
      ("SWDesc", GoType.array OFPDescStrLen .byte),
      ("SerialNum", GoType.array OFPSerialNumLen .byte),
      ("DPDesc", GoType.array OFPDescStrLen .byte) ])

/-- Record `FlowStatsRequest`. -/
def FlowStatsRequest : GoType :=
  .struct "FlowStatsRequest" (fields
    [ ("TableID", .uint8),
      ("pad", GoType.array 3 .byte),
      ("OutPort", .uint32),
      ("OutGroup", .uint32),
      ("pad2", GoType.array 4 .byte),
      ("Cookie", .uint64),
      ("CookieMask", .uint64),
      ("Match", Match) ])

/-- Record `FlowStats`. -/
def FlowStats : GoType :=
  .struct "FlowStats" (fields
    [ ("Length", .uint16),
      ("TableID", .uint8),
      ("pad", .uint8),
      ("DurationSec", .uint32),
      ("DurationNSec", .uint32),
      ("Priority", .uint16),
      ("IdleTimeout", .uint16),
      ("HardTimeout", .uint16),
      ("pad2", GoType.array 6 .byte),
      ("Cookie", .uint64),
      ("PacketCount", .uint64),
      ("ByteCount", .uint64),
      ("Match", Match),
      ("Instructions", GoType.slice (.iface "Instruction")) ])

/-- Record `AggregateStatsRequest`. -/
def AggregateStatsRequest : GoType :=
  .struct "AggregateStatsRequest" (fields
    [ ("TableID", .uint8),
      ("pad", GoType.array 3 .byte),
      ("OutPort", .uint32),
      ("OutGroup", .uint32),
      ("pad2", GoType.array 4 .byte),
      ("Cookie", .uint64),
      ("CookieMask", .uint64),
      ("Match", Match) ])

/-- Record `AggregateStatsReply`. -/
def AggregateStatsReply : GoType :=
  .struct "AggregateStatsReply" (fields
    [ ("PacketCount", .uint64),
      ("ByteCount", .uint64),
      ("FlowCount", .uint32),
      ("pad", GoType.array 4 .byte) ])

/-- Record `TableStats`. -/
def TableStats : GoType :=
  .struct "TableStats" (fields
    [ ("TableID", .uint8),
      ("pad", GoType.array 7 .uint8),
      ("Name", GoType.array OFPMaxTableNameLen .byte),
      ("Wildcards", .uint32),
      ("Match", .uint32),
      ("Instructions", .uint32),
      ("WriteActions", .uint32),
      ("ApplyActions", .uint32),
      ("Config", .uint32),
      ("MaxEntries", .uint32),
      ("ActiveCount", .uint32),
      ("LookupCount", .uint64),
      ("MatchedCount", .uint64) ])

/-- Record `PortStatsRequest`. -/
def PortStatsRequest : GoType :=
  .struct "PortStatsRequest" (fields
    [ ("PortNO", .uint32),
      ("pad", GoType.array 4 .byte) ])

/-- Record `PortStats`. -/
def PortStats : GoType :=
  .struct "PortStats" (fields
    [ ("PortNO", .uint32),
      ("pad", GoType.array 4 .byte),
      ("RxPackets", .uint64),
      ("TxPackets", .uint64),
      ("RxBytes", .uint64),
      ("TxBytes", .uint64),
      ("RxDropped", .uint64),
      ("TxDropped", .uint64),
      ("RxErrors", .uint64),
      ("TxErrors", .uint64),
      ("RxFrameErr", .uint64),
      ("RxOverErr", .uint64),
      ("RxCRCErr", .uint64),
      ("Collisions", .uint64) ])

/-- Record `QueueStatsRequest`. -/
def QueueStatsRequest : GoType :=
  .struct "QueueStatsRequest" (fields
    [ ("PortNO", .uint32),
      ("QueueID", .uint32) ])

/-- Record `QueueStats`. -/
def QueueStats : GoType :=
  .struct "QueueStats" (fields
    [ ("PortNO", .uint32),
      ("QueueID", .uint32),
      ("TxBytes", .uint64),
      ("TxPackets", .uint64),
      ("TxErrors", .uint64) ])

/-- Record `GroupStatsRequest`. -/
def GroupStatsRequest : GoType :=
  .struct "GroupStatsRequest" (fields
    [ ("GroupID", .uint32),
      ("pad", GoType.array 4 .byte) ])

/-- Record `BucketCounter`. -/
def BucketCounter : GoType :=
  .struct "BucketCounter" (fields
    [ ("PacketCount", .uint64),
      ("ByteCount", .uint64) ])

/-- Record `GroupStats`. -/
def GroupStats : GoType :=
  .struct "GroupStats" (fields
    [ ("Length", .uint16),
      ("pad", GoType.array 2 .byte),
      ("GroupID", .uint32),
      ("RefCount", .uint32),
      ("pad2", GoType.array 4 .byte),
      ("PacketCount", .uint64),
      ("ByteCount", .uint64),
      ("BucketStats", GoType.slice BucketCounter) ])

/-- Record `GroupDescStats`. -/
def GroupDescStats : GoType :=
  .struct "GroupDescStats" (fields
    [ ("Length", .uint16),
      ("Type", .uint8),
      ("pad", .uint8),
      ("GroupID", .uint32),
      ("Buckets", GoType.slice Bucket) ])

/-- Record `PacketOut`. -/
def PacketOut : GoType :=
  .struct "PacketOut" (fields
    [ ("Header", Header),
      ("BufferID", .uint32),
      ("InPort", .uint32),
      ("ActionsLen", .uint16),
      ("pad", GoType.array 6 .byte),
      ("Actions", GoType.slice (.iface "Action")),
      ("Data", GoType.imported "buffer.Message") ])

/-- Record `PacketIn`. -/
def PacketIn : GoType :=
  .struct "PacketIn" (fields
    [ ("Header", Header),
      ("BufferID", .uint32),
      ("InPort", .uint32),
      ("InPhyPort", .uint32),
      ("TotalLen", .uint16),
      ("Reason", .uint8),
      ("TableID", .uint8),
      ("Data", GoType.imported "eth.Ethernet") ])

/-- Record `FlowRemoved`. -/
def FlowRemoved : GoType :=
  .struct "FlowRemoved" (fields
    [ ("Header", Header),
      ("Cookie", .uint64),
      ("Priority", .uint16),
      ("Reason", .uint8),
      ("TableID", .uint8),
      ("DurationSec", .uint32),
      ("DurationNSec", .uint32),
      ("IdleTimeout", .uint16),
      ("pad", GoType.array 2 .byte),
      ("PacketCount", .uint64),
      ("ByteCount", .uint64),
      ("Match", Match) ])

/-- Record `PortStatus`. -/
def PortStatus : GoType :=
  .struct "PortStatus" (fields
    [ ("Header", Header),
      ("Reason", .uint8),
      ("pad", GoType.array 7 .uint8),
      ("Desc", Port) ])

/-- Record `ErrorMsg`. -/
def ErrorMsg : GoType :=
  .struct "ErrorMsg" (fields
    [ ("Header", Header),
      ("Type", .uint16),
      ("Code", .uint16),
      ("Data", GoType.slice .uint8) ])

/-- Record `ExperimenterHeader`. -/
def ExperimenterHeader : GoType :=
  .struct "ExperimenterHeader" (fields
    [ ("Header", Header),
      ("Experimenter", .uint32),
      ("pad", GoType.array 4 .byte) ])

/-- The record types declared for the variants of `Action`. -/
def actionRecords : List GoType :=
  [ ActionOutput, ActionGroup, ActionSetQueue, ActionVLANVID, ActionVLANPCP,
    ActionMPLSLabel, ActionMPLSTC, ActionMPLSTTL, ActionDLAddr, ActionNWAddr,
    ActionNWTOS, ActionNWECN, ActionNWTTL, ActionTPPort, ActionPush, ActionPopMPLS,
    ActionExperimenterHeader ]

/-- The record types declared for the variants of `Instruction`. -/
def instructionRecords : List GoType :=
  [ InstructionGotoTable, InstructionWriteMetadata, InstructionActions ]

/-- The record types declared for the variants of `QueueProp`. -/
def queuePropRecords : List GoType :=
  [ QueuePropMinRate ]

/-- The records that embed a `Match`. -/
def matchEmbeddingRecords : List GoType :=
  [ FlowMod, FlowRemoved, FlowStatsRequest, AggregateStatsRequest, FlowStats ]

/-- Sum of the declared widths of a list of record types. -/
def listWidth : List GoType → Option Nat
  | [] => some 0
  | t :: rest =>
      match t.wireWidth, listWidth rest with
      | some a, some b => some (a + b)
      | _, _ => none

/-- Length of an element of record type `t` that holds, in its trailing list,
elements of the record types `held`: the width of the fixed part of `t` plus
the widths of the held elements. -/
def GoType.elementLen (t : GoType) (held : List GoType) : Option Nat :=
  (listWidth held).map (fun n => t.fixedWidth + n)

/-! ## The codec

The Go file declares the records and the three interfaces (`PackBinary`,
`UnpackBinary`, `Len`) but holds no body for them: the package has no
encoder or decoder in this file. The codec below is modelled from the
specification of the package and runs over the record declarations above.
Values are untyped trees (`Value`); `GoType.wellTyped` tells the values a Go
variable of the type can hold. -/

/-- Modelled from the spec: the error taxonomy of the codec (the file has no
error values). -/
inductive CodecError where
  | BufferTooShort
  | TruncatedMessage
  | MalformedElement
  | LengthMismatch
  | UnknownVariant
  | TrailingGarbage
  | EncodingOverflow
  deriving DecidableEq, Repr

/-- A decoded value of a type of fixed width: an unsigned integer, or the
sequence of the elements of an array, or the sequence of the fields of a
record that are not reserved. -/
inductive Value where
  | uint (n : Nat)
  | seq (vs : List Value)

/-- Modelled from the spec: the primitive field encoder missing from the file,
an unsigned integer written on `w` bytes, most significant byte first. -/
def putUint : Nat → Nat → List Nat
  | 0, _ => []
  | w + 1, n => (n / 256 ^ w) % 256 :: putUint w n

/-- Modelled from the spec: the primitive field decoder missing from the file,
the unsigned integer held by a byte sequence, most significant byte first. -/
def getUint (bs : List Nat) : Nat :=
  bs.foldl (fun acc b => acc * 256 + b) 0

/-- Modelled from the spec: the reserved ranges of a record, which the file
marks by name only: the fields named `pad`, `pad2` and `pad3`. They are
written as zero, skipped on decoding and never exposed in a value. -/
def isReserved (name : String) : Bool :=
  name == "pad" || name == "pad2" || name == "pad3"

/-- Modelled from the spec: the primitive field decoder missing from the file,
for one unsigned integer of `w` bytes; `BufferTooShort` when fewer bytes
remain. -/
def decodeUint (w : Nat) (bs : List Nat) : Except CodecError (Value × List Nat) :=
  if bs.length < w then .error .BufferTooShort
  else .ok (.uint (getUint (bs.take w)), bs.drop w)

/-- Modelled from the spec: the array decoder missing from the file, `n`
consecutive runs of the decoder of the elements. -/
def decodeRepeat (d : List Nat → Except CodecError (Value × List Nat)) :
    Nat → List Nat → Except CodecError (List Value × List Nat)
  | 0, bs => .ok ([], bs)
  | n + 1, bs =>
      match d bs with
      | .error e => .error e
      | .ok (v, r) =>
          match decodeRepeat d n r with
          | .error e => .error e
          | .ok (vs, r2) => .ok (v :: vs, r2)

mutual
/-- Modelled from the spec: the encoder of fixed records and fields missing
from the file. Integers are written most significant byte first on their
declared width, arrays element by element, records field by field in
declaration order, reserved fields as zero bytes. -/
def GoType.encode : GoType → Value → List Nat
  | .uint8, .uint n => putUint 1 n
  | .uint16, .uint n => putUint 2 n
  | .uint32, .uint n => putUint 4 n
  | .uint64, .uint n => putUint 8 n
  | .array _ e, .seq vs => (vs.map e.encode).flatten
  | .struct _ fs, .seq vs => fs.encode vs
  | _, _ => []
/-- Modelled from the spec: the record encoder missing from the file: the
fields written in declaration order; a reserved field takes no value and is
written as zero bytes. -/
def FieldList.encode : FieldList → List Value → List Nat
  | .nil, _ => []
  | .cons n t rest, vs =>
      if isReserved n then List.replicate (t.wireWidth.getD 0) 0 ++ rest.encode vs
      else
        match vs with
        | v :: vs2 => t.encode v ++ rest.encode vs2
        | [] => []
end

mutual
/-- Modelled from the spec: the decoder of fixed records and fields missing
from the file; it returns the value and the bytes left, and fails with
`BufferTooShort` when fewer bytes remain than a field demands. A type of no
fixed width is not a fixed record: it is refused. -/
def GoType.decode : GoType → List Nat → Except CodecError (Value × List Nat)
  | .uint8, bs => decodeUint 1 bs
  | .uint16, bs => decodeUint 2 bs
  | .uint32, bs => decodeUint 4 bs
  | .uint64, bs => decodeUint 8 bs
  | .array n e, bs =>
      match decodeRepeat e.decode n bs with
      | .error err => .error err
      | .ok (vs, r) => .ok (.seq vs, r)
  | .struct _ fs, bs =>
      match fs.decode bs with
      | .error err => .error err
      | .ok (vs, r) => .ok (.seq vs, r)
  | .slice _, _ => .error .MalformedElement
  | .iface _, _ => .error .MalformedElement
  | .imported _, _ => .error .MalformedElement
/-- Modelled from the spec: the record decoder missing from the file: the
fields read in declaration order; a reserved field is skipped without
validation and yields no value. -/
def FieldList.decode : FieldList → List Nat → Except CodecError (List Value × List Nat)
  | .nil, bs => .ok ([], bs)
  | .cons n t rest, bs =>
      if isReserved n then
        if bs.length < t.wireWidth.getD 0 then .error .BufferTooShort
        else rest.decode (bs.drop (t.wireWidth.getD 0))
      else
        match t.decode bs with
        | .error err => .error err
        | .ok (v, r) =>
            match rest.decode r with
            | .error err => .error err
            | .ok (vs, r2) => .ok (v :: vs, r2)
end

mutual
/-- A value is well typed for a type of fixed width: integers lie in the range
of their declared width, arrays have their declared number of elements, and a
record has one value for each field that is not reserved. -/
def GoType.wellTyped : GoType → Value → Bool
  | .uint8, .uint n => decide (n < 2 ^ 8)
  | .uint16, .uint n => decide (n < 2 ^ 16)
  | .uint32, .uint n => decide (n < 2 ^ 32)
  | .uint64, .uint n => decide (n < 2 ^ 64)
  | .array n e, .seq vs => decide (vs.length = n) && vs.all e.wellTyped
  | .struct _ fs, .seq vs => fs.wellTyped vs
  | _, _ => false
/-- The values of the fields of a record that are not reserved are well typed. -/
def FieldList.wellTyped : FieldList → List Value → Bool
  | .nil, vs => vs.isEmpty
  | .cons n t rest, vs =>
      if isReserved n then (t.wireWidth).isSome && rest.wellTyped vs
      else
        match vs with
        | v :: vs2 => t.wellTyped v && rest.wellTyped vs2
        | [] => false
end

mutual
/-- Go's zero value of a type of fixed width. -/
def GoType.zeroValue : GoType → Value
  | .array n e => .seq (List.replicate n e.zeroValue)
  | .struct _ fs => .seq fs.zeroValues
  | _ => .uint 0
/-- The zero values of the fields of a record that are not reserved. -/
def FieldList.zeroValues : FieldList → List Value
  | .nil => []
  | .cons n t rest =>
      if isReserved n then rest.zeroValues else t.zeroValue :: rest.zeroValues
end

/-! ### Records with a length field and a trailing part -/

/-- The unsigned integer found in a value by following a path of positions. -/
def Value.getAt : List Nat → Value → Option Nat
  | [], .uint n => some n
  | i :: p, .seq vs =>
      match vs[i]? with
      | some v => Value.getAt p v
      | none => none
  | _, _ => none

/-- The value with the unsigned integer at a path of positions replaced. -/
def Value.setAt : List Nat → Nat → Value → Value
  | [], n, .uint _ => .uint n
  | i :: p, n, .seq vs =>
      match vs[i]? with
      | some v => .seq (vs.set i (Value.setAt p n v))
      | none => .seq vs
  | _, _, v => v

/-- Position of the field `name` among the fields that are not reserved. -/
def FieldList.valueIndex (name : String) : FieldList → Option Nat
  | .nil => none
  | .cons n _ rest =>
      if n = name then some 0
      else if isReserved n then rest.valueIndex name
      else (rest.valueIndex name).map (fun i => i + 1)

/-- Path, in a value of the record, of the field `name`: a field of the record
itself or, failing that, a field of the record its first field embeds. -/
def GoType.pathOf (t : GoType) (name : String) : Option (List Nat) :=
  match t.fieldList.valueIndex name with
  | some i => some [i]
  | none =>
      match t.fieldList with
      | .cons _ (.struct _ hfs) _ => (hfs.valueIndex name).map (fun i => [0, i])
      | _ => none

/-- Path of the `Length` field of a record: its own `Length`, or the `Length`
of the header it starts with. -/
def GoType.lengthPath (t : GoType) : Option (List Nat) :=
  t.pathOf "Length"

/-- The record type restricted to its leading fields of fixed width. -/
def GoType.fixedPart : GoType → GoType
  | .struct n fs => .struct n fs.fixedPart
  | t => t

/-- The record starts with a field of type `hdr` that is not reserved. -/
def GoType.startsWith (t hdr : GoType) : Bool :=
  match t.fieldList with
  | .cons n h _ => !isReserved n && decide (h = hdr)
  | .nil => false

/-- Modelled from the spec: a field of a value patched with a computed number
(the encoder computes the length fields once the parts are serialised). -/
def patchField (path : Option (List Nat)) (n : Nat) (v : Value) : Value :=
  match path with
  | some p => v.setAt p n
  | none => v

/-- The number a value holds at an optional path. -/
def readField (path : Option (List Nat)) (v : Value) : Option Nat :=
  match path with
  | some p => v.getAt p
  | none => none

/-- Modelled from the spec: encoding of a record that carries its own length,
missing from the file: the fixed fields followed by the serialised trailing
part, the `Length` field holding the computed total; `EncodingOverflow` when
the total does not fit the 16-bit field. -/
def encodeRecord (decl : GoType) (fixed : Value) (tailBytes : List Nat) :
    Except CodecError (List Nat) :=
  if decl.fixedWidth + tailBytes.length < 2 ^ 16 then
    .ok (decl.fixedPart.encode
          (patchField decl.lengthPath (decl.fixedWidth + tailBytes.length) fixed) ++ tailBytes)
  else .error .EncodingOverflow

/-- Number of zero bytes that bring a length of `n` bytes to a multiple of
`align`. -/
def padTo (align n : Nat) : Nat := (align - n % align) % align

/-- Modelled from the spec: encoding of an element where 64-bit alignment is
mandated (actions and instructions): trailing zero padding brings the total
length to a multiple of `align`, and the `Length` field covers header, body
and padding. -/
def encodeAligned (align : Nat) (decl : GoType) (fixed : Value) (tailBytes : List Nat) :
    Except CodecError (List Nat) :=
  encodeRecord decl fixed
    (tailBytes ++ List.replicate (padTo align (decl.fixedWidth + tailBytes.length)) 0)

/-- Modelled from the spec: the record decoder missing from the file, run
inside the window of bytes the length of the record designates: the fixed
fields, then the trailing part on what is left of the window. -/
def decodeRecord {τ : Type} (decl : GoType)
    (decTail : Value → List Nat → Except CodecError τ) (window : List Nat) :
    Except CodecError (Value × τ) :=
  match decl.fixedPart.decode window with
  | .error e => .error e
  | .ok (fixed, rest) =>
      match decTail fixed rest with
      | .error e => .error e
      | .ok t => .ok (fixed, t)

/-- Modelled from the spec: the length check missing from the file for a
record with no trailing part: the window must be used up, otherwise the
declared length disagrees with the bytes consumed (`LengthMismatch`). -/
def decodeNoTail (_fixed : Value) (rest : List Nat) : Except CodecError Unit :=
  if rest.isEmpty then .ok () else .error .LengthMismatch

/-- Modelled from the spec: the list encoder missing from the file: the
elements one after the other with no separators. -/
def encodeList {α : Type} (enc : α → Except CodecError (List Nat)) :
    List α → Except CodecError (List Nat)
  | [] => .ok []
  | x :: xs =>
      match enc x with
      | .error e => .error e
      | .ok b =>
          match encodeList enc xs with
          | .error e => .error e
          | .ok bs => .ok (b ++ bs)

/-- Modelled from the spec: the list decoder missing from the file. The
element decoder is run on what remains until nothing remains; fewer bytes than
an element header is `TrailingGarbage`. The fuel bounds the number of
elements; an element that consumes nothing is malformed. -/
def decodeListLoop {α : Type} (elem : List Nat → Except CodecError (α × Nat)) (hdr : Nat) :
    Nat → List Nat → Except CodecError (List α)
  | 0, bs => if bs.isEmpty then .ok [] else .error .TrailingGarbage
  | fuel + 1, bs =>
      if bs.isEmpty then .ok []
      else if bs.length < hdr then .error .TrailingGarbage
      else
        match elem bs with
        | .error e => .error e
        | .ok (x, n) =>
            if n = 0 then .error .MalformedElement
            else
              match decodeListLoop elem hdr fuel (bs.drop n) with
              | .error e => .error e
              | .ok xs => .ok (x :: xs)

/-- Modelled from the spec: the list decoder missing from the file, on a
window the list fills. Every element consumes at least one byte, so the length
of the window is fuel enough. -/
def decodeList {α : Type} (elem : List Nat → Except CodecError (α × Nat)) (hdr : Nat)
    (bs : List Nat) : Except CodecError (List α) :=
  decodeListLoop elem hdr bs.length bs

/-! ### The three families of tagged elements -/

/-- Modelled from the spec: the variant registry missing from the file, a
table from type tag to the record that decodes it. -/
structure Registry where
  entries : List (Nat × GoType)

/-- Modelled from the spec: the registry before any registration. -/
def Registry.empty : Registry := ⟨[]⟩

/-- Modelled from the spec: `register(typeTag, decodeFn)`; a later
registration of a tag replaces an earlier one. -/
def Registry.register (r : Registry) (tag : Nat) (decl : GoType) : Registry :=
  ⟨(tag, decl) :: r.entries⟩

/-- Modelled from the spec: `lookup(typeTag)`, `none` standing for
`UnknownVariant`. -/
def Registry.lookup (r : Registry) (tag : Nat) : Option GoType :=
  List.lookup tag r.entries

/-- Modelled from the spec: the experimenter tag 0xffff, registered in every
family of tagged elements. The file names it in the action and instruction
constant blocks (`OFPATExperimenter`, `OFPITExperimenter`) and not in the
queue property block. -/
def experimenterTag : Nat := 0xffff

/-- Modelled from the spec: the fixed fields of the opaque blob the
experimenter tag decodes to in the `Instruction` family, for which the file
declares no record: the element header and the vendor id; the raw trailing
bytes follow. -/
def InstructionExperimenter : GoType :=
  .struct "InstructionExperimenter" (fields [
    ("Header", InstructionHeader),
    ("Experimenter", .uint32)])

/-- Modelled from the spec: the fixed fields of the opaque blob the
experimenter tag decodes to in the `QueueProp` family, for which the file
declares no record: the element header and the vendor id; the raw trailing
bytes follow. -/
def QueuePropExperimenter : GoType :=
  .struct "QueuePropExperimenter" (fields [
    ("Header", QueuePropHeader),
    ("Experimenter", .uint32)])

/-- Modelled from the spec: the registry of the `Action` family; the spec does
not list its entries. Every tag of the action constant block is registered:
with the record declared for it when there is one, with the bare
`ActionHeader` for the tags that have no record of their own
(`OFPATCopyTTLOut`, `OFPATCopyTTLIn`, `OFPATDecMPLSTTL`, `OFPATPopVLAN`,
`OFPATDecNWTTL`), and the experimenter tag with `ActionExperimenterHeader`,
the fixed fields of the opaque blob. -/
def actionRegistry : Registry :=
  (((((((((((((((((((((((((Registry.empty.register
    OFPATOutput ActionOutput).register
    OFPATSetVLANVID ActionVLANVID).register
    OFPATSetVLANPCP ActionVLANPCP).register
    OFPATSetDLSrc ActionDLAddr).register
    OFPATSetDLDst ActionDLAddr).register
    OFPATSetNWSrc ActionNWAddr).register
    OFPATSetNWDst ActionNWAddr).register
    OFPATSetNWTos ActionNWTOS).register
    OFPATSetNWECN ActionNWECN).register
    OFPATSetTPSrc ActionTPPort).register
    OFPATSetTPDst ActionTPPort).register
    OFPATCopyTTLOut ActionHeader).register
    OFPATCopyTTLIn ActionHeader).register
    OFPATSetMPLSLabel ActionMPLSLabel).register
    OFPATSetMPLSTC ActionMPLSTC).register
    OFPATSetMPLSTTL ActionMPLSTTL).register
    OFPATDecMPLSTTL ActionHeader).register
    OFPATPushVLAN ActionPush).register
    OFPATPopVLAN ActionHeader).register
    OFPATPushMPLS ActionPush).register
    OFPATPopMPLS ActionPopMPLS).register
    OFPATSetQueue ActionSetQueue).register
    OFPATGroup ActionGroup).register
    OFPATSetNWTTL ActionNWTTL).register
    OFPATDecNWTTL ActionHeader).register
    OFPATExperimenter ActionExperimenterHeader

/-- Modelled from the spec: the registry of the `Instruction` family; the spec
does not list its entries. Every tag of the instruction constant block is
registered: with the record declared for it, and the experimenter tag with the
opaque blob `InstructionExperimenter`. -/
def instructionRegistry : Registry :=
  (((((Registry.empty.register
    OFPITGotoTable InstructionGotoTable).register
    OFPITWriteMetadata InstructionWriteMetadata).register
    OFPITWriteActions InstructionActions).register
    OFPITApplyActions InstructionActions).register
    OFPITClearActions InstructionActions).register
    OFPITExperimenter InstructionExperimenter

/-- Modelled from the spec: the registry of the `QueueProp` family; the spec
does not list its entries. Every tag of the queue property constant block is
registered: `OFPQTMinRate` with the record declared for it, `OFPQTNone` with
the bare `QueuePropHeader`, and the experimenter tag, always registered, with
the opaque blob `QueuePropExperimenter`. -/
def queuePropRegistry : Registry :=
  ((Registry.empty.register
    OFPQTNone QueuePropHeader).register
    OFPQTMinRate QueuePropMinRate).register
    experimenterTag QueuePropExperimenter

/-- Modelled from the spec: decoding of one tagged element, missing from the
file. The element header (type tag, length) is read; a length smaller than
the header is `MalformedElement`; a tag absent from the registry is
`UnknownVariant`; the registered record is decoded on the window the length
designates and must use it up (`LengthMismatch`). The result carries the
record found, its fields, its trailing part and the bytes consumed. -/
def decodeElement {τ : Type} (hdrType : GoType) (registry : Registry)
    (decTail : GoType → Value → List Nat → Except CodecError τ) (bs : List Nat) :
    Except CodecError ((GoType × Value × τ) × Nat) :=
  match hdrType.decode bs with
  | .error e => .error e
  | .ok (.seq (.uint tag :: .uint len :: _), _) =>
      if len < hdrType.fixedWidth then .error .MalformedElement
      else
        match registry.lookup tag with
        | none => .error .UnknownVariant
        | some decl =>
            if bs.length < len then .error .LengthMismatch
            else
              match decodeRecord decl (decTail decl) (bs.take len) with
              | .error e => .error e
              | .ok (fixed, t) => .ok ((decl, fixed, t), len)
  | .ok _ => .error .MalformedElement

/-- Modelled from the spec: a family of tagged elements: the record of its
element header, the record of the fixed fields of its opaque blob, its
registry, and the alignment of the length of its elements (8 where 64-bit
alignment is mandated, 1 where it is not). -/
structure Family where
  header : GoType
  blob : GoType
  registry : Registry
  align : Nat

/-- Modelled from the spec: the `Action` family; its elements are aligned on
64 bits. -/
def actionFamily : Family := ⟨ActionHeader, ActionExperimenterHeader, actionRegistry, 8⟩

/-- Modelled from the spec: the `Instruction` family; its elements are aligned
on 64 bits. -/
def instructionFamily : Family :=
  ⟨InstructionHeader, InstructionExperimenter, instructionRegistry, 8⟩

/-- Modelled from the spec: the `QueueProp` family; no alignment is mandated
for its elements. -/
def queuePropFamily : Family :=
  ⟨QueuePropHeader, QueuePropExperimenter, queuePropRegistry, 1⟩

/-- A variant of a family with no trailing list: the record of the variant,
the values of its fields, and the raw trailing bytes of an opaque blob (empty
for the other variants). -/
structure Element where
  decl : GoType
  fixed : Value
  data : List Nat

/-- A value of the interface `Action`. -/
abbrev Action : Type := Element

/-- A value of the interface `QueueProp`. -/
abbrev QueueProp : Type := Element

/-- A value of the interface `Instruction`; `Actions` is the trailing list of
the variant `InstructionActions` and is empty for the other variants, `data`
is the raw trailing bytes of an opaque blob and is empty for the other
variants. -/
structure Instruction where
  decl : GoType
  fixed : Value
  Actions : List Action
  data : List Nat

/-- Modelled from the spec: the bytes that follow the fixed fields of a
variant: the raw trailing bytes of an opaque blob, nothing for the other
variants. -/
def Family.payload (f : Family) (decl : GoType) (data : List Nat) : List Nat :=
  if decl = f.blob then data else []

/-- Modelled from the spec: encoding of one element of a family, missing from
the file: the fixed fields, the payload, then zero bytes up to the alignment
of the family, the `Length` field covering header, body and padding. -/
def Family.pack (f : Family) (e : Element) : Except CodecError (List Nat) :=
  encodeAligned f.align e.decl e.fixed (f.payload e.decl e.data)

/-- Modelled from the spec: decoding, missing from the file, of what follows
the fixed fields in the window of one element. An opaque blob takes the rest
of the window as its raw trailing bytes; any other variant is followed by its
alignment padding only, which is skipped without a look at its bytes, a rest
of another length being a `LengthMismatch`. -/
def Family.decodeTail (f : Family) (decl : GoType) (_fixed : Value) (rest : List Nat) :
    Except CodecError (List Nat) :=
  if decl = f.blob then .ok rest
  else if rest.length = padTo f.align decl.fixedWidth then .ok []
  else .error .LengthMismatch

/-- Modelled from the spec: decoding, missing from the file, of a variant of
record `decl` on the bytes of one element: the record is decoded and its
`Length` must be the number of bytes. -/
def Family.unpack (f : Family) (decl : GoType) (data : List Nat) :
    Except CodecError Element :=
  match decodeRecord decl (f.decodeTail decl) data with
  | .error e => .error e
  | .ok (fixed, d) =>
      if readField decl.lengthPath fixed = some data.length then .ok ⟨decl, fixed, d⟩
      else .error .LengthMismatch

/-- Modelled from the spec: the decoder, missing from the file, of one element
of a list, the variant found through the registry of the family. -/
def Family.decodeOne (f : Family) (bs : List Nat) : Except CodecError (Element × Nat) :=
  match decodeElement f.header f.registry f.decodeTail bs with
  | .error e => .error e
  | .ok ((decl, fixed, d), n) => .ok (⟨decl, fixed, d⟩, n)

/-- Modelled from the spec: `PackBinary` of an `Action` variant (declared in
the interface, without body in the file): the record with its computed
`Length`, padded to a multiple of 8 bytes. -/
def Action.PackBinary (a : Action) : Except CodecError (List Nat) :=
  actionFamily.pack a

/-- Modelled from the spec: `UnpackBinary` of an `Action` variant of record
`decl` (declared in the interface, without body in the file) on the bytes of
one element. -/
def Action.UnpackBinary (decl : GoType) (data : List Nat) : Except CodecError Action :=
  actionFamily.unpack decl data

/-- Modelled from the spec: the decoder, missing from the file, of one
`Action` element of a list, the variant found through the registry. -/
def decodeAction (bs : List Nat) : Except CodecError (Action × Nat) :=
  actionFamily.decodeOne bs

/-- Modelled from the spec: the encoder of a list of actions, missing from
the file. -/
def encodeActions (acts : List Action) : Except CodecError (List Nat) :=
  encodeList Action.PackBinary acts

/-- Modelled from the spec: the decoder of a list of actions filling a
window, missing from the file. -/
def decodeActions (window : List Nat) : Except CodecError (List Action) :=
  decodeList decodeAction ActionHeader.fixedWidth window

/-- Modelled from the spec: `PackBinary` of a `QueueProp` variant (declared
in the interface, without body in the file); the spec mandates no alignment
padding for queue properties. -/
def QueueProp.PackBinary (q : QueueProp) : Except CodecError (List Nat) :=
  queuePropFamily.pack q

/-- Modelled from the spec: `UnpackBinary` of a `QueueProp` variant of record
`decl` (declared in the interface, without body in the file) on the bytes of
one element. -/
def QueueProp.UnpackBinary (decl : GoType) (data : List Nat) : Except CodecError QueueProp :=
  queuePropFamily.unpack decl data

/-- Modelled from the spec: the decoder, missing from the file, of one
`QueueProp` element of a list; the element header is the record
`QueuePropHeader`, reserved bytes included. -/
def decodeQueueProp (bs : List Nat) : Except CodecError (QueueProp × Nat) :=
  queuePropFamily.decodeOne bs

/-- Modelled from the spec: the encoder of a list of queue properties,
missing from the file. -/
def encodeQueueProps (qs : List QueueProp) : Except CodecError (List Nat) :=
  encodeList QueueProp.PackBinary qs

/-- Modelled from the spec: the decoder of a list of queue properties filling
a window, missing from the file. -/
def decodeQueueProps (window : List Nat) : Except CodecError (List QueueProp) :=
  decodeList decodeQueueProp QueuePropHeader.fixedWidth window

/-- The record ends with a list (it has a field of no fixed width). -/
def GoType.hasTail (t : GoType) : Bool :=
  match t.fieldList.variablePart with
  | .nil => false
  | .cons _ _ _ => true

/-- Modelled from the spec: the decoder, missing from the file, of what
follows the fixed fields of an instruction: the list of actions of
`InstructionActions`; for the other variants the raw trailing bytes of an
opaque blob or the alignment padding. -/
def decodeInstructionTail (decl : GoType) (fixed : Value) (rest : List Nat) :
    Except CodecError (List Action × List Nat) :=
  if decl.hasTail then
    match decodeActions rest with
    | .error e => .error e
    | .ok acts => .ok (acts, [])
  else
    match instructionFamily.decodeTail decl fixed rest with
    | .error e => .error e
    | .ok d => .ok ([], d)

/-- Modelled from the spec: `PackBinary` of an `Instruction` variant
(declared in the interface, without body in the file): the fixed fields with
the computed `Length`, then the actions or the raw trailing bytes, padded to a
multiple of 8 bytes. -/
def Instruction.PackBinary (i : Instruction) : Except CodecError (List Nat) :=
  if i.decl.hasTail then
    match encodeActions i.Actions with
    | .error e => .error e
    | .ok tb => encodeAligned 8 i.decl i.fixed tb
  else encodeAligned 8 i.decl i.fixed (instructionFamily.payload i.decl i.data)

/-- Modelled from the spec: `UnpackBinary` of an `Instruction` variant of
record `decl` (declared in the interface, without body in the file) on the
bytes of one element. -/
def Instruction.UnpackBinary (decl : GoType) (data : List Nat) :
    Except CodecError Instruction :=
  match decodeRecord decl (decodeInstructionTail decl) data with
  | .error e => .error e
  | .ok (fixed, acts, d) =>
      if readField decl.lengthPath fixed = some data.length then .ok ⟨decl, fixed, acts, d⟩
      else .error .LengthMismatch

/-- Modelled from the spec: the decoder, missing from the file, of one
`Instruction` element of a list. -/
def decodeInstruction (bs : List Nat) : Except CodecError (Instruction × Nat) :=
  match decodeElement InstructionHeader instructionRegistry decodeInstructionTail bs with
  | .error e => .error e
  | .ok ((decl, fixed, acts, d), n) => .ok (⟨decl, fixed, acts, d⟩, n)

/-- Modelled from the spec: the encoder of a list of instructions, missing
from the file. -/
def encodeInstructions (is : List Instruction) : Except CodecError (List Nat) :=
  encodeList Instruction.PackBinary is

/-- Modelled from the spec: the decoder of a list of instructions filling a
window, missing from the file. -/
def decodeInstructions (window : List Nat) : Except CodecError (List Instruction) :=
  decodeList decodeInstruction InstructionHeader.fixedWidth window
/-! ### Records framed by their own `Length` field -/

/-- Modelled from the spec: the decoder, missing from the file, of one
element of a list of records that carry their own `Length` field (buckets, packet queues, the entries of
a stats body). The fixed fields give the length; a length smaller than the
fixed fields is `MalformedElement`; the record is decoded on the window the
length designates. -/
def decodeItem {τ : Type} (decl : GoType)
    (decTail : Value → List Nat → Except CodecError τ) (bs : List Nat) :
    Except CodecError ((Value × τ) × Nat) :=
  match decl.fixedPart.decode bs with
  | .error e => .error e
  | .ok (fixed, _) =>
      match readField decl.lengthPath fixed with
      | none => .error .MalformedElement
      | some len =>
          if len < decl.fixedWidth then .error .MalformedElement
          else if bs.length < len then .error .LengthMismatch
          else
            match decodeRecord decl decTail (bs.take len) with
            | .error e => .error e
            | .ok m => .ok (m, len)

/-- A value of the record `Bucket`. -/
structure BucketValue where
  fixed : Value
  Actions : List Action

/-- A value of the record `PacketQueue`. -/
structure PacketQueueValue where
  fixed : Value
  Properties : List QueueProp

/-- Modelled from the spec: the encoder of a bucket, missing from the file. -/
def BucketValue.encode (b : BucketValue) : Except CodecError (List Nat) :=
  match encodeActions b.Actions with
  | .error e => .error e
  | .ok tb => encodeRecord Bucket b.fixed tb

/-- Modelled from the spec: the decoder of one bucket of a list, missing from
the file. -/
def decodeBucket (bs : List Nat) : Except CodecError (BucketValue × Nat) :=
  match decodeItem Bucket (fun _ => decodeActions) bs with
  | .error e => .error e
  | .ok ((fixed, acts), n) => .ok (⟨fixed, acts⟩, n)

/-- Modelled from the spec: the encoder of a packet queue, missing from the
file. -/
def PacketQueueValue.encode (q : PacketQueueValue) : Except CodecError (List Nat) :=
  match encodeQueueProps q.Properties with
  | .error e => .error e
  | .ok tb => encodeRecord PacketQueue q.fixed tb

/-- Modelled from the spec: the decoder of one packet queue of a list,
missing from the file. -/
def decodePacketQueue (bs : List Nat) : Except CodecError (PacketQueueValue × Nat) :=
  match decodeItem PacketQueue (fun _ => decodeQueueProps) bs with
  | .error e => .error e
  | .ok ((fixed, props), n) => .ok (⟨fixed, props⟩, n)

/-- Modelled from the spec: the decoder, missing from the file, of one record
of fixed width of a list (a port, a bucket counter), with the bytes it
consumed. -/
def decodeFixed (e : GoType) (bs : List Nat) : Except CodecError (Value × Nat) :=
  match e.decode bs with
  | .error err => .error err
  | .ok (v, r) => .ok (v, bs.length - r.length)

/-! ### Messages and stats bodies -/

/-- The trailing part of a message or of a stats body. -/
inductive Tail where
  | none
  | bytes (data : List Nat)
  | values (vs : List Value)
  | instructions (is : List Instruction)
  | buckets (bs : List BucketValue)
  | queues (qs : List PacketQueueValue)
  | actionsThenBytes (acts : List Action) (data : List Nat)

/-- The shape of the trailing part a record declares. -/
inductive TailKind where
  | none
  | bytes
  | values (elem : GoType)
  | instructions
  | buckets
  | queues
  | actionsThenBytes
  deriving DecidableEq

/-- The shape of the trailing part of a record, read off the fields that
follow its fields of fixed width: nothing; raw bytes (`[]uint8`, or a value of
an imported type, carried as an untyped payload); a list of records of fixed
width; a list of instructions, of buckets or of packet queues; a list of
actions followed by raw bytes. -/
def GoType.tailKind (t : GoType) : Option TailKind :=
  match t.fieldList.variablePart with
  | .nil => some .none
  | .cons _ (.imported _) .nil => some .bytes
  | .cons _ (.slice .uint8) .nil => some .bytes
  | .cons _ (.slice (.iface name)) .nil =>
      if name = "Instruction" then some .instructions else none
  | .cons _ (.slice (.iface name)) (.cons _ (.imported _) .nil) =>
      if name = "Action" then some .actionsThenBytes else none
  | .cons _ (.slice e) .nil =>
      if e = Bucket then some .buckets
      else if e = PacketQueue then some .queues
      else if e.wireWidth.isSome then some (.values e)
      else none
  | _ => none

/-- A value of a message record or of a stats body record: the record, the
values of its fields of fixed width, and its trailing part. -/
structure Record where
  decl : GoType
  fixed : Value
  tail : Tail

/-- Modelled from the spec: the encoder, missing from the file, of the
trailing part of a record; a trailing part of another shape than the record
declares does not serialise. -/
def encodeTail : TailKind → Tail → Except CodecError (List Nat)
  | .none, .none => .ok []
  | .bytes, .bytes data => .ok data
  | .values e, .values vs => encodeList (fun v => .ok (e.encode v)) vs
  | .instructions, .instructions is => encodeInstructions is
  | .buckets, .buckets bs => encodeList BucketValue.encode bs
  | .queues, .queues qs => encodeList PacketQueueValue.encode qs
  | .actionsThenBytes, .actionsThenBytes acts data =>
      match encodeActions acts with
      | .error e => .error e
      | .ok ab => .ok (ab ++ data)
  | _, _ => .error .MalformedElement

/-- Modelled from the spec: the length field of a list held inside a record
(`ActionsLen` of `PacketOut`), computed by the encoder with the other length
fields. -/
def patchInner (decl : GoType) : Tail → Value → Except CodecError Value
  | .actionsThenBytes acts _, fixed =>
      match encodeActions acts with
      | .error e => .error e
      | .ok ab => .ok (patchField (decl.pathOf "ActionsLen") ab.length fixed)
  | _, fixed => .ok fixed

/-- Modelled from the spec: `encode` of a message (and of a stats body
record): the trailing part is serialised, then the fixed fields with the
length fields computed. -/
def Record.encode (m : Record) : Except CodecError (List Nat) :=
  match m.decl.tailKind with
  | none => .error .MalformedElement
  | some k =>
      match encodeTail k m.tail with
      | .error e => .error e
      | .ok tb =>
          match patchInner m.decl m.tail m.fixed with
          | .error e => .error e
          | .ok fixed => encodeRecord m.decl fixed tb

/-- Modelled from the spec: the decoder, missing from the file, of the
trailing part of a record on what is left of its window. A list is decoded until the window is exhausted, raw
bytes are copied verbatim; the actions of a `PacketOut` take the `ActionsLen`
bytes that follow the fixed fields and its data is what follows them. -/
def decodeTail (decl : GoType) (k : TailKind) (fixed : Value) (rest : List Nat) :
    Except CodecError Tail :=
  match k with
  | .none =>
      match decodeNoTail fixed rest with
      | .error e => .error e
      | .ok _ => .ok .none
  | .bytes => .ok (.bytes rest)
  | .values e =>
      match decodeList (decodeFixed e) 0 rest with
      | .error err => .error err
      | .ok vs => .ok (.values vs)
  | .instructions =>
      match decodeInstructions rest with
      | .error e => .error e
      | .ok is => .ok (.instructions is)
  | .buckets =>
      match decodeList decodeBucket Bucket.fixedWidth rest with
      | .error e => .error e
      | .ok bs => .ok (.buckets bs)
  | .queues =>
      match decodeList decodePacketQueue PacketQueue.fixedWidth rest with
      | .error e => .error e
      | .ok qs => .ok (.queues qs)
  | .actionsThenBytes =>
      match readField (decl.pathOf "ActionsLen") fixed with
      | none => .error .MalformedElement
      | some n =>
          if rest.length < n then .error .TruncatedMessage
          else
            match decodeActions (rest.take n) with
            | .error e => .error e
            | .ok acts => .ok (.actionsThenBytes acts (rest.drop n))

/-- Modelled from the spec: `decode` of a message of record `decl`, missing
from the file: (1) the `Header` is decoded and `Header.Length` must not exceed
the bytes at hand (`TruncatedMessage`); (2) the fixed fields and (3, 4) the
trailing part are decoded on the window of `Header.Length` bytes. The result is
the message and the number of bytes consumed. -/
def decodeMessage (decl : GoType) (bs : List Nat) : Except CodecError (Record × Nat) :=
  match Header.decode bs with
  | .error e => .error e
  | .ok (hdr, _) =>
      match readField Header.lengthPath hdr with
      | none => .error .MalformedElement
      | some len =>
          if bs.length < len then .error .TruncatedMessage
          else
            match decl.tailKind with
            | none => .error .MalformedElement
            | some k =>
                match decodeRecord decl (decodeTail decl k) (bs.take len) with
                | .error e => .error e
                | .ok (fixed, t) => .ok (⟨decl, fixed, t⟩, len)

/-- Modelled from the spec: the decoder, missing from the file, of one entry
of a stats body whose record `decl` carries its own `Length` (the stats body multiplexer applies it to
the body slice). -/
def decodeBody (decl : GoType) (bs : List Nat) : Except CodecError (Record × Nat) :=
  match decl.tailKind with
  | none => .error .MalformedElement
  | some k =>
      match decodeItem decl (decodeTail decl k) bs with
      | .error e => .error e
      | .ok ((fixed, t), n) => .ok (⟨decl, fixed, t⟩, n)

/-- The records of the message kinds. The file declares no record for the
messages that consist of a header only (hello, echo, features request, get
config request, barrier): their record is `Header`. -/
def messageRecords : List GoType :=
  [ Header, ErrorMsg, ExperimenterHeader, SwitchFeatures, SwitchConfig, TableMod,
    FlowMod, GroupMod, PortMod, QueueGetConfigRequest, QueueGetConfigReply,
    StatsRequest, StatsReply, PacketOut, PacketIn, FlowRemoved, PortStatus ]

/-- The stats body records that carry their own `Length` and a trailing list. -/
def framedBodyRecords : List GoType :=
  [ FlowStats, GroupStats, GroupDescStats ]

/-- The records of fixed width that carry no length of their own: the common
structures and the stats bodies of fixed width. -/
def plainRecords : List GoType :=
  [ Header, Port, Match, BucketCounter, DescStats, FlowStatsRequest,
    AggregateStatsRequest, AggregateStatsReply, TableStats, PortStatsRequest,
    PortStats, QueueStatsRequest, QueueStats, GroupStatsRequest ]

/-! ### Lengths and valid values -/

/-- Modelled from the spec: the length of one element of a family: its fixed
fields, its payload and its alignment padding. -/
def Family.elementLen (f : Family) (e : Element) : Nat :=
  e.decl.fixedWidth + (f.payload e.decl e.data).length +
    padTo f.align (e.decl.fixedWidth + (f.payload e.decl e.data).length)

/-- Modelled from the spec: `Len` of an `Action` variant (declared in the
interface, without body in the file): the length of the element on the wire,
padding included. -/
def Action.Len (a : Action) : Nat := actionFamily.elementLen a

/-- Modelled from the spec: `Len` of a `QueueProp` variant (declared in the
interface, without body in the file). -/
def QueueProp.Len (q : QueueProp) : Nat := queuePropFamily.elementLen q

/-- Total length of a list of actions. -/
def actionsLen (acts : List Action) : Nat := (acts.map Action.Len).sum

/-- Length of what follows the fixed fields of an instruction, padding left
out: the actions it holds, or the raw trailing bytes of an opaque blob. -/
def Instruction.bodyLen (i : Instruction) : Nat :=
  if i.decl.hasTail then actionsLen i.Actions
  else (instructionFamily.payload i.decl i.data).length

/-- Modelled from the spec: `Len` of an `Instruction` variant (declared in
the interface, without body in the file): the length of the element on the
wire, padding included. -/
def Instruction.Len (i : Instruction) : Nat :=
  i.decl.fixedWidth + i.bodyLen + padTo 8 (i.decl.fixedWidth + i.bodyLen)

/-- Length of a bucket: its fixed fields and its actions. -/
def BucketValue.Len (b : BucketValue) : Nat := Bucket.fixedWidth + actionsLen b.Actions

/-- Length of a packet queue: its fixed fields and its properties. -/
def PacketQueueValue.Len (q : PacketQueueValue) : Nat :=
  PacketQueue.fixedWidth + (q.Properties.map QueueProp.Len).sum

/-- Length of the trailing part of a record. -/
def Tail.Len : TailKind → Tail → Nat
  | .bytes, .bytes data => data.length
  | .values e, .values vs => (vs.map (fun _ => e.fixedWidth)).sum
  | .instructions, .instructions is => (is.map Instruction.Len).sum
  | .buckets, .buckets bs => (bs.map BucketValue.Len).sum
  | .queues, .queues qs => (qs.map PacketQueueValue.Len).sum
  | .actionsThenBytes, .actionsThenBytes acts data => actionsLen acts + data.length
  | _, _ => 0

/-- Length of a message or stats body record: its fixed fields and its
trailing part. -/
def Record.Len (m : Record) : Nat :=
  match m.decl.tailKind with
  | some k => m.decl.fixedWidth + Tail.Len k m.tail
  | none => m.decl.fixedWidth

/-- The type tag of an element of a family whose element header is
`hdrType`: the first field of the header, the header being the record itself
or its first field. -/
def elementTag (hdrType decl : GoType) (fixed : Value) : Option Nat :=
  if decl = hdrType then fixed.getAt [0] else fixed.getAt [0, 0]

/-- A valid element of a family: its fields are well typed for its record,
its type tag is one the registry maps to its record, only an opaque blob has
raw trailing bytes, and its `Length` field holds its length, which fits 16
bits. -/
def Family.Valid (f : Family) (e : Element) : Prop :=
  e.decl.fixedPart.wellTyped e.fixed = true ∧
  (elementTag f.header e.decl e.fixed).bind f.registry.lookup = some e.decl ∧
  (e.decl ≠ f.blob → e.data = []) ∧
  f.elementLen e < 2 ^ 16 ∧
  readField e.decl.lengthPath e.fixed = some (f.elementLen e)

/-- A valid `Action`. -/
def Action.Valid (a : Action) : Prop := actionFamily.Valid a

/-- A valid `QueueProp`. -/
def QueueProp.Valid (q : QueueProp) : Prop := queuePropFamily.Valid q

/-- A valid `Instruction`: well typed fixed fields, a registered type tag,
valid actions (none for a variant without a list), raw trailing bytes for an
opaque blob only, and a `Length` field that holds its length, which fits 16
bits. -/
def Instruction.Valid (i : Instruction) : Prop :=
  i.decl.fixedPart.wellTyped i.fixed = true ∧
  (elementTag InstructionHeader i.decl i.fixed).bind instructionRegistry.lookup
    = some i.decl ∧
  (∀ a ∈ i.Actions, Action.Valid a) ∧
  (i.decl.hasTail = false → i.Actions.isEmpty = true) ∧
  (i.decl ≠ InstructionExperimenter → i.data = []) ∧
  i.Len < 2 ^ 16 ∧
  readField i.decl.lengthPath i.fixed = some i.Len

/-- The element as the decoder returns it: the raw trailing bytes of an
opaque blob are followed by the alignment padding the encoder appended. -/
def Family.padded (f : Family) (e : Element) : Element :=
  ⟨e.decl, e.fixed,
    if e.decl = f.blob then
      e.data ++ List.replicate (padTo f.align (e.decl.fixedWidth + e.data.length)) 0
    else e.data⟩

/-- The action as the decoder returns it. -/
def Action.padded (a : Action) : Action := actionFamily.padded a

/-- The instruction as the decoder returns it. -/
def Instruction.padded (i : Instruction) : Instruction :=
  ⟨i.decl, i.fixed, i.Actions,
    if i.decl = InstructionExperimenter then
      i.data ++ List.replicate (padTo 8 (i.decl.fixedWidth + i.data.length)) 0
    else i.data⟩

/-- An element whose encoding needs no padding after raw trailing bytes: it is
no opaque blob, or the length of its blob is a multiple of the alignment. -/
def Family.Canonical (f : Family) (e : Element) : Prop :=
  e.decl = f.blob → padTo f.align (e.decl.fixedWidth + e.data.length) = 0

/-- An action whose encoding needs no padding after raw trailing bytes. -/
def Action.Canonical (a : Action) : Prop := actionFamily.Canonical a

/-- An instruction whose encoding, and that of each of its actions, needs no
padding after raw trailing bytes. -/
def Instruction.Canonical (i : Instruction) : Prop :=
  (i.decl = InstructionExperimenter →
    padTo 8 (i.decl.fixedWidth + i.data.length) = 0) ∧
  ∀ a ∈ i.Actions, Action.Canonical a

/-- A bucket whose actions need no padding after raw trailing bytes. -/
def BucketValue.Canonical (b : BucketValue) : Prop :=
  ∀ a ∈ b.Actions, Action.Canonical a

/-- A trailing part whose actions and instructions need no padding after raw
trailing bytes. -/
def Tail.Canonical : Tail → Prop
  | .instructions is => ∀ i ∈ is, i.Canonical
  | .buckets bs => ∀ b ∈ bs, b.Canonical
  | .actionsThenBytes acts _ => ∀ a ∈ acts, Action.Canonical a
  | _ => True

/-- A valid bucket. -/
def BucketValue.Valid (b : BucketValue) : Prop :=
  Bucket.fixedPart.wellTyped b.fixed = true ∧
  (∀ a ∈ b.Actions, Action.Valid a) ∧
  b.Len < 2 ^ 16 ∧
  readField Bucket.lengthPath b.fixed = some b.Len

/-- A valid packet queue. -/
def PacketQueueValue.Valid (q : PacketQueueValue) : Prop :=
  PacketQueue.fixedPart.wellTyped q.fixed = true ∧
  (∀ p ∈ q.Properties, QueueProp.Valid p) ∧
  q.Len < 2 ^ 16 ∧
  readField PacketQueue.lengthPath q.fixed = some q.Len

/-- A valid trailing part of the shape the record declares. -/
def Tail.Valid : TailKind → Tail → Prop
  | .none, .none => True
  | .bytes, .bytes _ => True
  | .values e, .values vs => ∀ v ∈ vs, e.wellTyped v = true
  | .instructions, .instructions is => ∀ i ∈ is, i.Valid
  | .buckets, .buckets bs => ∀ b ∈ bs, b.Valid
  | .queues, .queues qs => ∀ q ∈ qs, q.Valid
  | .actionsThenBytes, .actionsThenBytes acts _ => ∀ a ∈ acts, Action.Valid a
  | _, _ => False

/-- The inner length field of a record holds the length of the list it
measures (`ActionsLen` of `PacketOut`). -/
def innerLengthOk (decl : GoType) : Tail → Value → Prop
  | .actionsThenBytes acts _, fixed =>
      readField (decl.pathOf "ActionsLen") fixed = some (actionsLen acts)
  | _, _ => True

/-- A valid message (or stats body record): the fixed fields are well typed
for the record, the trailing part has the declared shape and is valid, and
the length fields hold the lengths, the total fitting 16 bits. -/
def Record.Valid (m : Record) : Prop :=
  match m.decl.tailKind with
  | none => False
  | some k =>
      m.decl.fixedPart.wellTyped m.fixed = true ∧
      Tail.Valid k m.tail ∧
      innerLengthOk m.decl m.tail m.fixed ∧
      m.Len < 2 ^ 16 ∧
      readField m.decl.lengthPath m.fixed = some m.Len

/-- A message (or stats body record) whose actions and instructions need no
padding after raw trailing bytes. -/
def Record.Canonical (m : Record) : Prop := Tail.Canonical m.tail

/-! ### Round trip of an element of a list -/

/-- An element `x` round-trips through an encoder and a list element decoder:
it serialises to `len x` bytes, at least a header and at least one byte, and
decoding these bytes, whatever follows them, returns `x` and `len x` bytes
consumed. -/
def ElemRoundTrip {α : Type} (enc : α → Except CodecError (List Nat))
    (elem : List Nat → Except CodecError (α × Nat)) (len : α → Nat) (hdr : Nat) (x : α) :
    Prop :=
  ∃ b, enc x = .ok b ∧ b.length = len x ∧ hdr ≤ len x ∧ 0 < len x ∧
    ∀ rest, elem (b ++ rest) = .ok (x, len x)

/-! ### Shapes of headers and records -/

/-- The header of an element: a record of fixed width whose first two fields
are the 16-bit type tag and the 16-bit `Length`. -/
def GoType.isElementHeader : GoType → Bool
  | .struct n (.cons a .uint16 (.cons b .uint16 r)) =>
      !isReserved a && !isReserved b &&
        ((GoType.struct n (.cons a .uint16 (.cons b .uint16 r))).wireWidth).isSome
  | _ => false

/-- The record of a variant of a family whose element header is `hdrType`: it
is the header or starts with the header, and its `Length` is the second field
of the header. -/
def GoType.elementShape (hdrType decl : GoType) : Bool :=
  ((decide (decl = hdrType) && decide (decl.lengthPath = some [1])) ||
    (!decide (decl = hdrType) && decl.startsWith hdrType &&
      decide (decl.lengthPath = some [0, 1]))) &&
    hdrType.isElementHeader

/-- Every record of the registry has the shape of a variant of the family. -/
def Registry.wellFormed (hdrType : GoType) (r : Registry) : Bool :=
  r.entries.all (fun e => GoType.elementShape hdrType e.2)

/-- Every record of the registry that ends with a list has fixed fields
whose width is a multiple of 8. -/
def Registry.listsAligned (r : Registry) : Bool :=
  r.entries.all (fun e => !e.2.hasTail || e.2.fixedWidth % 8 == 0)

/-- A list of records of fixed width has elements of a positive width. -/
def TailKind.wellFormed : TailKind → Bool
  | .values e => (e.wireWidth).isSome && decide (0 < e.fixedWidth)
  | _ => true

/-- The record of a message: `Header` alone, or a record that starts with a
`Header`, whose `Length` is the length of the message; its trailing part has
one of the known shapes. -/
def GoType.messageShape (decl : GoType) : Bool :=
  (decide (decl = Header) ||
    (decl.startsWith Header && decide (decl.lengthPath = some [0, 2]))) &&
  (match decl.tailKind with
   | some k => k.wellFormed
   | none => false)

/-- The record of a stats body entry framed by its own `Length`: its trailing
part has one of the known shapes. -/
def GoType.bodyShape (decl : GoType) : Bool :=
  (match decl with
   | .struct _ _ => true
   | _ => false) &&
  (match decl.tailKind with
   | some k => k.wellFormed
   | none => false)

/-! ### Validity is decidable -/

instance (f : Family) (e : Element) : Decidable (f.Valid e) :=
  inferInstanceAs (Decidable (_ ∧ _ ∧ _ ∧ _ ∧ _))
instance (a : Action) : Decidable (Action.Valid a) :=
  inferInstanceAs (Decidable (actionFamily.Valid a))
instance (a : QueueProp) : Decidable (QueueProp.Valid a) :=
  inferInstanceAs (Decidable (queuePropFamily.Valid a))
instance (a : Instruction) : Decidable a.Valid :=
  inferInstanceAs (Decidable (_ ∧ _ ∧ _ ∧ _ ∧ _ ∧ _ ∧ _))
instance (a : BucketValue) : Decidable a.Valid :=
  inferInstanceAs (Decidable (_ ∧ _ ∧ _ ∧ _))
instance (a : PacketQueueValue) : Decidable a.Valid :=
  inferInstanceAs (Decidable (_ ∧ _ ∧ _ ∧ _))
instance (f : Family) (e : Element) : Decidable (f.Canonical e) :=
  inferInstanceAs (Decidable (_ → _))
instance (a : Action) : Decidable (Action.Canonical a) :=
  inferInstanceAs (Decidable (actionFamily.Canonical a))
instance (a : Instruction) : Decidable a.Canonical :=
  inferInstanceAs (Decidable (_ ∧ _))
instance (a : BucketValue) : Decidable a.Canonical :=
  inferInstanceAs (Decidable (∀ x ∈ a.Actions, Action.Canonical x))
instance : (t : Tail) → Decidable (Tail.Canonical t)
  | .none => inferInstanceAs (Decidable True)
  | .bytes _ => inferInstanceAs (Decidable True)
  | .values _ => inferInstanceAs (Decidable True)
  | .instructions is => inferInstanceAs (Decidable (∀ i ∈ is, i.Canonical))
  | .buckets bs => inferInstanceAs (Decidable (∀ b ∈ bs, b.Canonical))
  | .queues _ => inferInstanceAs (Decidable True)
  | .actionsThenBytes acts _ => inferInstanceAs (Decidable (∀ a ∈ acts, Action.Canonical a))
instance (m : Record) : Decidable m.Canonical :=
  inferInstanceAs (Decidable (Tail.Canonical m.tail))
instance : (k : TailKind) → (t : Tail) → Decidable (Tail.Valid k t)
  | .none, t => by cases t <;> simp only [Tail.Valid] <;> infer_instance
  | .bytes, t => by cases t <;> simp only [Tail.Valid] <;> infer_instance
  | .values e, t => by cases t <;> simp only [Tail.Valid] <;> infer_instance
  | .instructions, t => by cases t <;> simp only [Tail.Valid] <;> infer_instance
  | .buckets, t => by cases t <;> simp only [Tail.Valid] <;> infer_instance
  | .queues, t => by cases t <;> simp only [Tail.Valid] <;> infer_instance
  | .actionsThenBytes, t => by cases t <;> simp only [Tail.Valid] <;> infer_instance
instance (decl : GoType) : (t : Tail) → (v : Value) → Decidable (innerLengthOk decl t v)
  | .actionsThenBytes _ _, _ => inferInstanceAs (Decidable (_ = _))
  | .none, _ | .bytes _, _ | .values _, _ | .instructions _, _ | .buckets _, _ | .queues _, _ =>
      inferInstanceAs (Decidable True)
instance (m : Record) : Decidable m.Valid := by
  unfold Record.Valid
  cases m.decl.tailKind <;> infer_instance

/-! ### Example values -/

/-- An `ActionOutput` to port 5 with `MaxLen` 0xffff. -/
def exampleOutput : Action :=
  ⟨ActionOutput, .seq [.seq [.uint OFPATOutput, .uint 16], .uint 5, .uint 0xffff], []⟩

/-- An action of the tag `OFPATPopVLAN`, which has no record of its own: the
bare header, 8 bytes long with its padding. -/
def examplePopVLAN : Action :=
  ⟨ActionHeader, .seq [.uint OFPATPopVLAN, .uint 8], []⟩

/-- An experimenter action of vendor 0x2320 with one raw trailing byte; with
its padding it is 16 bytes long. -/
def exampleVendorAction : Action :=
  ⟨ActionExperimenterHeader, .seq [.seq [.uint OFPATExperimenter, .uint 16], .uint 0x2320], [7]⟩

/-- An experimenter action of vendor 0x2320 with eight raw trailing bytes; it
is 16 bytes long and needs no padding. -/
def exampleVendorAligned : Action :=
  ⟨ActionExperimenterHeader, .seq [.seq [.uint OFPATExperimenter, .uint 16], .uint 0x2320],
    [1, 2, 3, 4, 5, 6, 7, 8]⟩

/-- An `InstructionActions` element (apply actions) holding `exampleOutput`. -/
def exampleApply : Instruction :=
  ⟨InstructionActions, .seq [.seq [.uint OFPITApplyActions, .uint 24]], [exampleOutput], []⟩

/-- An `InstructionActions` element (write actions) holding a header-only
action, an experimenter action and an output action; it is 48 bytes long. -/
def exampleWrite : Instruction :=
  ⟨InstructionActions, .seq [.seq [.uint OFPITWriteActions, .uint 48]],
    [examplePopVLAN, exampleVendorAligned, exampleOutput], []⟩

/-- An experimenter instruction of vendor 0x2320 with three raw trailing
bytes; with its padding it is 16 bytes long. -/
def exampleVendorInstruction : Instruction :=
  ⟨InstructionExperimenter, .seq [.seq [.uint OFPITExperimenter, .uint 16], .uint 0x2320],
    [], [1, 2, 3]⟩

/-- A `QueuePropMinRate` with rate 100. -/
def exampleMinRate : QueueProp :=
  ⟨QueuePropMinRate, .seq [.seq [.uint OFPQTMinRate, .uint 16], .uint 100], []⟩

/-- An experimenter queue property of vendor 0x2320 with three raw trailing
bytes; it is 15 bytes long, no padding being mandated. -/
def exampleVendorQueueProp : QueueProp :=
  ⟨QueuePropExperimenter, .seq [.seq [.uint experimenterTag, .uint 15], .uint 0x2320],
    [1, 2, 3]⟩

/-- A `Match` with the input port wildcarded and an input port of 7. -/
def exampleMatch : Value :=
  .seq [ .uint OFPMTStandard, .uint OFPMTStandardLen, .uint 7, .uint OFPFWInPort,
    .seq (List.replicate 6 (.uint 0)), .seq (List.replicate 6 (.uint 255)),
    .seq (List.replicate 6 (.uint 0)), .seq (List.replicate 6 (.uint 255)),
    .uint 0, .uint 0, .uint 0x800, .uint 0, .uint 6,
    .seq (List.replicate 4 (.uint 10)), .seq (List.replicate 4 (.uint 0)),
    .seq (List.replicate 4 (.uint 10)), .seq (List.replicate 4 (.uint 0)),
    .uint 80, .uint 8080, .uint 0, .uint 0, .uint 0, .uint 0 ]

/-- A `FlowMod` (command add) with `exampleMatch` and the one instruction
`exampleApply`; it is 160 bytes long. -/
def exampleFlowMod : Record :=
  ⟨FlowMod,
    .seq [ .seq [.uint Version, .uint OFPTFlowMod, .uint 160, .uint 1],
      .uint 0, .uint 0, .uint 0, .uint OFPFCAdd, .uint 0, .uint 0, .uint 100,
      .uint 0xffffffff, .uint 0xffffffff, .uint 0xffffffff, .uint 0, exampleMatch ],
    .instructions [exampleApply]⟩

/-- The zero value of the fixed fields of a record with its length fields
set: `Header.Type` (when the record has a header) and `Length`. -/
def exampleFixed (decl : GoType) (type length : Nat) : Value :=
  patchField decl.lengthPath length
    (patchField (if decl.startsWith Header then some [0, 1] else none) type
      decl.fixedPart.zeroValue)

/-- A hello message: a bare `Header` of 8 bytes. -/
def exampleHello : Record :=
  ⟨Header, .seq [.uint Version, .uint OFPTHello, .uint 8, .uint 1], .none⟩

/-- An error message with two bytes of data. -/
def exampleError : Record :=
  ⟨ErrorMsg, exampleFixed ErrorMsg OFPTError 14, .bytes [7, 9]⟩

/-- A features reply with one port. -/
def exampleFeatures : Record :=
  ⟨SwitchFeatures, exampleFixed SwitchFeatures OFPTFeaturesReply 96, .values [Port.zeroValue]⟩

/-- A bucket holding `exampleOutput`. -/
def exampleBucket : BucketValue :=
  ⟨exampleFixed Bucket 0 32, [exampleOutput]⟩

/-- A group mod with one bucket. -/
def exampleGroupMod : Record :=
  ⟨GroupMod, exampleFixed GroupMod OFPTGroupMod 48, .buckets [exampleBucket]⟩

/-- A packet queue holding `exampleMinRate`. -/
def exampleQueue : PacketQueueValue :=
  ⟨exampleFixed PacketQueue 0 24, [exampleMinRate]⟩

/-- A queue configuration reply with one queue. -/
def exampleQueueReply : Record :=
  ⟨QueueGetConfigReply, exampleFixed QueueGetConfigReply OFPTQueueGetConfigReply 40,
    .queues [exampleQueue]⟩

/-- A packet out with one action (16 bytes) and three bytes of data. -/
def examplePacketOut : Record :=
  ⟨PacketOut,
    patchField (PacketOut.pathOf "ActionsLen") 16 (exampleFixed PacketOut OFPTPacketOut 43),
    .actionsThenBytes [exampleOutput] [1, 2, 3]⟩

/-- A flow stats entry with the one instruction `exampleApply`. -/
def exampleFlowStats : Record :=
  ⟨FlowStats, exampleFixed FlowStats 0 160, .instructions [exampleApply]⟩

/-- A `FlowMod` (command add) with `exampleMatch` and the two instructions
`exampleApply` and `exampleWrite`; it is 208 bytes long. -/
def exampleFlowModWrite : Record :=
  ⟨FlowMod, exampleFlowMod.fixed.setAt [0, 2] 208, .instructions [exampleApply, exampleWrite]⟩

/-- The message `m` is of a message record, is valid, needs no padding after
raw trailing bytes, and round-trips through `Record.encode` and
`decodeMessage`. -/
def Record.RoundTripsAsMessage (m : Record) : Prop :=
  m.decl ∈ messageRecords ∧ m.Valid ∧ m.Canonical ∧
    ∃ bs, m.encode = .ok bs ∧ decodeMessage m.decl bs = .ok (m, bs.length)

/-! ### Lists of tags and the stats bodies -/

/-- The stats type constants, in the order the block declares them. -/
def statsTypes : List Nat :=
  [ OFPSTDesc, OFPSTFlow, OFPSTAggregate, OFPSTTable, OFPSTPort, OFPSTQueue,
    OFPSTGroup, OFPSTGroupDesc, OFPSTExperimenter ]

/-- The action type constants from `OFPATOutput` to `OFPATDecNWTTL`, in the
order the block declares them. -/
def sequentialActionTypes : List Nat :=
  [ OFPATOutput, OFPATSetVLANVID, OFPATSetVLANPCP, OFPATSetDLSrc, OFPATSetDLDst,
    OFPATSetNWSrc, OFPATSetNWDst, OFPATSetNWTos, OFPATSetNWECN, OFPATSetTPSrc,
    OFPATSetTPDst, OFPATCopyTTLOut, OFPATCopyTTLIn, OFPATSetMPLSLabel, OFPATSetMPLSTC,
    OFPATSetMPLSTTL, OFPATDecMPLSTTL, OFPATPushVLAN, OFPATPopVLAN, OFPATPushMPLS,
    OFPATPopMPLS, OFPATSetQueue, OFPATGroup, OFPATSetNWTTL, OFPATDecNWTTL ]

/-- All the action type constants, `OFPATExperimenter` last. -/
def actionTypes : List Nat :=
  sequentialActionTypes ++ [OFPATExperimenter]

/-- The reserved port numbers, in the order the block declares them. -/
def reservedPorts : List Nat :=
  [ OFPPInPort, OFPPTable, OFPPNormal, OFPPFlood, OFPPAll, OFPPController,
    OFPPLocal, OFPPAny ]

/-- Modelled from the spec: the table of the stats body multiplexer, missing
from the file: the registry, keyed by stats type tag, of the record that
governs the body of a stats reply. The spec names `DescStats` for the tag
`OFPSTDesc`; the other tags are registered with the reply record of the same
name. -/
def statsReplyRegistry : Registry :=
  ((((((((Registry.empty).register
    OFPSTDesc DescStats).register
    OFPSTFlow FlowStats).register
    OFPSTAggregate AggregateStatsReply).register
    OFPSTTable TableStats).register
    OFPSTPort PortStats).register
    OFPSTQueue QueueStats).register
    OFPSTGroup GroupStats).register
    OFPSTGroupDesc GroupDescStats

/-! ## Lemmas about the field codec -/

theorem putUint_length (w n : Nat) : (putUint w n).length = w := by
  induction w with
  | zero => rfl
  | succ w ih => simp [putUint, ih]

theorem getUint_append (a b : List Nat) :
    getUint (a ++ b) = getUint a * 256 ^ b.length + getUint b := by
  induction b using List.reverseRecOn with
  | nil => simp [getUint]
  | append_singleton b x ih =>
      have h1 : getUint (a ++ (b ++ [x])) = getUint (a ++ b) * 256 + x := by
        simp [getUint, List.foldl_append, ← List.append_assoc]
      have h2 : getUint (b ++ [x]) = getUint b * 256 + x := by
        simp [getUint, List.foldl_append]
      rw [h1, h2, ih]
      simp [pow_succ]
      ring

theorem getUint_putUint (w n : Nat) : getUint (putUint w n) = n % 256 ^ w := by
  induction w with
  | zero => simp [putUint, getUint, Nat.mod_one]
  | succ w ih =>
      have h := getUint_append [(n / 256 ^ w) % 256] (putUint w n)
      simp only [List.singleton_append] at h
      rw [putUint, h, ih, putUint_length]
      have h0 : getUint [(n / 256 ^ w) % 256] = (n / 256 ^ w) % 256 := by simp [getUint]
      rw [h0, pow_succ]
      rw [Nat.mod_mul, Nat.add_comm, Nat.mul_comm]

theorem decodeUint_putUint (w n : Nat) (rest : List Nat) (h : n < 256 ^ w) :
    decodeUint w (putUint w n ++ rest) = .ok (.uint n, rest) := by
  have hl := putUint_length w n
  simp [decodeUint, hl, List.take_append_eq_append_take, List.take_of_length_le,
    List.drop_append_eq_append_drop, List.drop_of_length_le, getUint_putUint,
    Nat.mod_eq_of_lt h]

theorem decodeRepeat_encode (e : GoType)
    (ih : ∀ v rest, e.wellTyped v = true → e.decode (e.encode v ++ rest) = .ok (v, rest))
    (vs : List Value) (rest : List Nat) (h : vs.all e.wellTyped = true) :
    decodeRepeat e.decode vs.length ((vs.map e.encode).flatten ++ rest) = .ok (vs, rest) := by
  induction vs with
  | nil => simp [decodeRepeat]
  | cons v vs ihv =>
      simp only [List.all_cons, Bool.and_eq_true] at h
      simp only [List.length_cons, List.map_cons, List.flatten_cons, List.append_assoc,
        decodeRepeat, ih v _ h.1, ihv h.2]

mutual
theorem GoType.value_decode_encode (t : GoType) (v : Value) (rest : List Nat)
    (h : t.wellTyped v = true) : t.decode (t.encode v ++ rest) = .ok (v, rest) := by
  match t, v, h with
  | .uint8, .uint n, h =>
      simp only [GoType.wellTyped, decide_eq_true_eq] at h
      simpa [GoType.decode, GoType.encode] using decodeUint_putUint 1 n rest (by omega)
  | .uint16, .uint n, h =>
      simp only [GoType.wellTyped, decide_eq_true_eq] at h
      simpa [GoType.decode, GoType.encode] using decodeUint_putUint 2 n rest (by omega)
  | .uint32, .uint n, h =>
      simp only [GoType.wellTyped, decide_eq_true_eq] at h
      simpa [GoType.decode, GoType.encode] using decodeUint_putUint 4 n rest (by omega)
  | .uint64, .uint n, h =>
      simp only [GoType.wellTyped, decide_eq_true_eq] at h
      simpa [GoType.decode, GoType.encode] using decodeUint_putUint 8 n rest (by omega)
  | .array n e, .seq vs, h =>
      simp only [GoType.wellTyped, Bool.and_eq_true, decide_eq_true_eq] at h
      obtain ⟨hn, hall⟩ := h
      subst hn
      have := decodeRepeat_encode e (fun v rest hv => GoType.value_decode_encode e v rest hv) vs rest hall
      simp only [GoType.decode, GoType.encode, this]
  | .struct _ fs, .seq vs, h =>
      simp only [GoType.wellTyped] at h
      simp only [GoType.decode, GoType.encode, FieldList.fields_decode_encode fs vs rest h]
theorem FieldList.fields_decode_encode (fs : FieldList) (vs : List Value) (rest : List Nat)
    (h : fs.wellTyped vs = true) : fs.decode (fs.encode vs ++ rest) = .ok (vs, rest) := by
  match fs, vs, h with
  | .nil, vs, h =>
      simp only [FieldList.wellTyped, List.isEmpty_iff] at h
      subst h
      simp [FieldList.decode, FieldList.encode]
  | .cons n t fs2, vs, h =>
      cases hr : isReserved n
      case true =>
        simp only [FieldList.wellTyped, hr, if_true, Bool.and_eq_true] at h
        simp [FieldList.decode, FieldList.encode, hr, List.append_assoc,
          FieldList.fields_decode_encode fs2 vs rest h.2]
      case false =>
        match vs, h with
        | [], h => simp [FieldList.wellTyped, hr] at h
        | v :: vs2, h =>
            simp only [FieldList.wellTyped, hr, Bool.and_eq_true, Bool.false_eq_true,
              if_false] at h
            simp only [FieldList.decode, FieldList.encode, hr, List.append_assoc,
              GoType.value_decode_encode t v _ h.1, FieldList.fields_decode_encode fs2 vs2 rest h.2,
              Bool.false_eq_true, if_false]
end

/-! ## Lemmas about records -/

theorem list_set_self {α : Type} (l : List α) (i : Nat) (a : α) (h : l[i]? = some a) :
    l.set i a = l := by
  induction l generalizing i with
  | nil => rfl
  | cons x xs ih =>
      cases i with
      | zero => simp at h; simp [h]
      | succ j => simp at h; simp [ih j h]

theorem Value.setAt_getAt (p : List Nat) (n : Nat) (v : Value)
    (h : v.getAt p = some n) : v.setAt p n = v := by
  induction p generalizing v with
  | nil =>
      cases v with
      | uint m => simp [Value.getAt] at h; simp [Value.setAt, h]
      | seq vs => simp [Value.getAt] at h
  | cons i p ih =>
      cases v with
      | uint m => simp [Value.getAt] at h
      | seq vs =>
          simp only [Value.getAt] at h
          cases hv : vs[i]? with
          | none => simp [hv] at h
          | some w =>
              simp only [hv] at h
              simp only [Value.setAt, hv, ih w h]
              rw [list_set_self vs i w hv]

theorem patchField_readField (path : Option (List Nat)) (n : Nat) (v : Value)
    (h : readField path v = some n) : patchField path n v = v := by
  cases path with
  | none => rfl
  | some p => exact Value.setAt_getAt p n v h

theorem flatten_length_const {α : Type} (f : α → List Nat) (k : Nat) (xs : List α)
    (h : ∀ x ∈ xs, (f x).length = k) : ((xs.map f).flatten).length = xs.length * k := by
  induction xs with
  | nil => simp
  | cons x xs ih =>
      have h1 := h x (List.mem_cons_self _ _)
      have h2 := ih (fun y hy => h y (List.mem_cons_of_mem _ hy))
      simp only [List.map_cons, List.flatten_cons, List.length_append, List.length_cons, h1, h2]
      ring

mutual
theorem GoType.value_encode_length (t : GoType) (v : Value) (w : Nat)
    (h : t.wellTyped v = true) (hw : t.wireWidth = some w) : (t.encode v).length = w := by
  match t, v, h, hw with
  | .uint8, .uint n, _, hw =>
      simp only [GoType.wireWidth, Option.some.injEq] at hw
      simp [GoType.encode, putUint_length, hw]
  | .uint16, .uint n, _, hw =>
      simp only [GoType.wireWidth, Option.some.injEq] at hw
      simp [GoType.encode, putUint_length, hw]
  | .uint32, .uint n, _, hw =>
      simp only [GoType.wireWidth, Option.some.injEq] at hw
      simp [GoType.encode, putUint_length, hw]
  | .uint64, .uint n, _, hw =>
      simp only [GoType.wireWidth, Option.some.injEq] at hw
      simp [GoType.encode, putUint_length, hw]
  | .array n e, .seq vs, h, hw =>
      simp only [GoType.wellTyped, Bool.and_eq_true, decide_eq_true_eq, List.all_eq_true] at h
      obtain ⟨hn, hall⟩ := h
      simp only [GoType.wireWidth] at hw
      cases he : e.wireWidth with
      | none => simp [he] at hw
      | some we =>
          simp only [he, Option.map_some', Option.some.injEq] at hw
          have := flatten_length_const e.encode we vs
            (fun x hx => GoType.value_encode_length e x we (hall x hx) he)
          simp only [GoType.encode, this, hn, hw]
  | .struct _ fs, .seq vs, h, hw =>
      simp only [GoType.wellTyped] at h
      simp only [GoType.wireWidth] at hw
      simp only [GoType.encode, FieldList.fields_encode_length fs vs w h hw]
theorem FieldList.fields_encode_length (fs : FieldList) (vs : List Value) (w : Nat)
    (h : fs.wellTyped vs = true) (hw : fs.wireWidth = some w) : (fs.encode vs).length = w := by
  match fs, vs, h, hw with
  | .nil, vs, _, hw =>
      simp only [FieldList.wireWidth, Option.some.injEq] at hw
      simp [FieldList.encode, hw]
  | .cons n t fs2, vs, h, hw =>
      simp only [FieldList.wireWidth] at hw
      cases ht : t.wireWidth with
      | none => simp [ht] at hw
      | some wt =>
          cases hf : fs2.wireWidth with
          | none => simp [ht, hf] at hw
          | some wf =>
              simp only [ht, hf, Option.some.injEq] at hw
              cases hr : isReserved n
              case true =>
                simp only [FieldList.wellTyped, hr, if_true, Bool.and_eq_true] at h
                simp [FieldList.encode, hr, ht, FieldList.fields_encode_length fs2 vs wf h.2 hf, hw]
              case false =>
                match vs, h with
                | [], h => simp [FieldList.wellTyped, hr] at h
                | v :: vs2, h =>
                    simp only [FieldList.wellTyped, hr, Bool.and_eq_true, Bool.false_eq_true,
                      if_false] at h
                    simp [FieldList.encode, hr, GoType.value_encode_length t v wt h.1 ht,
                      FieldList.fields_encode_length fs2 vs2 wf h.2 hf, hw]
end

theorem FieldList.fixedPart_wireWidth :
    (fs : FieldList) → fs.fixedPart.wireWidth = some fs.fixedWidth
  | .nil => rfl
  | .cons n t rest => by
      cases ht : t.wireWidth with
      | none => simp [FieldList.fixedPart, FieldList.fixedWidth, ht, FieldList.wireWidth]
      | some w =>
          simp [FieldList.fixedPart, FieldList.fixedWidth, ht, FieldList.wireWidth,
            FieldList.fixedPart_wireWidth rest]

/-- The encoding of the fixed fields of a record has the width of its fixed
part. -/
theorem GoType.encode_fixedPart_length (n : String) (fs : FieldList) (v : Value)
    (h : (GoType.struct n fs).fixedPart.wellTyped v = true) :
    ((GoType.struct n fs).fixedPart.encode v).length = (GoType.struct n fs).fixedWidth :=
  GoType.value_encode_length _ v _ h (by
    simp [GoType.fixedPart, GoType.wireWidth, GoType.fixedWidth, FieldList.fixedPart_wireWidth])

theorem decodeRecord_encode {τ : Type} (decl : GoType)
    (decTail : Value → List Nat → Except CodecError τ) (fixed : Value) (tb : List Nat) (t : τ)
    (hwt : decl.fixedPart.wellTyped fixed = true) (htail : decTail fixed tb = .ok t) :
    decodeRecord decl decTail (decl.fixedPart.encode fixed ++ tb) = .ok (fixed, t) := by
  simp [decodeRecord, GoType.value_decode_encode _ _ _ hwt, htail]

theorem encodeRecord_ok (decl : GoType) (fixed : Value) (tb : List Nat)
    (hfit : decl.fixedWidth + tb.length < 2 ^ 16)
    (hlen : readField decl.lengthPath fixed = some (decl.fixedWidth + tb.length)) :
    encodeRecord decl fixed tb = .ok (decl.fixedPart.encode fixed ++ tb) := by
  simp only [encodeRecord, hfit, if_true, patchField_readField _ _ _ hlen]

theorem decodeListLoop_encode {α : Type} (enc : α → Except CodecError (List Nat))
    (elem : List Nat → Except CodecError (α × Nat)) (len : α → Nat) (hdr : Nat)
    (xs : List α) (hx : ∀ x ∈ xs, ElemRoundTrip enc elem len hdr x) :
    ∃ bs, encodeList enc xs = .ok bs ∧ bs.length = (xs.map len).sum ∧
      ∀ fuel, bs.length ≤ fuel → decodeListLoop elem hdr fuel bs = .ok xs := by
  induction xs with
  | nil =>
      refine ⟨[], rfl, rfl, ?_⟩
      intro fuel _
      cases fuel <;> simp [decodeListLoop]
  | cons x xs ih =>
      obtain ⟨bs, hbs, hlen, hdec⟩ := ih (fun y hy => hx y (List.mem_cons_of_mem _ hy))
      obtain ⟨b, hb, hbl, hhdr, hpos, hrt⟩ := hx x (List.mem_cons_self _ _)
      refine ⟨b ++ bs, by simp [encodeList, hb, hbs], by simp [hbl, hlen], ?_⟩
      intro fuel hfuel
      simp only [List.length_append] at hfuel
      cases fuel with
      | zero => omega
      | succ fuel =>
          have hne : (b ++ bs).isEmpty = false := by
            cases b with
            | nil => simp at hbl; omega
            | cons _ _ => rfl
          have hh : ¬ (b ++ bs).length < hdr := by simp; omega
          have hn0 : ¬ len x = 0 := by omega
          have hdrop : (b ++ bs).drop (len x) = bs := by
            rw [← hbl]; simp
          simp only [decodeListLoop, hne, hh, hrt bs, hn0, hdrop, if_false,
            Bool.false_eq_true, hdec fuel (by omega)]

theorem decodeList_encode {α : Type} (enc : α → Except CodecError (List Nat))
    (elem : List Nat → Except CodecError (α × Nat)) (len : α → Nat) (hdr : Nat)
    (xs : List α) (hx : ∀ x ∈ xs, ElemRoundTrip enc elem len hdr x) :
    ∃ bs, encodeList enc xs = .ok bs ∧ bs.length = (xs.map len).sum ∧
      decodeList elem hdr bs = .ok xs := by
  obtain ⟨bs, h1, h2, h3⟩ := decodeListLoop_encode enc elem len hdr xs hx
  exact ⟨bs, h1, h2, h3 _ (Nat.le_refl _)⟩

theorem FieldList.fields_fixedWidth_of_wireWidth :
    (fs : FieldList) → (w : Nat) → fs.wireWidth = some w → fs.fixedWidth = w
  | .nil, w, h => by simpa [FieldList.wireWidth, FieldList.fixedWidth] using h
  | .cons n t rest, w, h => by
      simp only [FieldList.wireWidth] at h
      cases ht : t.wireWidth with
      | none => simp [ht] at h
      | some wt =>
          cases hf : rest.wireWidth with
          | none => simp [ht, hf] at h
          | some wf =>
              simp only [ht, hf, Option.some.injEq] at h
              simp [FieldList.fixedWidth, ht, FieldList.fields_fixedWidth_of_wireWidth rest wf hf, h]

theorem GoType.startsWith_elim (decl hdr : GoType) (h : decl.startsWith hdr = true) :
    ∃ nm hn fs, decl = .struct nm (.cons hn hdr fs) ∧ isReserved hn = false := by
  cases decl with
  | struct nm fs =>
      cases fs with
      | nil => simp [GoType.startsWith, GoType.fieldList] at h
      | cons hn t rest =>
          simp only [GoType.startsWith, GoType.fieldList, Bool.and_eq_true,
            Bool.not_eq_true', decide_eq_true_eq] at h
          exact ⟨nm, hn, rest, by rw [h.2], h.1⟩
  | _ => simp [GoType.startsWith, GoType.fieldList] at h

theorem GoType.isElementHeader_elim (hdr : GoType) (h : hdr.isElementHeader = true) :
    ∃ nm a b r wh, hdr = .struct nm (.cons a .uint16 (.cons b .uint16 r)) ∧
      isReserved a = false ∧ isReserved b = false ∧ hdr.wireWidth = some wh := by
  unfold GoType.isElementHeader at h
  split at h
  · rename_i n a b r
    simp only [Bool.and_eq_true, Bool.not_eq_true', Option.isSome_iff_exists] at h
    obtain ⟨⟨ha, hb⟩, wh, hwh⟩ := h
    exact ⟨n, a, b, r, wh, rfl, ha, hb, hwh⟩
  · simp at h

/-- A well-typed value of an element header starts with the tag and the
length. -/
theorem GoType.isElementHeader_value (hdr : GoType) (h : hdr.isElementHeader = true)
    (v : Value) (hv : hdr.wellTyped v = true) :
    ∃ tag len r, v = .seq (.uint tag :: .uint len :: r) := by
  obtain ⟨nm, a, b, r, wh, rfl, ha, hb, _⟩ := GoType.isElementHeader_elim hdr h
  cases v with
  | uint n => simp [GoType.wellTyped] at hv
  | seq vs =>
      simp only [GoType.wellTyped] at hv
      match vs, hv with
      | [], hv => simp [FieldList.wellTyped, ha] at hv
      | [x], hv => simp [FieldList.wellTyped, ha, hb] at hv
      | x :: y :: r2, hv =>
          simp only [FieldList.wellTyped, ha, hb, Bool.false_eq_true, if_false,
            Bool.and_eq_true] at hv
          cases x with
          | seq _ => simp [GoType.wellTyped] at hv
          | uint tag =>
              cases y with
              | seq _ => simp [GoType.wellTyped] at hv
              | uint len => exact ⟨tag, len, r2, rfl⟩

theorem Registry.lookup_mem (r : Registry) (tag : Nat) (decl : GoType)
    (h : r.lookup tag = some decl) : (tag, decl) ∈ r.entries := by
  obtain ⟨entries⟩ := r
  simp only [Registry.lookup] at h
  induction entries with
  | nil => simp [List.lookup] at h
  | cons e es ih =>
      obtain ⟨k, d⟩ := e
      simp only [List.lookup] at h
      by_cases hk : tag = k
      · subst hk
        simp only [beq_self_eq_true] at h
        cases h
        exact List.mem_cons_self _ _
      · have : (tag == k) = false := by simpa using hk
        simp only [this] at h
        exact List.mem_cons_of_mem _ (ih h)

theorem Registry.lookup_shape (hdrType : GoType) (r : Registry)
    (hr : r.wellFormed hdrType = true) (tag : Nat) (decl : GoType)
    (h : r.lookup tag = some decl) : GoType.elementShape hdrType decl = true := by
  simp only [Registry.wellFormed, List.all_eq_true] at hr
  exact hr _ (Registry.lookup_mem r tag decl h)

theorem Registry.lookup_listsAligned (r : Registry) (hr : r.listsAligned = true)
    (tag : Option Nat) (decl : GoType) (h : tag.bind r.lookup = some decl)
    (ht : decl.hasTail = true) : decl.fixedWidth % 8 = 0 := by
  simp only [Registry.listsAligned, List.all_eq_true, Bool.or_eq_true, Bool.not_eq_true',
    beq_iff_eq] at hr
  cases tag with
  | none => simp at h
  | some tag =>
      simp only [Option.bind_eq_bind, Option.some_bind] at h
      rcases hr _ (Registry.lookup_mem r tag decl h) with h1 | h1
      · rw [ht] at h1
        cases h1
      · exact h1

theorem encodeAligned_eq (decl : GoType) (fixed : Value) (tb : List Nat)
    (h : (decl.fixedWidth + tb.length) % 8 = 0) :
    encodeAligned 8 decl fixed tb = encodeRecord decl fixed tb := by
  simp [encodeAligned, padTo, h]

theorem GoType.type_fixedWidth_of_wireWidth (t : GoType) (w : Nat) (h : t.wireWidth = some w) :
    t.fixedWidth = w := by
  cases t with
  | struct n fs =>
      simp only [GoType.wireWidth] at h
      simp [GoType.fixedWidth, FieldList.fields_fixedWidth_of_wireWidth fs w h]
  | _ => simp [GoType.fixedWidth, h]

theorem take_append_exact (a b : List Nat) (n : Nat) (h : a.length = n) :
    (a ++ b).take n = a := by
  subst h
  simp

theorem decodeElement_encode_nested {τ : Type} (hdrType : GoType) (registry : Registry)
    (decTail : GoType → Value → List Nat → Except CodecError τ)
    (decl : GoType) (fixed : Value) (tb : List Nat) (t : τ) (rest : List Nat)
    (hs1 : decl.startsWith hdrType = true) (hs2 : decl.lengthPath = some [0, 1])
    (hs3 : hdrType.isElementHeader = true)
    (hreg : (fixed.getAt [0, 0]).bind registry.lookup = some decl)
    (hwt : decl.fixedPart.wellTyped fixed = true)
    (hlen : readField decl.lengthPath fixed = some (decl.fixedWidth + tb.length))
    (htail : decTail decl fixed tb = .ok t) :
    decodeElement hdrType registry decTail (decl.fixedPart.encode fixed ++ tb ++ rest) =
      .ok ((decl, fixed, t), decl.fixedWidth + tb.length) := by
  obtain ⟨nm, hn, fs, rfl, hres⟩ := GoType.startsWith_elim decl hdrType hs1
  obtain ⟨_, _, _, _, wh, _, _, _, hwh⟩ := GoType.isElementHeader_elim hdrType hs3
  have hfp : (GoType.struct nm (.cons hn hdrType fs)).fixedPart =
      .struct nm (.cons hn hdrType fs.fixedPart) := by
    simp [GoType.fixedPart, FieldList.fixedPart, hwh]
  have hfw : (GoType.struct nm (.cons hn hdrType fs)).fixedWidth = wh + fs.fixedWidth := by
    simp [GoType.fixedWidth, FieldList.fixedWidth, hwh]
  have hel := GoType.encode_fixedPart_length nm (.cons hn hdrType fs) fixed hwt
  have hrec := decodeRecord_encode (GoType.struct nm (.cons hn hdrType fs)) (decTail _) fixed tb t
    hwt htail
  rw [hs2] at hlen
  rw [hfp] at hwt hel
  cases fixed with
  | uint n => simp [GoType.wellTyped] at hwt
  | seq vs =>
      match vs, hwt with
      | [], hwt => simp [GoType.wellTyped, FieldList.wellTyped, hres] at hwt
      | hv :: vs2, hwt =>
          simp only [GoType.wellTyped, FieldList.wellTyped, hres, Bool.false_eq_true,
            if_false, Bool.and_eq_true] at hwt
          obtain ⟨tag, len, r, rfl⟩ := GoType.isElementHeader_value hdrType hs3 hv hwt.1
          have hdec := GoType.value_decode_encode hdrType _
            (fs.fixedPart.encode vs2 ++ (tb ++ rest)) hwt.1
          simp only [Value.getAt, List.getElem?_cons_zero, Option.bind_eq_bind,
            Option.some_bind] at hreg
          simp only [readField, Value.getAt, List.getElem?_cons_zero, List.getElem?_cons_succ,
            Option.some.injEq] at hlen
          have hhw : hdrType.fixedWidth = wh := GoType.type_fixedWidth_of_wireWidth _ _ hwh
          have henc : (GoType.struct nm (.cons hn hdrType fs.fixedPart)).encode
              (.seq (.seq (.uint tag :: .uint len :: r) :: vs2)) =
              hdrType.encode (.seq (.uint tag :: .uint len :: r)) ++ fs.fixedPart.encode vs2 := by
            simp [GoType.encode, FieldList.encode, hres]
          rw [hfp] at hrec ⊢
          have htake : ((GoType.struct nm (.cons hn hdrType fs.fixedPart)).encode
              (.seq (.seq (.uint tag :: .uint len :: r) :: vs2)) ++ tb ++ rest).take len =
              (GoType.struct nm (.cons hn hdrType fs.fixedPart)).encode
              (.seq (.seq (.uint tag :: .uint len :: r) :: vs2)) ++ tb := by
            apply take_append_exact
            rw [List.length_append, hel]
            omega
          have hlt : ¬ len < wh := by rw [hlen, hfw]; omega
          have hlong : ¬ ((GoType.struct nm (.cons hn hdrType fs.fixedPart)).encode
              (.seq (.seq (.uint tag :: .uint len :: r) :: vs2)) ++ tb ++ rest).length < len := by
            rw [List.length_append, List.length_append, hel]
            omega
          unfold decodeElement
          rw [henc] at htake hlong ⊢
          simp only [List.append_assoc] at htake hlong hdec ⊢
          rw [hdec]
          simp only [hhw, hlt, if_false, hreg, hlong, htake]
          rw [henc] at hrec
          simp only [List.append_assoc] at hrec
          rw [hrec, hlen]

theorem FieldList.fixedPart_of_wireWidth :
    (fs : FieldList) → (w : Nat) → fs.wireWidth = some w → fs.fixedPart = fs
  | .nil, _, _ => rfl
  | .cons n t rest, w, h => by
      simp only [FieldList.wireWidth] at h
      cases ht : t.wireWidth with
      | none => simp [ht] at h
      | some wt =>
          cases hf : rest.wireWidth with
          | none => simp [ht, hf] at h
          | some wf =>
              simp [FieldList.fixedPart, ht, FieldList.fixedPart_of_wireWidth rest wf hf]

theorem decodeElement_encode_header {τ : Type} (hdrType : GoType) (registry : Registry)
    (decTail : GoType → Value → List Nat → Except CodecError τ)
    (fixed : Value) (tb : List Nat) (t : τ) (rest : List Nat)
    (hs2 : hdrType.lengthPath = some [1]) (hs3 : hdrType.isElementHeader = true)
    (hreg : (fixed.getAt [0]).bind registry.lookup = some hdrType)
    (hwt : hdrType.fixedPart.wellTyped fixed = true)
    (hlen : readField hdrType.lengthPath fixed = some (hdrType.fixedWidth + tb.length))
    (htail : decTail hdrType fixed tb = .ok t) :
    decodeElement hdrType registry decTail (hdrType.fixedPart.encode fixed ++ tb ++ rest) =
      .ok ((hdrType, fixed, t), hdrType.fixedWidth + tb.length) := by
  obtain ⟨nm, a, b, r, wh, hh, _, _, hwh⟩ := GoType.isElementHeader_elim hdrType hs3
  have hfp : hdrType.fixedPart = hdrType := by
    rw [hh] at hwh ⊢
    simp only [GoType.wireWidth] at hwh
    simp only [GoType.fixedPart, FieldList.fixedPart_of_wireWidth _ wh hwh]
  have hrec := decodeRecord_encode hdrType (decTail _) fixed tb t hwt htail
  rw [hfp] at hwt hrec ⊢
  have hhw : hdrType.fixedWidth = wh := GoType.type_fixedWidth_of_wireWidth _ _ hwh
  have hel := GoType.value_encode_length hdrType fixed wh hwt hwh
  obtain ⟨tag, len, r2, rfl⟩ := GoType.isElementHeader_value hdrType hs3 fixed hwt
  have hdec := GoType.value_decode_encode hdrType _ (tb ++ rest) hwt
  rw [hs2] at hlen
  simp only [Value.getAt, List.getElem?_cons_zero, Option.bind_eq_bind,
    Option.some_bind] at hreg
  simp only [readField, Value.getAt, List.getElem?_cons_zero, List.getElem?_cons_succ,
    Option.some.injEq] at hlen
  have htake : (hdrType.encode (.seq (.uint tag :: .uint len :: r2)) ++ tb ++ rest).take len =
      hdrType.encode (.seq (.uint tag :: .uint len :: r2)) ++ tb := by
    apply take_append_exact
    rw [List.length_append, hel]
    omega
  have hlt : ¬ len < hdrType.fixedWidth := by rw [hlen]; omega
  have hlong : ¬ (hdrType.encode (.seq (.uint tag :: .uint len :: r2)) ++ tb ++ rest).length
      < len := by
    rw [List.length_append, List.length_append, hel]
    omega
  unfold decodeElement
  simp only [List.append_assoc] at htake hlong hdec ⊢
  rw [hdec]
  simp only [hlt, if_false, hreg, hlong, htake]
  rw [hrec, hlen]

theorem decodeElement_encode {τ : Type} (hdrType : GoType) (registry : Registry)
    (decTail : GoType → Value → List Nat → Except CodecError τ)
    (decl : GoType) (fixed : Value) (tb : List Nat) (t : τ) (rest : List Nat)
    (hshape : GoType.elementShape hdrType decl = true)
    (hreg : (elementTag hdrType decl fixed).bind registry.lookup = some decl)
    (hwt : decl.fixedPart.wellTyped fixed = true)
    (hlen : readField decl.lengthPath fixed = some (decl.fixedWidth + tb.length))
    (htail : decTail decl fixed tb = .ok t) :
    decodeElement hdrType registry decTail (decl.fixedPart.encode fixed ++ tb ++ rest) =
      .ok ((decl, fixed, t), decl.fixedWidth + tb.length) := by
  simp only [GoType.elementShape, Bool.and_eq_true, Bool.or_eq_true, decide_eq_true_eq,
    Bool.not_eq_true', decide_eq_false_iff_not] at hshape
  obtain ⟨hs, hs3⟩ := hshape
  rcases hs with ⟨heq, hs2⟩ | ⟨⟨hne, hs1⟩, hs2⟩
  · subst heq
    simp only [elementTag, if_true] at hreg
    exact decodeElement_encode_header decl registry decTail fixed tb t rest hs2 hs3 hreg hwt
      hlen htail
  · simp only [elementTag, hne, if_false] at hreg
    exact decodeElement_encode_nested hdrType registry decTail decl fixed tb t rest hs1 hs2
      hs3 hreg hwt hlen htail

theorem GoType.isElementHeader_width (hdr : GoType) (h : hdr.isElementHeader = true) :
    4 ≤ hdr.fixedWidth := by
  obtain ⟨nm, a, b, r, wh, rfl, _, _, hwh⟩ := GoType.isElementHeader_elim hdr h
  rw [GoType.type_fixedWidth_of_wireWidth _ _ hwh]
  simp only [GoType.wireWidth, FieldList.wireWidth] at hwh
  cases hr : r.wireWidth with
  | none => simp [hr] at hwh
  | some wr =>
      simp only [hr, Option.some.injEq] at hwh
      omega

theorem GoType.elementShape_width (hdrType decl : GoType)
    (h : GoType.elementShape hdrType decl = true) :
    4 ≤ hdrType.fixedWidth ∧ hdrType.fixedWidth ≤ decl.fixedWidth := by
  simp only [GoType.elementShape, Bool.and_eq_true, Bool.or_eq_true, decide_eq_true_eq,
    Bool.not_eq_true', decide_eq_false_iff_not] at h
  obtain ⟨hs, hs3⟩ := h
  refine ⟨GoType.isElementHeader_width hdrType hs3, ?_⟩
  rcases hs with ⟨heq, _⟩ | ⟨⟨_, hs1⟩, _⟩
  · rw [heq]
  · obtain ⟨nm, hn, fs, rfl, _⟩ := GoType.startsWith_elim decl hdrType hs1
    obtain ⟨_, _, _, _, wh, _, _, _, hwh⟩ := GoType.isElementHeader_elim hdrType hs3
    rw [GoType.type_fixedWidth_of_wireWidth _ _ hwh]
    simp [GoType.fixedWidth, FieldList.fixedWidth, hwh]

theorem GoType.elementShape_struct (hdrType decl : GoType)
    (h : GoType.elementShape hdrType decl = true) : ∃ nm fs, decl = .struct nm fs := by
  simp only [GoType.elementShape, Bool.and_eq_true, Bool.or_eq_true, decide_eq_true_eq,
    Bool.not_eq_true', decide_eq_false_iff_not] at h
  obtain ⟨hs, hs3⟩ := h
  rcases hs with ⟨heq, _⟩ | ⟨⟨_, hs1⟩, _⟩
  · obtain ⟨nm, a, b, r, _, hh, _⟩ := GoType.isElementHeader_elim hdrType hs3
    exact ⟨nm, _, heq.trans hh⟩
  · obtain ⟨nm, hn, fs, rfl, _⟩ := GoType.startsWith_elim decl hdrType hs1
    exact ⟨nm, _, rfl⟩

/-- Round trip of one tagged element through `encodeRecord` and
`decodeElement`, for a record the registry holds. -/
theorem element_round_trip {τ : Type} (hdrType : GoType) (registry : Registry)
    (hwf : registry.wellFormed hdrType = true)
    (decTail : GoType → Value → List Nat → Except CodecError τ)
    (decl : GoType) (fixed : Value) (tb : List Nat) (t : τ)
    (hreg : (elementTag hdrType decl fixed).bind registry.lookup = some decl)
    (hwt : decl.fixedPart.wellTyped fixed = true)
    (hfit : decl.fixedWidth + tb.length < 2 ^ 16)
    (hlen : readField decl.lengthPath fixed = some (decl.fixedWidth + tb.length))
    (htail : decTail decl fixed tb = .ok t) :
    ∃ b, encodeRecord decl fixed tb = .ok b ∧ b.length = decl.fixedWidth + tb.length ∧
      hdrType.fixedWidth ≤ decl.fixedWidth + tb.length ∧ 0 < decl.fixedWidth + tb.length ∧
      ∀ rest, decodeElement hdrType registry decTail (b ++ rest) =
        .ok ((decl, fixed, t), decl.fixedWidth + tb.length) := by
  have hshape : GoType.elementShape hdrType decl = true := by
    cases htag : elementTag hdrType decl fixed with
    | none => simp [htag] at hreg
    | some tag =>
        simp only [htag, Option.bind_eq_bind, Option.some_bind] at hreg
        exact Registry.lookup_shape hdrType registry hwf tag decl hreg
  obtain ⟨hw4, hwle⟩ := GoType.elementShape_width hdrType decl hshape
  obtain ⟨nm, fs, rfl⟩ := GoType.elementShape_struct hdrType decl hshape
  refine ⟨_, encodeRecord_ok _ fixed tb hfit hlen, ?_, by omega, by omega, ?_⟩
  · rw [List.length_append, GoType.encode_fixedPart_length nm fs fixed hwt]
  · intro rest
    exact decodeElement_encode hdrType registry decTail _ fixed tb t rest hshape hreg hwt hlen
      htail

theorem actionRegistry_wellFormed : actionRegistry.wellFormed ActionHeader = true := by
  decide

theorem queuePropRegistry_wellFormed : queuePropRegistry.wellFormed QueuePropHeader = true := by
  decide

theorem instructionRegistry_wellFormed :
    instructionRegistry.wellFormed InstructionHeader = true := by
  decide

/-! ## Round trip of the three families -/

theorem padTo_one (n : Nat) : padTo 1 n = 0 := by
  simp [padTo, Nat.mod_one]

theorem padTo_eight_aligned (n : Nat) : (n + padTo 8 n) % 8 = 0 := by
  simp only [padTo]
  omega

theorem padTo_eight_of_aligned (n : Nat) (h : n % 8 = 0) : padTo 8 n = 0 := by
  simp only [padTo]
  omega

theorem instructionRegistry_listsAligned : instructionRegistry.listsAligned = true := by
  decide

/-- What the encoder of a family appends to the fixed fields decodes to the raw
bytes of the padded element. -/
theorem Family.decodeTail_payload (f : Family) (e : Element)
    (hd : e.decl ≠ f.blob → e.data = []) :
    f.decodeTail e.decl e.fixed
      (f.payload e.decl e.data ++ List.replicate
        (padTo f.align (e.decl.fixedWidth + (f.payload e.decl e.data).length)) 0) =
      .ok (f.padded e).data := by
  by_cases hb : e.decl = f.blob
  · simp [Family.decodeTail, Family.payload, Family.padded, hb]
  · simp [Family.decodeTail, Family.payload, Family.padded, hb, hd hb]

/-- An element that needs no padding after raw trailing bytes is returned by
the decoder as it is. -/
theorem Family.padded_canonical (f : Family) (e : Element) (h : f.Canonical e) :
    f.padded e = e := by
  obtain ⟨decl, fixed, data⟩ := e
  by_cases hb : decl = f.blob
  · have hp : padTo f.align (decl.fixedWidth + data.length) = 0 := h hb
    simp only [Family.padded, if_pos hb, hp, List.replicate_zero, List.append_nil]
  · simp [Family.padded, hb]

/-- Round trip of one element of a family: the encoding decodes, alone or
followed by other bytes, to the padded element. -/
theorem Family.family_round_trip (f : Family)
    (hwf : f.registry.wellFormed f.header = true) (e : Element) (h : f.Valid e) :
    ∃ b, f.pack e = .ok b ∧ b.length = f.elementLen e ∧
      f.header.fixedWidth ≤ f.elementLen e ∧ 0 < f.elementLen e ∧
      f.unpack e.decl b = .ok (f.padded e) ∧
      ∀ rest, f.decodeOne (b ++ rest) = .ok (f.padded e, f.elementLen e) := by
  obtain ⟨hwt, hreg, hd, hfit, hlen⟩ := h
  have htail := Family.decodeTail_payload f e hd
  have hL : f.elementLen e = e.decl.fixedWidth +
      (f.payload e.decl e.data ++ List.replicate
        (padTo f.align (e.decl.fixedWidth + (f.payload e.decl e.data).length)) 0).length := by
    simp [Family.elementLen, Nat.add_assoc]
  rw [hL] at hfit hlen
  obtain ⟨b, hb, hbl, hh, hpos, hrt⟩ := element_round_trip f.header f.registry hwf
    f.decodeTail e.decl e.fixed _ _ hreg hwt hfit hlen htail
  have hbe := encodeRecord_ok e.decl e.fixed _ hfit hlen
  rw [hb] at hbe
  cases hbe
  refine ⟨_, hb, by rw [hL]; exact hbl, by rw [hL]; exact hh, by rw [hL]; exact hpos, ?_, ?_⟩
  · simp only [Family.unpack, decodeRecord_encode e.decl (f.decodeTail e.decl) e.fixed _ _ hwt
      htail, hbl, hlen, if_true]
    rfl
  · intro rest
    simp only [Family.decodeOne, hrt rest, hL]
    rfl

theorem Action.action_round_trip (a : Action) (h : Action.Valid a) :
    ∃ bs, Action.PackBinary a = .ok bs ∧ bs.length = Action.Len a ∧ bs.length % 8 = 0 ∧
      Action.UnpackBinary a.decl bs = .ok (Action.padded a) ∧
      ∀ rest, decodeAction (bs ++ rest) = .ok (Action.padded a, Action.Len a) := by
  obtain ⟨b, h1, h2, _, _, h5, h6⟩ :=
    Family.family_round_trip actionFamily actionRegistry_wellFormed a h
  refine ⟨b, h1, h2, ?_, h5, h6⟩
  rw [h2]
  exact padTo_eight_aligned _

theorem Action.len_aligned (a : Action) : Action.Len a % 8 = 0 :=
  padTo_eight_aligned _

theorem actionsLen_aligned (acts : List Action) : actionsLen acts % 8 = 0 := by
  induction acts with
  | nil => rfl
  | cons a rest ih =>
      have h1 := Action.len_aligned a
      simp only [actionsLen, List.map_cons, List.sum_cons] at ih ⊢
      omega

theorem Action.action_elem_round_trip (a : Action) (h : Action.Valid a)
    (hc : Action.Canonical a) :
    ElemRoundTrip Action.PackBinary decodeAction Action.Len ActionHeader.fixedWidth a := by
  obtain ⟨b, h1, h2, h3, h4, _, h6⟩ :=
    Family.family_round_trip actionFamily actionRegistry_wellFormed a h
  rw [Family.padded_canonical actionFamily a hc] at h6
  exact ⟨b, h1, h2, h3, h4, h6⟩

theorem QueueProp.queueProp_canonical (q : QueueProp) : queuePropFamily.Canonical q :=
  fun _ => padTo_one _

theorem QueueProp.queueProp_round_trip (q : QueueProp) (h : QueueProp.Valid q) :
    ∃ bs, QueueProp.PackBinary q = .ok bs ∧ bs.length = QueueProp.Len q ∧
      QueueProp.UnpackBinary q.decl bs = .ok q ∧
      ∀ rest, decodeQueueProp (bs ++ rest) = .ok (q, QueueProp.Len q) := by
  obtain ⟨b, h1, h2, _, _, h5, h6⟩ :=
    Family.family_round_trip queuePropFamily queuePropRegistry_wellFormed q h
  rw [Family.padded_canonical queuePropFamily q (QueueProp.queueProp_canonical q)] at h5 h6
  exact ⟨b, h1, h2, h5, h6⟩

theorem QueueProp.queueProp_elem_round_trip (q : QueueProp) (h : QueueProp.Valid q) :
    ElemRoundTrip QueueProp.PackBinary decodeQueueProp QueueProp.Len
      QueuePropHeader.fixedWidth q := by
  obtain ⟨b, h1, h2, h3, h4, _, h6⟩ :=
    Family.family_round_trip queuePropFamily queuePropRegistry_wellFormed q h
  rw [Family.padded_canonical queuePropFamily q (QueueProp.queueProp_canonical q)] at h6
  exact ⟨b, h1, h2, h3, h4, h6⟩

theorem actions_round_trip (acts : List Action)
    (h : ∀ a ∈ acts, Action.Valid a) (hc : ∀ a ∈ acts, Action.Canonical a) :
    ∃ bs, encodeActions acts = .ok bs ∧ bs.length = actionsLen acts ∧
      decodeActions bs = .ok acts :=
  decodeList_encode Action.PackBinary decodeAction Action.Len ActionHeader.fixedWidth acts
    (fun a ha => Action.action_elem_round_trip a (h a ha) (hc a ha))

theorem queueProps_round_trip (qs : List QueueProp) (h : ∀ q ∈ qs, QueueProp.Valid q) :
    ∃ bs, encodeQueueProps qs = .ok bs ∧ bs.length = (qs.map QueueProp.Len).sum ∧
      decodeQueueProps bs = .ok qs :=
  decodeList_encode QueueProp.PackBinary decodeQueueProp QueueProp.Len
    QueuePropHeader.fixedWidth qs (fun q hq => QueueProp.queueProp_elem_round_trip q (h q hq))

/-- The serialised form of a valid instruction whose actions need no padding
after raw trailing bytes: its fixed fields followed by the bytes of its
trailing part, which decode to the actions and raw bytes of the padded
instruction. -/
theorem Instruction.instruction_pack_eq (i : Instruction) (h : i.Valid)
    (hc : ∀ a ∈ i.Actions, Action.Canonical a) :
    ∃ tb, i.PackBinary = .ok (i.decl.fixedPart.encode i.fixed ++ tb) ∧
      i.Len = i.decl.fixedWidth + tb.length ∧
      decodeInstructionTail i.decl i.fixed tb = .ok (i.Actions, i.padded.data) := by
  obtain ⟨hwt, hreg, hacts, hnone, hd, hfit, hlen⟩ := h
  cases ht : i.decl.hasTail with
  | true =>
      have hfw := Registry.lookup_listsAligned instructionRegistry
        instructionRegistry_listsAligned _ i.decl hreg ht
      have hnb : i.decl ≠ InstructionExperimenter := by
        intro hb
        rw [hb] at ht
        revert ht
        decide
      obtain ⟨tb, htb, htl, htd⟩ := actions_round_trip i.Actions hacts hc
      have hal := actionsLen_aligned i.Actions
      have hpad : padTo 8 (i.decl.fixedWidth + actionsLen i.Actions) = 0 :=
        padTo_eight_of_aligned _ (by omega)
      have hL : i.Len = i.decl.fixedWidth + tb.length := by
        simp [Instruction.Len, Instruction.bodyLen, ht, htl, hpad]
      rw [hL] at hfit hlen
      refine ⟨tb, ?_, hL, by simp [decodeInstructionTail, ht, htd, Instruction.padded, hnb,
        hd hnb]⟩
      simp only [Instruction.PackBinary, ht, htb, if_true]
      rw [encodeAligned_eq _ _ _ (by rw [htl]; omega)]
      exact encodeRecord_ok i.decl i.fixed tb hfit hlen
  | false =>
      have hnil : i.Actions = [] := by simpa using hnone ht
      have htail := Family.decodeTail_payload instructionFamily ⟨i.decl, i.fixed, i.data⟩ hd
      have hL : i.Len = i.decl.fixedWidth +
          (instructionFamily.payload i.decl i.data ++ List.replicate
            (padTo 8 (i.decl.fixedWidth + (instructionFamily.payload i.decl i.data).length))
            0).length := by
        simp [Instruction.Len, Instruction.bodyLen, ht, Nat.add_assoc]
      rw [hL] at hfit hlen
      refine ⟨_, ?_, hL, ?_⟩
      · simp only [Instruction.PackBinary, ht, Bool.false_eq_true, if_false, encodeAligned]
        exact encodeRecord_ok i.decl i.fixed _ hfit hlen
      · simp only [decodeInstructionTail, ht, Bool.false_eq_true, if_false]
        have htail2 : instructionFamily.decodeTail i.decl i.fixed
            (instructionFamily.payload i.decl i.data ++ List.replicate
              (padTo 8 (i.decl.fixedWidth + (instructionFamily.payload i.decl i.data).length))
              0) = .ok i.padded.data := htail
        rw [htail2, hnil]

theorem Instruction.instruction_round_trip (i : Instruction) (h : i.Valid)
    (hc : ∀ a ∈ i.Actions, Action.Canonical a) :
    ∃ bs, i.PackBinary = .ok bs ∧ bs.length = i.Len ∧ bs.length % 8 = 0 ∧
      InstructionHeader.fixedWidth ≤ i.Len ∧ 0 < i.Len ∧
      Instruction.UnpackBinary i.decl bs = .ok i.padded ∧
      ∀ rest, decodeInstruction (bs ++ rest) = .ok (i.padded, i.Len) := by
  obtain ⟨tb, hpack, hL, htail⟩ := Instruction.instruction_pack_eq i h hc
  obtain ⟨hwt, hreg, hacts, hnone, hd, hfit, hlen⟩ := h
  have hal : i.Len % 8 = 0 := padTo_eight_aligned _
  rw [hL] at hfit hlen
  obtain ⟨b, hb, hbl, hh, hpos, hrt⟩ := element_round_trip InstructionHeader
    instructionRegistry instructionRegistry_wellFormed decodeInstructionTail i.decl i.fixed
    tb _ hreg hwt hfit hlen htail
  have hbe := encodeRecord_ok i.decl i.fixed tb hfit hlen
  rw [hb] at hbe
  cases hbe
  refine ⟨_, hpack, by rw [hL]; exact hbl, by rw [hbl, ← hL]; exact hal, by rw [hL]; exact hh,
    by rw [hL]; exact hpos, ?_, ?_⟩
  · simp only [Instruction.UnpackBinary, decodeRecord_encode i.decl
      (decodeInstructionTail i.decl) i.fixed tb _ hwt htail, hbl, hlen, if_true]
    rfl
  · intro rest
    simp only [decodeInstruction, hrt rest, hL]
    rfl

theorem Instruction.padded_canonical_eq (i : Instruction) (h : i.Canonical) :
    i.padded = i := by
  obtain ⟨decl, fixed, acts, data⟩ := i
  by_cases hb : decl = InstructionExperimenter
  · have hp : padTo 8 (decl.fixedWidth + data.length) = 0 := h.1 hb
    simp only [Instruction.padded, if_pos hb, hp, List.replicate_zero, List.append_nil]
  · simp [Instruction.padded, hb]

theorem Instruction.instruction_elem_round_trip (i : Instruction) (h : i.Valid)
    (hc : i.Canonical) :
    ElemRoundTrip Instruction.PackBinary decodeInstruction Instruction.Len
      InstructionHeader.fixedWidth i := by
  obtain ⟨b, h1, h2, _, h3, h4, _, h6⟩ := Instruction.instruction_round_trip i h hc.2
  rw [Instruction.padded_canonical_eq i hc] at h6
  exact ⟨b, h1, h2, h3, h4, h6⟩

theorem instructions_round_trip (is : List Instruction) (h : ∀ i ∈ is, i.Valid)
    (hc : ∀ i ∈ is, i.Canonical) :
    ∃ bs, encodeInstructions is = .ok bs ∧ bs.length = (is.map Instruction.Len).sum ∧
      decodeInstructions bs = .ok is :=
  decodeList_encode Instruction.PackBinary decodeInstruction Instruction.Len
    InstructionHeader.fixedWidth is
    (fun i hi => Instruction.instruction_elem_round_trip i (h i hi) (hc i hi))
/-! ## Round trip of the records framed by their own length -/

theorem decodeItem_encode {τ : Type} (nm : String) (fs : FieldList)
    (decTail : Value → List Nat → Except CodecError τ)
    (fixed : Value) (tb : List Nat) (t : τ) (rest : List Nat)
    (hwt : (GoType.struct nm fs).fixedPart.wellTyped fixed = true)
    (hlen : readField (GoType.struct nm fs).lengthPath fixed =
      some ((GoType.struct nm fs).fixedWidth + tb.length))
    (htail : decTail fixed tb = .ok t) :
    decodeItem (GoType.struct nm fs) decTail
        ((GoType.struct nm fs).fixedPart.encode fixed ++ tb ++ rest) =
      .ok ((fixed, t), (GoType.struct nm fs).fixedWidth + tb.length) := by
  have hel := GoType.encode_fixedPart_length nm fs fixed hwt
  have hrec := decodeRecord_encode (GoType.struct nm fs) decTail fixed tb t hwt htail
  have hdec := GoType.value_decode_encode _ fixed (tb ++ rest) hwt
  have htake : ((GoType.struct nm fs).fixedPart.encode fixed ++ tb ++ rest).take
      ((GoType.struct nm fs).fixedWidth + tb.length) =
      (GoType.struct nm fs).fixedPart.encode fixed ++ tb := by
    apply take_append_exact
    rw [List.length_append, hel]
  have hlong : ¬ ((GoType.struct nm fs).fixedPart.encode fixed ++ tb ++ rest).length <
      (GoType.struct nm fs).fixedWidth + tb.length := by
    rw [List.length_append, List.length_append, hel]
    omega
  have hge : ¬ (GoType.struct nm fs).fixedWidth + tb.length < (GoType.struct nm fs).fixedWidth := by
    omega
  unfold decodeItem
  rw [List.append_assoc, hdec]
  simp only [hlen, hge, if_false]
  rw [← List.append_assoc]
  simp only [hlong, if_false, htake, hrec]

/-- Round trip of one record framed by its own `Length`. -/
theorem item_round_trip {τ : Type} (nm : String) (fs : FieldList)
    (decTail : Value → List Nat → Except CodecError τ)
    (fixed : Value) (tb : List Nat) (t : τ)
    (hwt : (GoType.struct nm fs).fixedPart.wellTyped fixed = true)
    (hfit : (GoType.struct nm fs).fixedWidth + tb.length < 2 ^ 16)
    (hlen : readField (GoType.struct nm fs).lengthPath fixed =
      some ((GoType.struct nm fs).fixedWidth + tb.length))
    (htail : decTail fixed tb = .ok t) :
    ∃ b, encodeRecord (GoType.struct nm fs) fixed tb = .ok b ∧
      b.length = (GoType.struct nm fs).fixedWidth + tb.length ∧
      ∀ rest, decodeItem (GoType.struct nm fs) decTail (b ++ rest) =
        .ok ((fixed, t), (GoType.struct nm fs).fixedWidth + tb.length) := by
  refine ⟨_, encodeRecord_ok _ fixed tb hfit hlen, ?_, ?_⟩
  · rw [List.length_append, GoType.encode_fixedPart_length nm fs fixed hwt]
  · intro rest
    exact decodeItem_encode nm fs decTail fixed tb t rest hwt hlen htail

theorem BucketValue.bucket_round_trip (b : BucketValue) (h : b.Valid) (hc : b.Canonical) :
    ElemRoundTrip BucketValue.encode decodeBucket BucketValue.Len Bucket.fixedWidth b := by
  obtain ⟨hwt, hacts, hfit, hlen⟩ := h
  obtain ⟨tb, htb, htl, htd⟩ := actions_round_trip b.Actions hacts hc
  have hL : b.Len = Bucket.fixedWidth + tb.length := by simp [BucketValue.Len, htl]
  rw [hL] at hfit hlen
  obtain ⟨bs, hb, hbl, hrt⟩ := item_round_trip "Bucket" _ (fun _ => decodeActions) b.fixed tb
    b.Actions hwt hfit hlen htd
  refine ⟨bs, by simp only [BucketValue.encode, htb]; exact hb, by rw [hL]; exact hbl,
    by rw [hL]; omega, ?_, ?_⟩
  · rw [hL]
    have : 0 < Bucket.fixedWidth := by decide
    omega
  · intro rest
    have := hrt rest
    simp only [decodeBucket, Bucket, hL] at this ⊢
    simp only [this]

theorem PacketQueueValue.packetQueue_round_trip (q : PacketQueueValue) (h : q.Valid) :
    ElemRoundTrip PacketQueueValue.encode decodePacketQueue PacketQueueValue.Len
      PacketQueue.fixedWidth q := by
  obtain ⟨hwt, hprops, hfit, hlen⟩ := h
  obtain ⟨tb, htb, htl, htd⟩ := queueProps_round_trip q.Properties hprops
  have hL : q.Len = PacketQueue.fixedWidth + tb.length := by simp [PacketQueueValue.Len, htl]
  rw [hL] at hfit hlen
  obtain ⟨bs, hb, hbl, hrt⟩ := item_round_trip "PacketQueue" _ (fun _ => decodeQueueProps)
    q.fixed tb q.Properties hwt hfit hlen htd
  refine ⟨bs, by simp only [PacketQueueValue.encode, htb]; exact hb, by rw [hL]; exact hbl,
    by rw [hL]; omega, ?_, ?_⟩
  · rw [hL]
    have : 0 < PacketQueue.fixedWidth := by decide
    omega
  · intro rest
    have := hrt rest
    simp only [decodePacketQueue, PacketQueue, hL] at this ⊢
    simp only [this]

/-! ## Round trip of messages and stats bodies -/

theorem decodeFixed_round_trip (e : GoType) (w : Nat) (hw : e.wireWidth = some w)
    (hpos : 0 < w) (v : Value) (hv : e.wellTyped v = true) :
    ElemRoundTrip (fun v => .ok (e.encode v)) (decodeFixed e) (fun _ => e.fixedWidth) 0 v := by
  have hfw := GoType.type_fixedWidth_of_wireWidth e w hw
  have hl := GoType.value_encode_length e v w hv hw
  refine ⟨e.encode v, rfl, by rw [hfw, hl], Nat.zero_le _, by rw [hfw]; exact hpos, ?_⟩
  intro rest
  simp only [decodeFixed, GoType.value_decode_encode e v rest hv, List.length_append, hl, hfw,
    Nat.add_sub_cancel]

theorem tail_round_trip (decl : GoType) (k : TailKind) (t : Tail) (fixed : Value)
    (hk : k.wellFormed = true) (hv : Tail.Valid k t) (hc : Tail.Canonical t)
    (hin : innerLengthOk decl t fixed) :
    ∃ tb, encodeTail k t = .ok tb ∧ tb.length = Tail.Len k t ∧
      decodeTail decl k fixed tb = .ok t := by
  cases k with
  | none =>
      cases t <;> simp only [Tail.Valid] at hv
      exact ⟨[], rfl, rfl, rfl⟩
  | bytes =>
      cases t <;> simp only [Tail.Valid] at hv
      rename_i data
      exact ⟨data, rfl, rfl, rfl⟩
  | values e =>
      cases t <;> simp only [Tail.Valid] at hv
      rename_i vs
      simp only [TailKind.wellFormed, Bool.and_eq_true, decide_eq_true_eq,
        Option.isSome_iff_exists] at hk
      obtain ⟨⟨w, hw⟩, hpos⟩ := hk
      rw [GoType.type_fixedWidth_of_wireWidth e w hw] at hpos
      obtain ⟨tb, h1, h2, h3⟩ := decodeList_encode (fun v => .ok (e.encode v)) (decodeFixed e)
        (fun _ => e.fixedWidth) 0 vs (fun v hvm => decodeFixed_round_trip e w hw hpos v (hv v hvm))
      exact ⟨tb, h1, h2, by simp only [decodeTail, h3]⟩
  | instructions =>
      cases t <;> simp only [Tail.Valid] at hv
      rename_i is
      obtain ⟨tb, h1, h2, h3⟩ := instructions_round_trip is hv hc
      exact ⟨tb, h1, h2, by simp only [decodeTail, h3]⟩
  | buckets =>
      cases t <;> simp only [Tail.Valid] at hv
      rename_i bs
      obtain ⟨tb, h1, h2, h3⟩ := decodeList_encode BucketValue.encode decodeBucket
        BucketValue.Len Bucket.fixedWidth bs (fun b hb => BucketValue.bucket_round_trip b (hv b hb) (hc b hb))
      exact ⟨tb, h1, h2, by simp only [decodeTail, h3]⟩
  | queues =>
      cases t <;> simp only [Tail.Valid] at hv
      rename_i qs
      obtain ⟨tb, h1, h2, h3⟩ := decodeList_encode PacketQueueValue.encode decodePacketQueue
        PacketQueueValue.Len PacketQueue.fixedWidth qs
        (fun q hq => PacketQueueValue.packetQueue_round_trip q (hv q hq))
      exact ⟨tb, h1, h2, by simp only [decodeTail, h3]⟩
  | actionsThenBytes =>
      cases t <;> simp only [Tail.Valid] at hv
      rename_i acts data
      simp only [innerLengthOk] at hin
      obtain ⟨ab, h1, h2, h3⟩ := actions_round_trip acts hv hc
      refine ⟨ab ++ data, by simp only [encodeTail, h1], by simp [Tail.Len, h2], ?_⟩
      have hlt : ¬ (ab ++ data).length < actionsLen acts := by
        rw [List.length_append, h2]; omega
      have htake : (ab ++ data).take (actionsLen acts) = ab := take_append_exact ab data _ h2
      have hdrop : (ab ++ data).drop (actionsLen acts) = data := by
        rw [← h2]; simp
      simp only [decodeTail, hin, hlt, if_false, htake, h3, hdrop]

theorem patchInner_valid (decl : GoType) (t : Tail) (fixed : Value) (k : TailKind)
    (hv : Tail.Valid k t) (hc : Tail.Canonical t) (hin : innerLengthOk decl t fixed) :
    patchInner decl t fixed = .ok fixed := by
  cases t with
  | actionsThenBytes acts data =>
      cases k <;> simp only [Tail.Valid] at hv
      simp only [innerLengthOk] at hin
      obtain ⟨ab, h1, h2, _⟩ := actions_round_trip acts hv hc
      rw [← h2] at hin
      simp only [patchInner, h1, patchField_readField _ _ _ hin]
  | _ => rfl

theorem Header_lengthPath : Header.lengthPath = some [2] := by decide

theorem Header_fixedPart : Header.fixedPart = Header := by decide

theorem Header_wireWidth : Header.wireWidth = some 8 := by decide

theorem decodeMessage_encode (decl : GoType) (k : TailKind) (fixed : Value) (tb : List Nat)
    (t : Tail) (rest : List Nat)
    (hshape : decl = Header ∨
      (decl.startsWith Header = true ∧ decl.lengthPath = some [0, 2]))
    (hk : decl.tailKind = some k)
    (hwt : decl.fixedPart.wellTyped fixed = true)
    (hlen : readField decl.lengthPath fixed = some (decl.fixedWidth + tb.length))
    (htail : decodeTail decl k fixed tb = .ok t) :
    decodeMessage decl (decl.fixedPart.encode fixed ++ tb ++ rest) =
      .ok (⟨decl, fixed, t⟩, decl.fixedWidth + tb.length) := by
  have hrec := decodeRecord_encode decl (decodeTail decl k) fixed tb t hwt htail
  have hstruct : ∃ nm fs, decl = .struct nm fs := by
    rcases hshape with h | h
    · exact ⟨"Header", _, h⟩
    · obtain ⟨nm, hn, fs, h2, _⟩ := GoType.startsWith_elim decl Header h.1
      exact ⟨nm, _, h2⟩
  obtain ⟨nm0, fs0, hd0⟩ := hstruct
  have hel : (decl.fixedPart.encode fixed).length = decl.fixedWidth := by
    subst hd0
    exact GoType.encode_fixedPart_length nm0 fs0 fixed hwt
  have htake : (decl.fixedPart.encode fixed ++ tb ++ rest).take (decl.fixedWidth + tb.length) =
      decl.fixedPart.encode fixed ++ tb := by
    apply take_append_exact
    rw [List.length_append, hel]
  have hlong : ¬ (decl.fixedPart.encode fixed ++ tb ++ rest).length <
      decl.fixedWidth + tb.length := by
    rw [List.length_append, List.length_append, hel]
    omega
  have hhdr : ∃ hv r, Header.decode (decl.fixedPart.encode fixed ++ tb ++ rest) = .ok (hv, r) ∧
      readField Header.lengthPath hv = some (decl.fixedWidth + tb.length) := by
    rcases hshape with h | ⟨h1, h2⟩
    · subst h
      rw [Header_fixedPart] at hwt ⊢
      refine ⟨fixed, tb ++ rest, ?_, hlen⟩
      rw [List.append_assoc]
      exact GoType.value_decode_encode Header fixed _ hwt
    · obtain ⟨nm, hn, fs, rfl, hres⟩ := GoType.startsWith_elim decl Header h1
      have hfp : (GoType.struct nm (.cons hn Header fs)).fixedPart =
          .struct nm (.cons hn Header fs.fixedPart) := by
        simp [GoType.fixedPart, FieldList.fixedPart, Header_wireWidth]
      rw [hfp] at hwt ⊢
      rw [h2] at hlen
      cases fixed with
      | uint n => simp [GoType.wellTyped] at hwt
      | seq vs =>
          match vs, hwt with
          | [], hwt => simp [GoType.wellTyped, FieldList.wellTyped, hres] at hwt
          | hv :: vs2, hwt =>
              simp only [GoType.wellTyped, FieldList.wellTyped, hres, Bool.false_eq_true,
                if_false, Bool.and_eq_true] at hwt
              refine ⟨hv, fs.fixedPart.encode vs2 ++ (tb ++ rest), ?_, ?_⟩
              · have := GoType.value_decode_encode Header hv
                  (fs.fixedPart.encode vs2 ++ (tb ++ rest)) hwt.1
                simpa [GoType.encode, FieldList.encode, hres, List.append_assoc] using this
              · rw [Header_lengthPath]
                simpa [readField, Value.getAt] using hlen
  obtain ⟨hv, r, hdec, hhl⟩ := hhdr
  unfold decodeMessage
  rw [hdec]
  simp only [hhl, hlong, if_false, hk, htake, hrec]

/-- Round trip of a message through `Record.encode` and `decodeMessage`. -/
theorem Record.message_round_trip (m : Record) (hs : m.decl.messageShape = true)
    (h : m.Valid) (hc : m.Canonical) :
    ∃ bs, m.encode = .ok bs ∧ bs.length = m.Len ∧
      ∀ rest, decodeMessage m.decl (bs ++ rest) = .ok (m, m.Len) := by
  obtain ⟨decl, fixed, tail⟩ := m
  simp only [Record.Valid] at h
  simp only [GoType.messageShape, Bool.and_eq_true, Bool.or_eq_true, decide_eq_true_eq] at hs
  obtain ⟨hs1, hs2⟩ := hs
  cases hk : decl.tailKind with
  | none => simp [hk] at h
  | some k =>
      simp only [hk] at h hs2
      obtain ⟨hwt, hv, hin, hfit, hlen⟩ := h
      obtain ⟨tb, ht1, ht2, ht3⟩ := tail_round_trip decl k tail fixed hs2 hv hc hin
      have hL : Record.Len ⟨decl, fixed, tail⟩ = decl.fixedWidth + tb.length := by
        simp [Record.Len, hk, ht2]
      rw [hL] at hfit hlen ⊢
      have hstruct : ∃ nm fs, decl = .struct nm fs := by
        rcases hs1 with h | h
        · exact ⟨"Header", _, h⟩
        · obtain ⟨nm, hn, fs, h2, _⟩ := GoType.startsWith_elim decl Header h.1
          exact ⟨nm, _, h2⟩
      refine ⟨decl.fixedPart.encode fixed ++ tb, ?_, ?_, ?_⟩
      · simp only [Record.encode, hk, ht1, patchInner_valid decl tail fixed k hv hc hin,
          encodeRecord_ok decl fixed tb hfit hlen]
      · obtain ⟨nm, fs, rfl⟩ := hstruct
        rw [List.length_append, GoType.encode_fixedPart_length nm fs fixed hwt]
      · intro rest
        exact decodeMessage_encode decl k fixed tb tail rest hs1 hk hwt hlen ht3

/-- Round trip of a stats body entry through `Record.encode` and
`decodeBody`. -/
theorem Record.body_round_trip (m : Record) (hs : m.decl.bodyShape = true) (h : m.Valid)
    (hc : m.Canonical) :
    ∃ bs, m.encode = .ok bs ∧ bs.length = m.Len ∧
      ∀ rest, decodeBody m.decl (bs ++ rest) = .ok (m, m.Len) := by
  obtain ⟨decl, fixed, tail⟩ := m
  simp only [Record.Valid] at h
  simp only [GoType.bodyShape, Bool.and_eq_true] at hs
  obtain ⟨hs1, hs2⟩ := hs
  cases hk : decl.tailKind with
  | none => simp [hk] at h
  | some k =>
      simp only [hk] at h hs2
      obtain ⟨hwt, hv, hin, hfit, hlen⟩ := h
      obtain ⟨tb, ht1, ht2, ht3⟩ := tail_round_trip decl k tail fixed hs2 hv hc hin
      have hL : Record.Len ⟨decl, fixed, tail⟩ = decl.fixedWidth + tb.length := by
        simp [Record.Len, hk, ht2]
      rw [hL] at hfit hlen ⊢
      cases decl with
      | struct nm fs =>
          obtain ⟨b, hb, hbl, hrt⟩ := item_round_trip nm fs (decodeTail (.struct nm fs) k)
            fixed tb tail hwt hfit hlen ht3
          refine ⟨b, ?_, hbl, ?_⟩
          · simp only [Record.encode, hk, ht1,
              patchInner_valid (.struct nm fs) tail fixed k hv hc hin, hb]
          · intro rest
            simp only [decodeBody, hk, hrt rest]
      | _ => simp at hs1

theorem messageRecords_shape : ∀ d ∈ messageRecords, d.messageShape = true := by
  decide

theorem framedBodyRecords_shape : ∀ d ∈ framedBodyRecords, d.bodyShape = true := by
  decide


/-! ## The registries and the declared variants -/

theorem registries_cover_variants :
    (∀ d ∈ actionRecords, ∃ e ∈ actionRegistry.entries, actionRegistry.lookup e.1 = some d) ∧
    (∀ d ∈ instructionRecords,
      ∃ e ∈ instructionRegistry.entries, instructionRegistry.lookup e.1 = some d) ∧
    (∀ d ∈ queuePropRecords,
      ∃ e ∈ queuePropRegistry.entries, queuePropRegistry.lookup e.1 = some d) := by
  decide

theorem registries_cover_tags :
    (∀ t ∈ actionTags.tags, (actionRegistry.lookup t).isSome = true) ∧
    (∀ t ∈ instructionTags.tags, (instructionRegistry.lookup t).isSome = true) ∧
    (∀ t ∈ queuePropTags.tags, (queuePropRegistry.lookup t).isSome = true) ∧
    actionRegistry.lookup experimenterTag = some ActionExperimenterHeader ∧
    instructionRegistry.lookup experimenterTag = some InstructionExperimenter ∧
    queuePropRegistry.lookup experimenterTag = some QueuePropExperimenter := by
  decide


/-! ## The properties -/

/-- C1, counterexample: the round trip does not give back every valid variant.
The experimenter action `exampleVendorAction` (a vendor id and one raw
trailing byte) is valid; its encoding is padded to 16 bytes, `Length` covering
the padding, and decoding it, by `UnpackBinary` or through the registry,
returns the raw trailing byte followed by the seven bytes of padding, a value
other than the one encoded. -/
theorem codec_round_trip_every_variant_false :
    Action.Valid exampleVendorAction ∧
    ¬ (∀ a : Action, Action.Valid a →
        ∃ bs, Action.PackBinary a = .ok bs ∧ Action.UnpackBinary a.decl bs = .ok a) ∧
    ¬ (∀ a : Action, Action.Valid a →
        ∃ bs, Action.PackBinary a = .ok bs ∧ decodeAction bs = .ok (a, bs.length)) := by
  obtain ⟨bs2, h3, h5, _, h4, h6⟩ := Action.action_round_trip exampleVendorAction (by decide)
  have hne : ¬ exampleVendorAction.data = (Action.padded exampleVendorAction).data := by
    decide
  refine ⟨by decide, fun h => ?_, fun h => ?_⟩
  · obtain ⟨bs, h1, h2⟩ := h exampleVendorAction (by decide)
    rw [h1] at h3
    cases h3
    rw [h2] at h4
    exact hne (congrArg Element.data (Except.ok.inj h4))
  · obtain ⟨bs, h1, h2⟩ := h exampleVendorAction (by decide)
    rw [h1] at h3
    cases h3
    have h7 := h6 []
    rw [List.append_nil, h2] at h7
    exact hne (congrArg (fun r => r.1.data) (Except.ok.inj h7))

/-- C1, amended: decoding the bytes produced by encoding returns the value
encoded, the raw trailing bytes of an experimenter action or instruction
coming back followed by the zero bytes that pad the element to a multiple of 8.
For every valid `Action`, and every valid `Instruction` whose actions need no
such padding, `PackBinary` succeeds with a number of bytes that is a multiple
of 8, and both `UnpackBinary` of the variant and the element decoder of the
family (through the registry) return the padded value; they return the value
itself when it needs no padding after raw trailing bytes, which is the case of
every variant but an experimenter blob of unaligned length. Every valid
`QueueProp` is given back as it is. Every declared variant record and every
tag of the three constant blocks is registered, as is the experimenter tag in
each family. Every well-typed value of a type of fixed width (`Header`, `Port`,
`Match`, the stats records of fixed width) decodes to itself; and for every
message record and every stats body record with a trailing list, `encode` of a
valid value whose actions and instructions need no padding after raw trailing
bytes succeeds and `decode` returns the value and the number of bytes
encoded. -/
theorem codec_round_trip :
    (∀ a : Action, Action.Valid a →
      ∃ bs, Action.PackBinary a = .ok bs ∧ bs.length % 8 = 0 ∧
        Action.UnpackBinary a.decl bs = .ok (Action.padded a) ∧
        decodeAction bs = .ok (Action.padded a, bs.length)) ∧
    (∀ a : Action, Action.Valid a → Action.Canonical a →
      ∃ bs, Action.PackBinary a = .ok bs ∧ Action.UnpackBinary a.decl bs = .ok a ∧
        decodeAction bs = .ok (a, bs.length)) ∧
    (∀ i : Instruction, i.Valid → (∀ a ∈ i.Actions, Action.Canonical a) →
      ∃ bs, i.PackBinary = .ok bs ∧ bs.length % 8 = 0 ∧
        Instruction.UnpackBinary i.decl bs = .ok i.padded ∧
        decodeInstruction bs = .ok (i.padded, bs.length)) ∧
    (∀ i : Instruction, i.Valid → i.Canonical →
      ∃ bs, i.PackBinary = .ok bs ∧ Instruction.UnpackBinary i.decl bs = .ok i ∧
        decodeInstruction bs = .ok (i, bs.length)) ∧
    (∀ q : QueueProp, QueueProp.Valid q →
      ∃ bs, QueueProp.PackBinary q = .ok bs ∧ QueueProp.UnpackBinary q.decl bs = .ok q ∧
        decodeQueueProp bs = .ok (q, bs.length)) ∧
    ((∀ d ∈ actionRecords, ∃ e ∈ actionRegistry.entries, actionRegistry.lookup e.1 = some d) ∧
      (∀ d ∈ instructionRecords,
        ∃ e ∈ instructionRegistry.entries, instructionRegistry.lookup e.1 = some d) ∧
      (∀ d ∈ queuePropRecords,
        ∃ e ∈ queuePropRegistry.entries, queuePropRegistry.lookup e.1 = some d)) ∧
    ((∀ t ∈ actionTags.tags, (actionRegistry.lookup t).isSome = true) ∧
      (∀ t ∈ instructionTags.tags, (instructionRegistry.lookup t).isSome = true) ∧
      (∀ t ∈ queuePropTags.tags, (queuePropRegistry.lookup t).isSome = true) ∧
      actionRegistry.lookup experimenterTag = some ActionExperimenterHeader ∧
      instructionRegistry.lookup experimenterTag = some InstructionExperimenter ∧
      queuePropRegistry.lookup experimenterTag = some QueuePropExperimenter) ∧
    ((∀ d ∈ plainRecords, (d.wireWidth).isSome = true) ∧
      ∀ (d : GoType) (v : Value), d.wellTyped v = true →
        d.decode (d.encode v) = .ok (v, [])) ∧
    (∀ m : Record, m.decl ∈ messageRecords → m.Valid → m.Canonical →
      ∃ bs, m.encode = .ok bs ∧ decodeMessage m.decl bs = .ok (m, bs.length)) ∧
    (∀ m : Record, m.decl ∈ framedBodyRecords → m.Valid → m.Canonical →
      ∃ bs, m.encode = .ok bs ∧ decodeBody m.decl bs = .ok (m, bs.length)) := by
  refine ⟨?_, ?_, ?_, ?_, ?_, registries_cover_variants, registries_cover_tags,
    ⟨by decide, ?_⟩, ?_, ?_⟩
  · intro a h
    obtain ⟨bs, h1, h2, h3, h4, h5⟩ := Action.action_round_trip a h
    refine ⟨bs, h1, h3, h4, ?_⟩
    have := h5 []
    rwa [List.append_nil, ← h2] at this
  · intro a h hc
    obtain ⟨bs, h1, h2, _, h4, h5⟩ := Action.action_round_trip a h
    have hp : Action.padded a = a := Family.padded_canonical actionFamily a hc
    rw [hp] at h4 h5
    refine ⟨bs, h1, h4, ?_⟩
    have := h5 []
    rwa [List.append_nil, ← h2] at this
  · intro i h hc
    obtain ⟨bs, h1, h2, h3, _, _, h4, h5⟩ := Instruction.instruction_round_trip i h hc
    refine ⟨bs, h1, h3, h4, ?_⟩
    have := h5 []
    rwa [List.append_nil, ← h2] at this
  · intro i h hc
    obtain ⟨bs, h1, h2, _, _, _, h4, h5⟩ := Instruction.instruction_round_trip i h hc.2
    rw [Instruction.padded_canonical_eq i hc] at h4 h5
    refine ⟨bs, h1, h4, ?_⟩
    have := h5 []
    rwa [List.append_nil, ← h2] at this
  · intro q h
    obtain ⟨bs, h1, h2, h3, h4⟩ := QueueProp.queueProp_round_trip q h
    refine ⟨bs, h1, h3, ?_⟩
    have := h4 []
    rwa [List.append_nil, ← h2] at this
  · intro d v h
    have := GoType.value_decode_encode d v [] h
    rwa [List.append_nil] at this
  · intro m hm h hc
    obtain ⟨bs, h1, h2, h3⟩ := Record.message_round_trip m (messageRecords_shape _ hm) h hc
    refine ⟨bs, h1, ?_⟩
    have := h3 []
    rwa [List.append_nil, ← h2] at this
  · intro m hm h hc
    obtain ⟨bs, h1, h2, h3⟩ := Record.body_round_trip m (framedBodyRecords_shape _ hm) h hc
    refine ⟨bs, h1, ?_⟩
    have := h3 []
    rwa [List.append_nil, ← h2] at this

/-- Witness of C1, amended: the example actions (an output action, an action
of a tag with no record of its own, an experimenter action of aligned length),
instructions and queue properties are valid and are given back as they are;
the experimenter action and instruction of unaligned length are valid and come
back with their padding; the example match, the example messages (one for each
shape of trailing part) and the example flow stats entry round-trip through
the codec. -/
theorem codec_round_trip_witness :
    ((Action.Valid exampleVendorAction ∧
        ∃ bs, Action.PackBinary exampleVendorAction = .ok bs ∧ bs.length % 8 = 0 ∧
          Action.UnpackBinary exampleVendorAction.decl bs =
            .ok (Action.padded exampleVendorAction) ∧
          decodeAction bs = .ok (Action.padded exampleVendorAction, bs.length)) ∧
      (exampleVendorInstruction.Valid ∧
        (∀ a ∈ exampleVendorInstruction.Actions, Action.Canonical a) ∧
        ∃ bs, exampleVendorInstruction.PackBinary = .ok bs ∧ bs.length % 8 = 0 ∧
          Instruction.UnpackBinary exampleVendorInstruction.decl bs =
            .ok exampleVendorInstruction.padded ∧
          decodeInstruction bs = .ok (exampleVendorInstruction.padded, bs.length))) ∧
    ((Action.Valid exampleOutput ∧ Action.Canonical exampleOutput ∧
        ∃ bs, Action.PackBinary exampleOutput = .ok bs ∧
          Action.UnpackBinary exampleOutput.decl bs = .ok exampleOutput ∧
          decodeAction bs = .ok (exampleOutput, bs.length)) ∧
      (Action.Valid examplePopVLAN ∧ Action.Canonical examplePopVLAN ∧
        ∃ bs, Action.PackBinary examplePopVLAN = .ok bs ∧
          Action.UnpackBinary examplePopVLAN.decl bs = .ok examplePopVLAN ∧
          decodeAction bs = .ok (examplePopVLAN, bs.length)) ∧
      (Action.Valid exampleVendorAligned ∧ Action.Canonical exampleVendorAligned ∧
        ∃ bs, Action.PackBinary exampleVendorAligned = .ok bs ∧
          Action.UnpackBinary exampleVendorAligned.decl bs = .ok exampleVendorAligned ∧
          decodeAction bs = .ok (exampleVendorAligned, bs.length))) ∧
    ((exampleApply.Valid ∧ exampleApply.Canonical ∧
        ∃ bs, exampleApply.PackBinary = .ok bs ∧
          Instruction.UnpackBinary exampleApply.decl bs = .ok exampleApply ∧
          decodeInstruction bs = .ok (exampleApply, bs.length)) ∧
      (exampleWrite.Valid ∧ exampleWrite.Canonical ∧
        ∃ bs, exampleWrite.PackBinary = .ok bs ∧
          Instruction.UnpackBinary exampleWrite.decl bs = .ok exampleWrite ∧
          decodeInstruction bs = .ok (exampleWrite, bs.length))) ∧
    ((QueueProp.Valid exampleMinRate ∧
        ∃ bs, QueueProp.PackBinary exampleMinRate = .ok bs ∧
          QueueProp.UnpackBinary exampleMinRate.decl bs = .ok exampleMinRate ∧
          decodeQueueProp bs = .ok (exampleMinRate, bs.length)) ∧
      (QueueProp.Valid exampleVendorQueueProp ∧
        ∃ bs, QueueProp.PackBinary exampleVendorQueueProp = .ok bs ∧
          QueueProp.UnpackBinary exampleVendorQueueProp.decl bs = .ok exampleVendorQueueProp ∧
          decodeQueueProp bs = .ok (exampleVendorQueueProp, bs.length))) ∧
    (Match.wellTyped exampleMatch = true ∧
      Match.decode (Match.encode exampleMatch) = .ok (exampleMatch, [])) ∧
    (exampleHello.RoundTripsAsMessage ∧ exampleError.RoundTripsAsMessage ∧
      exampleFeatures.RoundTripsAsMessage ∧ exampleFlowMod.RoundTripsAsMessage ∧
      exampleFlowModWrite.RoundTripsAsMessage ∧
      exampleGroupMod.RoundTripsAsMessage ∧ exampleQueueReply.RoundTripsAsMessage ∧
      examplePacketOut.RoundTripsAsMessage) ∧
    (exampleFlowStats.decl ∈ framedBodyRecords ∧ exampleFlowStats.Valid ∧
      exampleFlowStats.Canonical ∧
      ∃ bs, exampleFlowStats.encode = .ok bs ∧
        decodeBody exampleFlowStats.decl bs = .ok (exampleFlowStats, bs.length)) :=
  ⟨⟨⟨by decide, codec_round_trip.1 exampleVendorAction (by decide)⟩,
    ⟨by decide, by decide,
      codec_round_trip.2.2.1 exampleVendorInstruction (by decide) (by decide)⟩⟩,
   ⟨⟨by decide, by decide, codec_round_trip.2.1 exampleOutput (by decide) (by decide)⟩,
    ⟨by decide, by decide, codec_round_trip.2.1 examplePopVLAN (by decide) (by decide)⟩,
    ⟨by decide, by decide,
      codec_round_trip.2.1 exampleVendorAligned (by decide) (by decide)⟩⟩,
   ⟨⟨by decide, by decide, codec_round_trip.2.2.2.1 exampleApply (by decide) (by decide)⟩,
    ⟨by decide, by decide, codec_round_trip.2.2.2.1 exampleWrite (by decide) (by decide)⟩⟩,
   ⟨⟨by decide, codec_round_trip.2.2.2.2.1 exampleMinRate (by decide)⟩,
    ⟨by decide, codec_round_trip.2.2.2.2.1 exampleVendorQueueProp (by decide)⟩⟩,
   ⟨by decide, codec_round_trip.2.2.2.2.2.2.2.1.2 Match exampleMatch (by decide)⟩,
   ⟨⟨by decide, by decide, by decide,
      codec_round_trip.2.2.2.2.2.2.2.2.1 exampleHello (by decide) (by decide) (by decide)⟩,
    ⟨by decide, by decide, by decide,
      codec_round_trip.2.2.2.2.2.2.2.2.1 exampleError (by decide) (by decide) (by decide)⟩,
    ⟨by decide, by decide, by decide,
      codec_round_trip.2.2.2.2.2.2.2.2.1 exampleFeatures (by decide) (by decide) (by decide)⟩,
    ⟨by decide, by decide, by decide,
      codec_round_trip.2.2.2.2.2.2.2.2.1 exampleFlowMod (by decide) (by decide) (by decide)⟩,
    ⟨by decide, by decide, by decide,
      codec_round_trip.2.2.2.2.2.2.2.2.1 exampleFlowModWrite (by decide) (by decide)
        (by decide)⟩,
    ⟨by decide, by decide, by decide,
      codec_round_trip.2.2.2.2.2.2.2.2.1 exampleGroupMod (by decide) (by decide) (by decide)⟩,
    ⟨by decide, by decide, by decide,
      codec_round_trip.2.2.2.2.2.2.2.2.1 exampleQueueReply (by decide) (by decide)
        (by decide)⟩,
    ⟨by decide, by decide, by decide,
      codec_round_trip.2.2.2.2.2.2.2.2.1 examplePacketOut (by decide) (by decide)
        (by decide)⟩⟩,
   ⟨by decide, by decide, by decide,
     codec_round_trip.2.2.2.2.2.2.2.2.2 exampleFlowStats (by decide) (by decide) (by decide)⟩⟩

/-- C2: the declared widths of the fields of `Match`, in declaration order and
with the reserved ranges `pad` (1 byte) and `pad2` (3 bytes), sum to 88 bytes,
which is `OFPMTStandardLen`. Every field has a fixed declared width and the
record has no part of variable width, so the size is the same for every value
of the record, whatever its `Wildcards` field holds. -/
theorem match_wire_width :
    Match.wireWidth = some 88 ∧
    OFPMTStandardLen = 88 ∧
    Match.fieldList.layout =
      [ ("Type", some 2), ("Length", some 2), ("InPort", some 4), ("Wildcards", some 4),
        ("DLSrc", some 6), ("DLSrcMask", some 6), ("DLDst", some 6), ("DLDstMask", some 6),
        ("DLVLAN", some 2), ("DLVLANPCP", some 1), ("pad", some 1), ("DLType", some 2),
        ("NWTos", some 1), ("NWProto", some 1), ("NWSrc", some 4), ("NWSrcMask", some 4),
        ("NWDst", some 4), ("NWDstMask", some 4), ("TPSrc", some 2), ("TPDst", some 2),
        ("MPLSLabel", some 4), ("MPLSTC", some 1), ("pad2", some 3), ("Metadata", some 8),
        ("MetadataMask", some 8) ] ∧
    (Match.fieldList.layout.map (fun f => f.2.getD 0)).sum = OFPMTStandardLen ∧
    Match.fieldList.variablePart.layout = [] := by
  decide

/-- C3: a `Header` occupies 8 bytes on the wire, laid out in declaration order
as `Version` (1 byte), `Type` (1 byte), `Length` (2 bytes), `XID` (4 bytes),
each written most significant byte first; the header with version 2, type
`OFPTHello`, length 8 and transaction id 1 serialises to
`02 00 00 08 00 00 00 01`. -/
theorem header_wire_bytes :
    Header.wireWidth = some 8 ∧
    Header.fieldList.layout =
      [("Version", some 1), ("Type", some 1), ("Length", some 2), ("XID", some 4)] ∧
    (∀ version type length xid : Nat,
      Header.encode (.seq [.uint version, .uint type, .uint length, .uint xid]) =
        [ version % 256, type % 256,
          length / 256 % 256, length % 256,
          xid / 256 ^ 3 % 256, xid / 256 ^ 2 % 256, xid / 256 % 256, xid % 256 ]) ∧
    Version = 2 ∧ OFPTHello = 0 ∧
    Header.encode (.seq [.uint Version, .uint OFPTHello, .uint 8, .uint 1]) =
      [2, 0, 0, 8, 0, 0, 0, 1] := by
  refine ⟨by decide, by decide, ?_, by decide, by decide, by decide⟩
  intro version type length xid
  have h1 : isReserved "Version" = false := by decide
  have h2 : isReserved "Type" = false := by decide
  have h3 : isReserved "Length" = false := by decide
  have h4 : isReserved "XID" = false := by decide
  simp [Header, fields, GoType.encode, FieldList.encode, h1, h2, h3, h4, putUint]

/-- C4: the message type constants take the positional values 0 to 23 in the
order of the block, they are pairwise distinct, and each fits the one-byte
`Type` field of `Header`. -/
theorem message_types_positional :
    OFPTHello = 0 ∧ OFPTError = 1 ∧ OFPTEchoRequest = 2 ∧ OFPTEchoReply = 3 ∧
    OFPTExperimenter = 4 ∧ OFPTFeaturesRequest = 5 ∧ OFPTFeaturesReply = 6 ∧
    OFPTGetConfigRequest = 7 ∧ OFPTGetConfigReply = 8 ∧ OFPTSetConfig = 9 ∧
    OFPTPacketIn = 10 ∧ OFPTFlowRemoved = 11 ∧ OFPTPortStatus = 12 ∧
    OFPTPacketOut = 13 ∧ OFPTFlowMod = 14 ∧ OFPTGroupMod = 15 ∧ OFPTPortMod = 16 ∧
    OFPTTableMod = 17 ∧ OFPTStatsRequest = 18 ∧ OFPTStatsReply = 19 ∧
    OFPTBarrierRequest = 20 ∧ OFPTBarrierReply = 21 ∧
    OFPTQueueGetConfigRequest = 22 ∧ OFPTQueueGetConfigReply = 23 ∧
    constValues messageTypeBlock = List.range 24 ∧
    messageTypes = List.range 24 ∧
    messageTypes.Nodup ∧
    (Header.typeOf "Type").bind GoType.wireWidth = some 1 ∧
    ∀ t ∈ messageTypes, t < 2 ^ 8 := by
  decide

/-- C5: the declared widths of every record of an `Action` variant, of
`InstructionGotoTable`, of `InstructionWriteMetadata` and of the fixed part of
`InstructionActions` are multiples of 8, and therefore an `InstructionActions`
element that holds any list of such actions has a length that is a multiple
of 8. -/
theorem element_lengths_multiple_of_eight :
    (∀ a ∈ actionRecords, a.wireWidth.map (fun w => w % 8) = some 0) ∧
    InstructionGotoTable.wireWidth = some 8 ∧
    InstructionWriteMetadata.wireWidth = some 24 ∧
    InstructionActions.fixedWidth = 8 ∧
    (InstructionActions.fieldList.variablePart.layout = [("Actions", none)]) ∧
    ∀ held : List GoType, (∀ a ∈ held, a ∈ actionRecords) →
      ∃ n, InstructionActions.elementLen held = some n ∧ n % 8 = 0 := by
  have hrec : ∀ a ∈ actionRecords, a.wireWidth.map (fun w => w % 8) = some 0 := by decide
  refine ⟨hrec, by decide, by decide, by decide, by decide, ?_⟩
  intro held hheld
  have hsum : ∃ m, listWidth held = some m ∧ m % 8 = 0 := by
    induction held with
    | nil => exact ⟨0, rfl, rfl⟩
    | cons a rest ih =>
        obtain ⟨m, hm, hm8⟩ := ih (fun b hb => hheld b (List.mem_cons_of_mem _ hb))
        have ha := hrec a (hheld a (List.mem_cons_self _ _))
        cases hw : a.wireWidth with
        | none => simp [hw] at ha
        | some w =>
            simp only [hw, Option.map_some', Option.some.injEq] at ha
            refine ⟨w + m, ?_, by omega⟩
            simp [listWidth, hw, hm]
  obtain ⟨m, hm, hm8⟩ := hsum
  refine ⟨8 + m, ?_, by omega⟩
  have hfix : InstructionActions.fixedWidth = 8 := by decide
  simp [GoType.elementLen, hm, hfix]

/-- Witness of C5: an `InstructionActions` element holding an `ActionOutput`
and an `ActionGroup` is 32 bytes long. -/
theorem element_lengths_multiple_of_eight_witness :
    ∃ n, InstructionActions.elementLen [ActionOutput, ActionGroup] = some n ∧ n % 8 = 0 :=
  element_lengths_multiple_of_eight.2.2.2.2.2 [ActionOutput, ActionGroup]
    (fun a ha => by
      rcases List.mem_cons.1 ha with h | h
      · subst h; exact List.Mem.head _
      · rcases List.mem_cons.1 h with h | h
        · subst h; exact List.Mem.tail _ (List.Mem.head _)
        · cases h)

/-- Counterexample to C6: the header of a queue property is 8 bytes wide, so
the three element headers are not all 4 bytes wide. -/
theorem tlv_headers_all_four_bytes_false :
    ¬ (ActionHeader.wireWidth = some 4 ∧ InstructionHeader.wireWidth = some 4 ∧
        QueuePropHeader.wireWidth = some 4) := by
  decide

/-- C6, amended: `ActionHeader` and `InstructionHeader` are exactly 4 bytes, a
2-byte type tag followed by a 2-byte length and nothing else; `QueuePropHeader`
is 8 bytes, a 2-byte property tag and a 2-byte length followed by 4 reserved
bytes. -/
theorem tlv_header_widths :
    ActionHeader.wireWidth = some 4 ∧
    ActionHeader.fieldList.layout = [("Type", some 2), ("Length", some 2)] ∧
    InstructionHeader.wireWidth = some 4 ∧
    InstructionHeader.fieldList.layout = [("Type", some 2), ("Length", some 2)] ∧
    QueuePropHeader.wireWidth = some 8 ∧
    QueuePropHeader.fieldList.layout =
      [("Property", some 2), ("Length", some 2), ("pad", some 4)] := by
  decide

/-- Counterexample to C7: the queue property family defines the tags 0 and 1
only, so not every family has the tag 0xffff among its tags. -/
theorem experimenter_tag_in_every_family_false :
    ¬ (∀ f ∈ tagFamilies, 0xffff ∈ f.tags) := by
  decide

/-- C7, amended: the `Action` and `Instruction` families define the
experimenter tag 0xffff, and the `Action` family declares for it the record
`ActionExperimenterHeader` with a 32-bit `Experimenter` field; the
`QueueProp` family defines the tags `OFPQTNone` = 0 and `OFPQTMinRate` = 1
only. -/
theorem experimenter_tag_in_action_and_instruction :
    OFPATExperimenter = 0xffff ∧ OFPATExperimenter ∈ actionTags.tags ∧
    OFPITExperimenter = 0xffff ∧ OFPITExperimenter ∈ instructionTags.tags ∧
    (ActionExperimenterHeader.typeOf "Experimenter").bind GoType.wireWidth = some 4 ∧
    ActionExperimenterHeader.fieldList.layout = [("Header", some 4), ("Experimenter", some 4)] ∧
    queuePropTags.tags = [OFPQTNone, OFPQTMinRate] ∧
    OFPQTNone = 0 ∧ OFPQTMinRate = 1 ∧
    0xffff ∉ queuePropTags.tags := by
  decide

/-- C8: the ten wildcard flags are the pairwise distinct single-bit values
2^0 to 2^9, `OFPFWAll` is their bitwise OR, which is 0x3ff, and so lies in the
low 10 bits of the 32-bit `Wildcards` field. -/
theorem flow_wildcards_low_ten_bits :
    OFPFWInPort = 2 ^ 0 ∧ OFPFWDLVLAN = 2 ^ 1 ∧ OFPFWDLVLANPCP = 2 ^ 2 ∧
    OFPFWDLType = 2 ^ 3 ∧ OFPFWNWTOS = 2 ^ 4 ∧ OFPFWNWProto = 2 ^ 5 ∧
    OFPFWTPSrc = 2 ^ 6 ∧ OFPFWTPDst = 2 ^ 7 ∧ OFPFWMPLSLabel = 2 ^ 8 ∧
    OFPFWMPLSTC = 2 ^ 9 ∧
    flowWildcardFlags.length = 10 ∧
    flowWildcardFlags.Nodup ∧
    OFPFWAll = flowWildcardFlags.foldl (fun a b => a ||| b) 0 ∧
    OFPFWAll = 0x3ff ∧
    OFPFWAll < 2 ^ 10 ∧
    (Match.typeOf "Wildcards").bind GoType.wireWidth = some 4 := by
  decide

/-- C9: in every record that embeds a `Match`, the byte offset of the `Match`
field (the sum of the declared widths of the fields and pads before it, the
8-byte `Header` included where there is one) is a multiple of 8. -/
theorem match_offsets_aligned :
    FlowMod.offsetOf "Match" = some 48 ∧
    FlowRemoved.offsetOf "Match" = some 48 ∧
    FlowStatsRequest.offsetOf "Match" = some 32 ∧
    AggregateStatsRequest.offsetOf "Match" = some 32 ∧
    FlowStats.offsetOf "Match" = some 48 ∧
    (∀ r ∈ matchEmbeddingRecords, (r.typeOf "Match").bind GoType.wireWidth = some 88) ∧
    ∀ r ∈ matchEmbeddingRecords, (r.offsetOf "Match").map (fun o => o % 8) = some 0 := by
  decide

/-- C10: `Port` is a record of fixed width with a 16-byte `Name`
(`OFPMaxPortNameLen`) and a 6-byte `HWAddr` (`OFPEthALen`); the declared widths
of its fields and pads sum to 64 bytes. -/
theorem port_wire_width :
    OFPMaxPortNameLen = 16 ∧ OFPEthALen = 6 ∧
    (Port.typeOf "Name").bind GoType.wireWidth = some OFPMaxPortNameLen ∧
    (Port.typeOf "HWAddr").bind GoType.wireWidth = some OFPEthALen ∧
    Port.fieldList.layout =
      [ ("PortNO", some 4), ("pad", some 4), ("HWAddr", some 6), ("pad2", some 2),
        ("Name", some 16), ("Config", some 4), ("State", some 4), ("Curr", some 4),
        ("Advertised", some 4), ("Supported", some 4), ("Peer", some 4),
        ("CurrSpeed", some 4), ("MaxSpeed", some 4) ] ∧
    Port.fieldList.variablePart.layout = [] ∧
    Port.wireWidth = some 64 := by
  decide

/-- C11: `DescStats` consists of exactly five byte-array fields, in the order
`MfrDesc`, `HWDesc`, `SWDesc`, `SerialNum`, `DPDesc`, of declared widths 256,
256, 256, 32 and 256 bytes (`OFPDescStrLen` = 256, `OFPSerialNumLen` = 32), so
a Desc stats body is 1056 bytes; the stats type tag `OFPSTDesc` is 0 and
selects this record. -/
theorem desc_stats_layout :
    OFPDescStrLen = 256 ∧ OFPSerialNumLen = 32 ∧
    DescStats.fieldList.layout =
      [ ("MfrDesc", some 256), ("HWDesc", some 256), ("SWDesc", some 256),
        ("SerialNum", some 32), ("DPDesc", some 256) ] ∧
    DescStats.typeOf "MfrDesc" = some (.array OFPDescStrLen .byte) ∧
    DescStats.typeOf "HWDesc" = some (.array OFPDescStrLen .byte) ∧
    DescStats.typeOf "SWDesc" = some (.array OFPDescStrLen .byte) ∧
    DescStats.typeOf "SerialNum" = some (.array OFPSerialNumLen .byte) ∧
    DescStats.typeOf "DPDesc" = some (.array OFPDescStrLen .byte) ∧
    DescStats.fieldList.variablePart.layout = [] ∧
    DescStats.wireWidth = some (256 + 256 + 256 + 32 + 256) ∧
    DescStats.wireWidth = some 1056 ∧
    OFPSTDesc = 0 ∧
    statsReplyRegistry.lookup OFPSTDesc = some DescStats := by
  decide

/-- C12: the stats type tags are `OFPSTDesc` = 0 to `OFPSTGroupDesc` = 7 and
`OFPSTExperimenter` = 0xffff; they are pairwise distinct, so a value of the
`Type` field is the tag of at most one body shape, and each fits the 16-bit
`Type` field of `StatsRequest` and `StatsReply`. -/
theorem stats_types_distinct :
    OFPSTDesc = 0 ∧ OFPSTFlow = 1 ∧ OFPSTAggregate = 2 ∧ OFPSTTable = 3 ∧
    OFPSTPort = 4 ∧ OFPSTQueue = 5 ∧ OFPSTGroup = 6 ∧ OFPSTGroupDesc = 7 ∧
    OFPSTExperimenter = 0xffff ∧
    constValues statsTypeBlock = statsTypes ∧
    statsTypes.Nodup ∧
    (statsReplyRegistry.entries.map Prod.fst).Nodup ∧
    (∀ e1 ∈ statsReplyRegistry.entries, ∀ e2 ∈ statsReplyRegistry.entries,
      e1.1 = e2.1 → e1.2 = e2.2) ∧
    (StatsRequest.typeOf "Type").bind GoType.wireWidth = some 2 ∧
    (StatsReply.typeOf "Type").bind GoType.wireWidth = some 2 ∧
    ∀ t ∈ statsTypes, t < 2 ^ 16 := by
  decide

/-- C13: the 25 action type constants from `OFPATOutput` to `OFPATDecNWTTL`
take the values 0 to 24 in declaration order, `OFPATExperimenter` is 0xffff,
the 26 values are pairwise distinct, and each fits the 16-bit `Type` field of
`ActionHeader`. -/
theorem action_types_sequential :
    sequentialActionTypes = List.range 25 ∧
    sequentialActionTypes.length = 25 ∧
    OFPATOutput = 0 ∧ OFPATSetVLANVID = 1 ∧ OFPATSetVLANPCP = 2 ∧ OFPATSetDLSrc = 3 ∧
    OFPATSetDLDst = 4 ∧ OFPATSetNWSrc = 5 ∧ OFPATSetNWDst = 6 ∧ OFPATSetNWTos = 7 ∧
    OFPATSetNWECN = 8 ∧ OFPATSetTPSrc = 9 ∧ OFPATSetTPDst = 10 ∧ OFPATCopyTTLOut = 11 ∧
    OFPATCopyTTLIn = 12 ∧ OFPATSetMPLSLabel = 13 ∧ OFPATSetMPLSTC = 14 ∧
    OFPATSetMPLSTTL = 15 ∧ OFPATDecMPLSTTL = 16 ∧ OFPATPushVLAN = 17 ∧
    OFPATPopVLAN = 18 ∧ OFPATPushMPLS = 19 ∧ OFPATPopMPLS = 20 ∧ OFPATSetQueue = 21 ∧
    OFPATGroup = 22 ∧ OFPATSetNWTTL = 23 ∧ OFPATDecNWTTL = 24 ∧
    OFPATExperimenter = 0xffff ∧
    constValues actionTypeBlock = actionTypes ∧
    actionTypes.length = 26 ∧
    actionTypes.Nodup ∧
    (ActionHeader.typeOf "Type").bind GoType.wireWidth = some 2 ∧
    ∀ t ∈ actionTypes, t < 2 ^ 16 := by
  decide

/-- C14: every reserved port number is strictly greater than `OFPPMax` =
0xffffff00 and at most 0xffffffff, so it fits the 32-bit `PortNO` field and
differs from every port number up to `OFPPMax`; the eight reserved values are
pairwise distinct and are exactly the consecutive range 0xfffffff8 to
0xffffffff. -/
theorem reserved_ports_range :
    OFPPMax = 0xffffff00 ∧
    (∀ p ∈ reservedPorts, OFPPMax < p ∧ p ≤ 0xffffffff ∧ p < 2 ^ 32) ∧
    (Port.typeOf "PortNO").bind GoType.wireWidth = some 4 ∧
    reservedPorts.length = 8 ∧
    reservedPorts.Nodup ∧
    reservedPorts =
      [ 0xfffffff8, 0xfffffff9, 0xfffffffa, 0xfffffffb, 0xfffffffc, 0xfffffffd,
        0xfffffffe, 0xffffffff ] ∧
    reservedPorts = List.range' 0xfffffff8 8 ∧
    ∀ n : Nat, n ≤ OFPPMax → n ∉ reservedPorts := by
  refine ⟨by decide, by decide, by decide, by decide, by decide, by decide, by decide, ?_⟩
  intro n hn hmem
  have hall : ∀ p ∈ reservedPorts, OFPPMax < p := by decide
  have := hall n hmem
  omega

/-- Witness of C14: the largest port number that is not reserved, `OFPPMax`
itself, is none of the reserved port numbers. -/
theorem reserved_ports_range_witness :
    0xffffff00 ≤ OFPPMax ∧ 0xffffff00 ∉ reservedPorts :=
  ⟨by decide, reserved_ports_range.2.2.2.2.2.2.2 0xffffff00 (by decide)⟩

end ofp11
